import Mathlib

/-!
# NPS serialization framework: a shallow embedding

The development follows `NPS_Utils.h`, `NPS_Serialize.h`, `NPS_SessionKey.h` and
`GLDP_UserStatus.h`.

Conventions.

* Machine integers are `Nat` (unsigned) or `Int` (signed) and every conversion to a
  fixed width is an explicit `%`.
* The data model is the ILP32 one the headers were written for
  (`sizeof(short) = 2`, `sizeof(int) = sizeof(long) = 4`), under which
  `Header::size_` is the 12 bytes listed in the header layout comment.
* Memory is a heap of numbered blocks; a pointer is a block number and an offset.
  The byte function is total: an access outside a live block is undefined behaviour
  in the C++ and has no meaning here beyond the formula that defines it.
* The host byte order is a parameter `e : Endian` of everything that touches the
  object representation of an integer.
-/

namespace NPS

/-! ## Sizes of the integer types (ILP32) -/

/-- Value of `sizeof(uint16)` (`unsigned short`). -/
def sizeof_uint16 : Nat := 2

/-- Value of `sizeof(uint32)` (`unsigned long` on ILP32). -/
def sizeof_uint32 : Nat := 4

/-- Value of `sizeof(int)`. -/
def sizeof_int : Nat := 4

/-! ## Byte order (`NPS_Utils.h`, `htons`/`htonl`) -/

/-- Byte order of the host (`NPS_BIG_ENDIAN` / `NPS_LITTLE_ENDIAN`). -/
inductive Endian where
  | big
  | little
deriving DecidableEq, Repr

/-- Object representation of a 16-bit value: the bytes `memcpy` sees at `&val`. -/
def rep16 (e : Endian) (v : Nat) : List Nat :=
  match e with
  | .big => [v / 256 % 256, v % 256]
  | .little => [v % 256, v / 256 % 256]

/-- Object representation of a 32-bit value: the bytes `memcpy` sees at `&val`. -/
def rep32 (e : Endian) (v : Nat) : List Nat :=
  match e with
  | .big => [v / 16777216 % 256, v / 65536 % 256, v / 256 % 256, v % 256]
  | .little => [v % 256, v / 256 % 256, v / 65536 % 256, v / 16777216 % 256]

/-- Value of the 16-bit object whose representation is `bs` (inverse of `rep16`). -/
def val16 (e : Endian) (bs : List Nat) : Nat :=
  match e with
  | .big => bs.getD 0 0 % 256 * 256 + bs.getD 1 0 % 256
  | .little => bs.getD 1 0 % 256 * 256 + bs.getD 0 0 % 256

/-- Value of the 32-bit object whose representation is `bs` (inverse of `rep32`). -/
def val32 (e : Endian) (bs : List Nat) : Nat :=
  match e with
  | .big => bs.getD 0 0 % 256 * 16777216 + bs.getD 1 0 % 256 * 65536
      + bs.getD 2 0 % 256 * 256 + bs.getD 3 0 % 256
  | .little => bs.getD 3 0 % 256 * 16777216 + bs.getD 2 0 % 256 * 65536
      + bs.getD 1 0 % 256 * 256 + bs.getD 0 0 % 256

/-- Swap the two bytes of a 16-bit value. -/
def bswap16 (v : Nat) : Nat := v % 256 * 256 + v / 256 % 256

/-- Reverse the four bytes of a 32-bit value. -/
def bswap32 (v : Nat) : Nat :=
  v % 256 * 16777216 + v / 256 % 256 * 65536 + v / 65536 % 256 * 256 + v / 16777216 % 256

/-- The platform `htons`: identity on a big-endian host, byte swap on a little-endian one. -/
def htons (e : Endian) (v : Nat) : Nat :=
  match e with
  | .big => v % 65536
  | .little => bswap16 v

/-- The platform `htonl`. -/
def htonl (e : Endian) (v : Nat) : Nat :=
  match e with
  | .big => v % 4294967296
  | .little => bswap32 v

/-- The platform `ntohs`. -/
def ntohs (e : Endian) (v : Nat) : Nat := htons e v

/-- The platform `ntohl`. -/
def ntohl (e : Endian) (v : Nat) : Nat := htonl e v

/-- `hton( uint16 val )`: `return htons(val);` -/
def hton_uint16 (e : Endian) (val : Nat) : Nat := htons e val

/-- `hton( uint32 val )`: `return htonl(val);` -/
def hton_uint32 (e : Endian) (val : Nat) : Nat := htonl e val

/-- `ntoh( uint16 val )`: `return ntohs(val);` -/
def ntoh_uint16 (e : Endian) (val : Nat) : Nat := ntohs e val

/-- `ntoh( uint32 val )`: `return ntohl(val);` -/
def ntoh_uint32 (e : Endian) (val : Nat) : Nat := ntohl e val

/-- Conversion `(uint32)val` of a signed 32-bit value. -/
def toUint32 (val : Int) : Nat := (val % 4294967296).toNat

/-- Conversion of an unsigned 32-bit pattern to `int32` (two's complement). -/
def toInt32 (v : Nat) : Int :=
  if v % 4294967296 < 2147483648 then ((v % 4294967296 : Nat) : Int)
  else ((v % 4294967296 : Nat) : Int) - 4294967296

/-- `hton( int32 val )`: `return hton( (uint32)val );` -/
def hton_int32 (e : Endian) (val : Int) : Int := toInt32 (hton_uint32 e (toUint32 val))

/-- `ntoh( int32 val )`: `return ntoh( (uint32)val );` -/
def ntoh_int32 (e : Endian) (val : Int) : Int := toInt32 (ntoh_uint32 e (toUint32 val))

/-- The four bytes of `v` most significant first (network order). -/
def be32 (v : Nat) : List Nat := [v / 16777216 % 256, v / 65536 % 256, v / 256 % 256, v % 256]

/-- The two bytes of `v` most significant first (network order). -/
def be16 (v : Nat) : List Nat := [v / 256 % 256, v % 256]

/-! ## Memory -/

/-- A pointer into the heap: block number and byte offset. -/
structure Ptr where
  block : Nat
  off : Nat
deriving DecidableEq, Repr

/-- Pointer arithmetic `p + n`. -/
def Ptr.add (p : Ptr) (n : Nat) : Ptr := ⟨p.block, p.off + n⟩

/-- The heap: contents, sizes of the live blocks, and the next unused block number.
A block that was never allocated has arbitrary contents, which is what
`new unsigned char[len]` hands out. -/
structure Heap where
  byte : Nat → Nat → Nat
  size : Nat → Option Nat
  next : Nat

/-- `memcpy( dst, src, len )` where the source bytes are given as a list. -/
def Heap.memcpyTo (hp : Heap) (dst : Ptr) (src : List Nat) : Heap :=
  { hp with byte := fun b o =>
      if b = dst.block ∧ dst.off ≤ o ∧ o < dst.off + src.length
      then src.getD (o - dst.off) 0 else hp.byte b o }

/-- The `len` bytes found at `src`, as `memcpy( _, src, len )` reads them. -/
def Heap.memcpyFrom (hp : Heap) (src : Ptr) (len : Nat) : List Nat :=
  (List.range len).map fun k => hp.byte src.block (src.off + k)

/-- `new unsigned char[len]`: a fresh block with indeterminate contents. -/
def Heap.newArray (hp : Heap) (len : Nat) : Heap × Ptr :=
  ({ hp with size := fun b => if b = hp.next then some len else hp.size b,
             next := hp.next + 1 }, ⟨hp.next, 0⟩)

/-- `delete[] p`. -/
def Heap.deleteArray (hp : Heap) (p : Ptr) : Heap :=
  { hp with size := fun b => if b = p.block then none else hp.size b }

/-- The range `[p, p + len)` lies inside a live block. -/
def Heap.valid (hp : Heap) (p : Ptr) (len : Nat) : Bool :=
  match hp.size p.block with
  | some n => decide (p.off + len ≤ n)
  | none => false

/-- Every live block has a number below `next`, so `newArray` returns a block distinct
from all live ones. -/
def Heap.WF (hp : Heap) : Prop := ∀ b, hp.next ≤ b → hp.size b = none

/-- A heap without live blocks; every byte of the unallocated memory holds `fill`. -/
def Heap.empty (fill : Nat) : Heap :=
  { byte := fun _ _ => fill, size := fun _ => none, next := 0 }

/-- A heap with one live block `0` of `n` bytes, every byte holding `fill`. -/
def Heap.single (n fill : Nat) : Heap :=
  { byte := fun _ _ => fill, size := fun b => if b = 0 then some n else none, next := 1 }

/-! ## `NPS_Serialize::Header` -/

/-- The header object: `data_` (`none` is `NULL`) and `iOwnTheBuffer_`. -/
structure Header where
  data_ : Option Ptr
  iOwnTheBuffer_ : Bool
deriving DecidableEq, Repr

namespace Header

/-- The constant `size_  = (4*sizeof(uint16)) + sizeof(uint32)`. -/
def size_ : Nat := 4 * sizeof_uint16 + sizeof_uint32

/-- `Header::Header()`. -/
def ctor : Header := { data_ := none, iOwnTheBuffer_ := false }

/-- `Header::deleteAllocation()`. -/
def deleteAllocation (self : Header) (hp : Heap) : Header × Heap :=
  let hp1 := match self.data_ with
    | some p => if self.iOwnTheBuffer_ then hp.deleteArray p else hp
    | none => hp
  ({ self with data_ := none }, hp1)

/-- `Header::setAllocation( unsigned char * ptr )`. -/
def setAllocation (self : Header) (hp : Heap) (ptr : Option Ptr) : Header × Heap :=
  let r := self.deleteAllocation hp
  ({ r.1 with data_ := ptr }, r.2)

/-- `Header::Header( const unsigned char *alloc )`. -/
def ctorBuf (hp : Heap) (alloc : Option Ptr) : Header × Heap :=
  ctor.setAllocation hp alloc

/-- `Header::id() const`. -/
def id (e : Endian) (hp : Heap) (self : Header) : Nat :=
  let id := match self.data_ with
    | some p => val16 e (hp.memcpyFrom p sizeof_uint16)
    | none => 0
  ntoh_uint16 e id

/-- `Header::setId( uint16 id )`. -/
def setId (e : Endian) (self : Header) (hp : Heap) (id : Nat) : Header × Heap :=
  match self.data_ with
  | some p => (self, hp.memcpyTo p (rep16 e (hton_uint16 e id)))
  | none => (self, hp)

/-- `Header::length() const`. -/
def length (e : Endian) (hp : Heap) (self : Header) : Nat :=
  let len := match self.data_ with
    | some p => val16 e (hp.memcpyFrom (p.add sizeof_uint16) sizeof_uint16)
    | none => 0
  ntoh_uint16 e len

/-- `Header::setLength( uint16 len )`. -/
def setLength (e : Endian) (self : Header) (hp : Heap) (len : Nat) : Header × Heap :=
  match self.data_ with
  | some p => (self, hp.memcpyTo (p.add sizeof_uint16) (rep16 e (hton_uint16 e len)))
  | none => (self, hp)

/-- `Header::version() const`. -/
def version (e : Endian) (hp : Heap) (self : Header) : Nat :=
  let ver := match self.data_ with
    | some p => val16 e (hp.memcpyFrom (p.add (2 * sizeof_uint16)) sizeof_uint16)
    | none => 0
  ntoh_uint16 e ver

/-- `Header::setVersion( uint16 ver )`. -/
def setVersion (e : Endian) (self : Header) (hp : Heap) (ver : Nat) : Header × Heap :=
  match self.data_ with
  | some p => (self, hp.memcpyTo (p.add (2 * sizeof_uint16)) (rep16 e (hton_uint16 e ver)))
  | none => (self, hp)

/-- `Header::checksum() const`. -/
def checksum (e : Endian) (hp : Heap) (self : Header) : Nat :=
  let sum := match self.data_ with
    | some p => val32 e (hp.memcpyFrom (p.add (4 * sizeof_uint16)) sizeof_uint32)
    | none => 0
  ntoh_uint32 e sum

/-- `Header::sequenceNumber() const`: `return checksum();` -/
def sequenceNumber (e : Endian) (hp : Heap) (self : Header) : Nat :=
  self.checksum e hp

/-- `Header::setChecksum( uint32 sum )`. -/
def setChecksum (e : Endian) (self : Header) (hp : Heap) (sum : Nat) : Header × Heap :=
  match self.data_ with
  | some p => (self, hp.memcpyTo (p.add (4 * sizeof_uint16)) (rep32 e (hton_uint32 e sum)))
  | none => (self, hp)

/-- `Header::setSequenceNumber( uint32 val )`: `setChecksum(val);` -/
def setSequenceNumber (e : Endian) (self : Header) (hp : Heap) (val : Nat) : Header × Heap :=
  self.setChecksum e hp val

/-- `Header::clear()`: `if(data_) memset( data_, 0, size_ );` -/
def clear (self : Header) (hp : Heap) : Header × Heap :=
  match self.data_ with
  | some p => (self, hp.memcpyTo p (List.replicate size_ 0))
  | none => (self, hp)

/-- `Header::getDataPtr()`: `( data_ )? data_ + size_ : NULL`. -/
def getDataPtr (self : Header) : Option Ptr :=
  match self.data_ with
  | some p => some (p.add size_)
  | none => none

/-- `Header::operator = ( const Header &h )`, for a source `h` that is another object
than `self`. -/
def assign (e : Endian) (self : Header) (hp : Heap) (h : Header) : Header × Heap :=
  match h.data_ with
  | some src =>
    let len := h.length e hp
    if len ≠ 0 then
      let a := hp.newArray len
      let r := self.setAllocation a.1 (some a.2)
      (r.1, r.2.memcpyTo a.2 (r.2.memcpyFrom src len))
    else (self, hp)
  | none => (self, hp)

/-- `Header::Header( const Header & h )`: members set to `NULL`/`false`, then
`*this = h`. -/
def copy (e : Endian) (hp : Heap) (h : Header) : Header × Heap :=
  ctor.assign e hp h

/-- `Header::~Header()`: `if( iOwnTheBuffer_ ) deleteAllocation();` -/
def dtor (self : Header) (hp : Heap) : Heap :=
  if self.iOwnTheBuffer_ then (self.deleteAllocation hp).2 else hp

end Header

/-! ## `NPS_Serialize`: data members and field primitives -/

/-- Data members of `NPS_Serialize` other than the cursor `serializedBufferPtr_`, which
is kept in `Stream` together with the memory it points into. -/
structure NPS_Serialize where
  header_ : Header
  messageId_ : Nat
  messageVersion_ : Nat
  serializeHeader_ : Bool
  sequenceNumber_ : Nat
deriving DecidableEq, Repr

/-- The state the field primitives act on: the memory and the cursor
`serializedBufferPtr_`. -/
structure Stream where
  heap : Heap
  serializedBufferPtr_ : Ptr

namespace NPS_Serialize

/-- Modelled from the spec: the constructor `NPS_Serialize( uint16 id = 0, uint16 version = 0 )`
is declared in `NPS_Serialize.h` but defined in a source file that is not in the
repository. The entity starts with the given id and version, no header buffer, header
emission on ("will normally be true") and no sequence number (0 means unset). -/
def ctor (id version : Nat) : NPS_Serialize :=
  { header_ := Header.ctor, messageId_ := id % 65536, messageVersion_ := version % 65536,
    serializeHeader_ := true, sequenceNumber_ := 0 }

/-- `NPS_Serialize::serializeSizeOf() const`: `( serializeHeader_ )? header_.size_ : 0`. -/
def serializeSizeOf (self : NPS_Serialize) : Nat :=
  if self.serializeHeader_ then Header.size_ else 0

/-- `NPS_Serialize::serializeHeader() const`. -/
def serializeHeader (self : NPS_Serialize) : Bool := self.serializeHeader_

/-- `NPS_Serialize::setSerializeHeader( bool b )`. -/
def setSerializeHeader (self : NPS_Serialize) (b : Bool) : NPS_Serialize :=
  { self with serializeHeader_ := b }

/-- `NPS_Serialize::messageVersion() const`. -/
def messageVersion (self : NPS_Serialize) : Nat := self.messageVersion_

/-- `NPS_Serialize::messageId() const`. -/
def messageId (self : NPS_Serialize) : Nat := self.messageId_

/-- `NPS_Serialize::setMessageVersion( uint16 ver )`. -/
def setMessageVersion (e : Endian) (self : NPS_Serialize) (hp : Heap) (ver : Nat) :
    NPS_Serialize × Heap :=
  let r := self.header_.setVersion e hp (ver % 65536)
  ({ self with messageVersion_ := ver % 65536, header_ := r.1 }, r.2)

/-- `NPS_Serialize::setMessageId( uint16 id )`. -/
def setMessageId (e : Endian) (self : NPS_Serialize) (hp : Heap) (id : Nat) :
    NPS_Serialize × Heap :=
  let r := self.header_.setId e hp (id % 65536)
  ({ self with messageId_ := id % 65536, header_ := r.1 }, r.2)

/-- `NPS_Serialize::generateChecksum() const`:
`uint16 a = header_.version(); uint16 b = header_.length(); uint32 val = b; val += (a << 8);` -/
def generateChecksum (e : Endian) (hp : Heap) (self : NPS_Serialize) : Nat :=
  let a := self.header_.version e hp
  let b := self.header_.length e hp
  let val := b
  (val + a * 256) % 4294967296

/-- `NPS_Serialize::sequenceNumber() const`: `return sequenceNumber_;` -/
def sequenceNumber (self : NPS_Serialize) : Nat := self.sequenceNumber_

/-- `NPS_Serialize::checksum() const`: `return header_.checksum();` -/
def checksum (e : Endian) (hp : Heap) (self : NPS_Serialize) : Nat :=
  self.header_.checksum e hp

/-- `NPS_Serialize::setSequenceNumber( uint32 cs )`. -/
def setSequenceNumber (e : Endian) (self : NPS_Serialize) (hp : Heap) (cs : Nat) :
    NPS_Serialize × Heap :=
  match self.header_.data_ with
  | some _ =>
    let r := self.header_.setChecksum e hp (cs % 4294967296)
    ({ self with sequenceNumber_ := cs % 4294967296, header_ := r.1 }, r.2)
  | none => ({ self with sequenceNumber_ := cs % 4294967296 }, hp)

/-- `NPS_Serialize::_serializeRaw( const unsigned char *buff, uint16 len )`:
`memcpy( serializedBufferPtr_, buff, len ); serializedBufferPtr_ += len;` -/
def _serializeRaw (st : Stream) (buff : List Nat) (len : Nat) : Stream :=
  { heap := st.heap.memcpyTo st.serializedBufferPtr_ (buff.take len),
    serializedBufferPtr_ := st.serializedBufferPtr_.add len }

/-- `NPS_Serialize::_deserializeRaw( unsigned char *dest, uint16 len )`:
`memcpy( dest, serializedBufferPtr_, len ); serializedBufferPtr_ += len;`
The bytes copied to `dest` are returned. -/
def _deserializeRaw (st : Stream) (len : Nat) : List Nat × Stream :=
  (st.heap.memcpyFrom st.serializedBufferPtr_ len,
   { st with serializedBufferPtr_ := st.serializedBufferPtr_.add len })

/-- `NPS_Serialize::_serialize( bool b )`: `*serializedBufferPtr_++ = (b)? 1 : 0;` -/
def _serialize_bool (st : Stream) (b : Bool) : Stream :=
  { heap := st.heap.memcpyTo st.serializedBufferPtr_ [if b then 1 else 0],
    serializedBufferPtr_ := st.serializedBufferPtr_.add 1 }

/-- `NPS_Serialize::_deserialize( bool &b )`: `b = (bool)(*serializedBufferPtr_++);` -/
def _deserialize_bool (st : Stream) : Bool × Stream :=
  (decide (st.heap.byte st.serializedBufferPtr_.block st.serializedBufferPtr_.off ≠ 0),
   { st with serializedBufferPtr_ := st.serializedBufferPtr_.add 1 })

/-- `NPS_Serialize::_serialize( uint16 val, bool b )`. -/
def _serialize_uint16 (e : Endian) (st : Stream) (val : Nat) (b : Bool) : Stream :=
  let val := if !b then hton_uint16 e val else val
  _serializeRaw st (rep16 e val) sizeof_uint16

/-- `NPS_Serialize::_deserialize( uint16 &val, bool b )`. -/
def _deserialize_uint16 (e : Endian) (st : Stream) (b : Bool) : Nat × Stream :=
  let r := _deserializeRaw st sizeof_uint16
  let val := val16 e r.1
  (if !b then ntoh_uint16 e val else val, r.2)

/-- `NPS_Serialize::_serialize( uint32 val, bool b )`:
`if( !b ) val = hton(val); _serializeRaw( (const unsigned char *)&val, sizeof(val) );` -/
def _serialize_uint32 (e : Endian) (st : Stream) (val : Nat) (b : Bool) : Stream :=
  let val := if !b then hton_uint32 e val else val
  _serializeRaw st (rep32 e val) sizeof_uint32

/-- `NPS_Serialize::_deserialize( uint32 &val, bool b )`. -/
def _deserialize_uint32 (e : Endian) (st : Stream) (b : Bool) : Nat × Stream :=
  let r := _deserializeRaw st sizeof_uint32
  let val := val32 e r.1
  (if !b then ntoh_uint32 e val else val, r.2)

/-- `NPS_Serialize::_serialize( int32 val, bool b )`; the object representation of an
`int32` is that of its two's complement bit pattern. -/
def _serialize_int32 (e : Endian) (st : Stream) (val : Int) (b : Bool) : Stream :=
  let val := if !b then hton_int32 e val else val
  _serializeRaw st (rep32 e (toUint32 val)) sizeof_uint32

/-- `NPS_Serialize::_deserialize( int32 &val, bool b )`. -/
def _deserialize_int32 (e : Endian) (st : Stream) (b : Bool) : Int × Stream :=
  let r := _deserializeRaw st sizeof_uint32
  let val := toInt32 (val32 e r.1)
  (if !b then ntoh_int32 e val else val, r.2)

/-- `NPS_Serialize::_serializeSizeOf( int val )`: `return sizeof(val);` -/
def _serializeSizeOf_int (_val : Int) : Nat := sizeof_int

/-- `NPS_Serialize::_serializeSizeOf( int32 val )`: `return sizeof(val);` -/
def _serializeSizeOf_int32 (_val : Int) : Nat := sizeof_uint32

/-- `NPS_Serialize::_serializeSizeOf( uint32 val )`: `return sizeof(val);` -/
def _serializeSizeOf_uint32 (_val : Nat) : Nat := sizeof_uint32

/-- `NPS_Serialize::_serializeSizeOf( uint16 val )`: `return sizeof(val);` -/
def _serializeSizeOf_uint16 (_val : Nat) : Nat := sizeof_uint16

/-- The integral promotion `bool -> int` applied to an argument of type `bool`. -/
def boolToInt (b : Bool) : Int := if b then 1 else 0

end NPS_Serialize

/-! ## The virtual interface and the parts of `NPS_Serialize` that are only declared

`serialize`, `deserialize`, the nested-entity primitives and the byte-buffer primitives
are declared in `NPS_Serialize.h` and defined in a source file that is not part of the
repository. They are modelled from the specification. -/

/-- The three virtual methods a class derived from `NPS_Serialize` implements, together
with access to its `NPS_Serialize` base subobject. The field chains receive and return
the stream state; the reader also returns the updated object. -/
structure Class (α : Type) where
  base : α → NPS_Serialize
  setBase : α → NPS_Serialize → α
  serializeSizeOf : α → Nat
  _doSerialize : α → Stream → Stream
  _doDeserialize : α → Stream → α × Stream

/-- The field writers of a class can reach the buffer only through the protected
`_serialize` primitives (the cursor is a private member), each of which writes at the
cursor and moves it forward: no byte in front of the cursor changes. -/
def Class.WritesForward {α : Type} (C : Class α) : Prop :=
  ∀ (x : α) (st : Stream) (b o : Nat),
    ¬ (b = st.serializedBufferPtr_.block ∧ st.serializedBufferPtr_.off ≤ o) →
    (C._doSerialize x st).heap.byte b o = st.heap.byte b o

/-- The base subobject written by `setBase` is the one `base` returns. -/
def Class.Lawful {α : Type} (C : Class α) : Prop :=
  ∀ (x : α) (s : NPS_Serialize), C.base (C.setBase x s) = s

namespace NPS_Serialize

/-- Modelled from the spec: the header-writing step of `serialize` (declared only):
"writes the header (id, total length, version, zero reserved, checksum = either the
generated checksum or the externally set sequence number)" through a header attached to
the output buffer. A sequence number of 0 means none was set ("Cannot = 0"). -/
def writeHeader (e : Endian) (s : NPS_Serialize) (len : Nat) (hp : Heap) (buff : Ptr) : Heap :=
  let h : Header := { data_ := some buff, iOwnTheBuffer_ := false }
  let hp1 := (h.clear hp).2
  let hp2 := (h.setId e hp1 s.messageId_).2
  let hp3 := (h.setLength e hp2 len).2
  let hp4 := (h.setVersion e hp3 s.messageVersion_).2
  let sum := if s.sequenceNumber_ ≠ 0 then s.sequenceNumber_
    else generateChecksum e hp4 { s with header_ := h }
  (h.setChecksum e hp4 sum).2

/-- Modelled from the spec: `serialize( unsigned char *buff, uint16 &len )` (declared
only). "Writes the header ... if headers are enabled, then invokes the virtual
field-writer chain"; the length reported is `serializeSizeOf()`. Returns the final stream
state (memory and cursor) and `len`. -/
def serializeInto {α : Type} (e : Endian) (C : Class α) (x : α) (hp : Heap) (buff : Ptr) :
    Stream × Nat :=
  let len := C.serializeSizeOf x % 65536
  let s := C.base x
  if s.serializeHeader_ then
    (C._doSerialize x { heap := writeHeader e s len hp buff,
                        serializedBufferPtr_ := buff.add Header.size_ }, len)
  else
    (C._doSerialize x { heap := hp, serializedBufferPtr_ := buff }, len)

/-- Modelled from the spec: `serialize( uint16 &len )` (declared only). "Allocates a new
buffer of exactly `serializeSizeOf()` bytes", then serializes into it. Returns the final
stream state, the buffer and `len`. -/
def serialize {α : Type} (e : Endian) (C : Class α) (x : α) (hp : Heap) :
    Stream × Ptr × Nat :=
  let len := C.serializeSizeOf x % 65536
  let a := hp.newArray len
  let r := serializeInto e C x a.1 a.2
  (r.1, a.2, r.2)

/-- Modelled from the spec: `deserialize( const unsigned char *buff_in, bool deallocate )`
(declared only). "Attaches the header, invokes the virtual field-reader chain ... and, if
takeOwnership is true, frees the input buffer once reading completes." The fields follow
the header when the entity emits one. -/
def deserialize {α : Type} (C : Class α) (x : α) (hp : Heap) (buff_in : Ptr)
    (deallocate : Bool) : α × Stream :=
  let s := C.base x
  let a := s.header_.setAllocation hp (some buff_in)
  let x1 := C.setBase x { s with header_ := a.1 }
  let start := if s.serializeHeader_ then buff_in.add Header.size_ else buff_in
  let r := C._doDeserialize x1 { heap := a.2, serializedBufferPtr_ := start }
  if deallocate then
    (r.1, { heap := r.2.heap.deleteArray buff_in,
            serializedBufferPtr_ := r.2.serializedBufferPtr_ })
  else r

/-- `NPS_Serialize::_serializeSizeOf( const NPS_Serialize *s )`:
`return s->serializeSizeOf() + sizeof( uint16 );` (a `uint16`). -/
def _serializeSizeOf_entity {β : Type} (C : Class β) (s : β) : Nat :=
  (C.serializeSizeOf s % 65536 + sizeof_uint16) % 65536

/-- Modelled from the spec: `_serialize( const NPS_Serialize * )` (declared only). "A
2-byte length prefix is written around the nested entity's own serialize call": the
prefix is the nested entity's `serializeSizeOf()`, the nested entity is serialized at the
cursor (header included or omitted per its own flag), and the cursor moves past it. -/
def _serialize_entity {β : Type} (e : Endian) (C : Class β) (st : Stream) (s : β) : Stream :=
  let len := C.serializeSizeOf s % 65536
  let st1 := _serialize_uint16 e st len false
  let r := serializeInto e C s st1.heap st1.serializedBufferPtr_
  { heap := r.1.heap, serializedBufferPtr_ := st1.serializedBufferPtr_.add len }

/-- Modelled from the spec: `_deserialize( NPS_Serialize * )` (declared only). The 2-byte
length prefix is read, the nested entity deserializes itself from the bytes that follow,
and the cursor moves past the prefixed length "so an unaware reader could skip over it". -/
def _deserialize_entity {β : Type} (e : Endian) (C : Class β) (st : Stream) (s : β) :
    β × Stream :=
  let r := _deserialize_uint16 e st false
  let d := deserialize C s r.2.heap r.2.serializedBufferPtr_ false
  (d.1, { heap := d.2.heap, serializedBufferPtr_ := r.2.serializedBufferPtr_.add r.1 })

end NPS_Serialize

/-- The field readers of a class can reach the buffer only through the protected
`_deserialize` primitives, which copy out of it: the memory contents are left as they
were. -/
def Class.ReadsOnly {β : Type} (C : Class β) : Prop :=
  ∀ (x : β) (st : Stream), (C._doDeserialize x st).2.heap.byte = st.heap.byte

/-- Nested round trip of a class, seen through `view`: from any memory that holds,
between the cursor positions before and after the nested write `_serialize( &a )`, the
bytes that write left there, the nested read `_deserialize( &a0 )` into an object with
the same header flag rebuilds the view of `a`. -/
def Class.NestedRoundTrip {β γ : Type} (e : Endian) (C : Class β) (view : β → γ) : Prop :=
  ∀ (a a0 : β) (st : Stream) (hp : Heap),
    (C.base a0).serializeHeader_ = (C.base a).serializeHeader_ →
    (∀ o, st.serializedBufferPtr_.off ≤ o →
      o < (NPS_Serialize._serialize_entity e C st a).serializedBufferPtr_.off →
      hp.byte st.serializedBufferPtr_.block o
        = (NPS_Serialize._serialize_entity e C st a).heap.byte st.serializedBufferPtr_.block o) →
    view (NPS_Serialize._deserialize_entity e C
      { heap := hp, serializedBufferPtr_ := st.serializedBufferPtr_ } a0).1 = view a

namespace NPS_Serialize

/-- The C library `strlen`: number of bytes before the first zero byte. -/
def strlen (str : List Nat) : Nat := (str.takeWhile fun c => c ≠ 0).length

/-- Modelled from the spec: `_serializeSizeOf( const char *str, uint16 len, bool
check_termination )` (declared only). "`sizeOf` for a fixed buffer of `len` bytes when
not null-terminated = `len` ... unless explicitly asked to check for embedded
termination, in which case it uses the shorter of the declared length or the terminator
position." -/
def _serializeSizeOf_buffer (str : List Nat) (len : Nat) (check_termination : Bool) : Nat :=
  if check_termination then min (strlen str) len else len

/-- Modelled from the spec: `_serialize( const char *buff, uint16 len )` (declared only).
"Fixed buffers: raw bytes only, no length prefix." -/
def _serialize_buffer (st : Stream) (buff : List Nat) (len : Nat) : Stream :=
  _serializeRaw st buff len

/-- `memcpy( dst, src, n )` between two arrays held as lists. -/
def memcpyList (dst src : List Nat) (n : Nat) : List Nat := src.take n ++ dst.drop n

/-- Modelled from the spec: `_deserialize( char *dest, uint16 max_len, bool terminate )`
(declared only; "deserializes the entire length as encoded"). "A 2-byte length prefix
precedes the raw bytes ... the reader re-terminates on read into caller-supplied fixed
storage, returning the byte count actually consumed, capped at the destination buffer
size." Returns the count, the new contents of `dest` and the stream. The spec gives
this description for C strings and does not say how the reader of a fixed buffer, which
is written without a prefix, learns its length; the theorems on round trips take the
byte-buffer primitives as a parameter (`BufferPrimitives`). -/
def _deserialize_buffer (e : Endian) (st : Stream) (dest : List Nat) (max_len : Nat)
    (terminate : Bool) : Nat × List Nat × Stream :=
  let l := _deserialize_uint16 e st false
  let n := min l.1 max_len
  let r := _deserializeRaw l.2 n
  let dest1 := memcpyList dest r.1 n
  (n, if terminate then dest1.set n 0 else dest1, r.2)

/-- The smallest class derived from `NPS_Serialize`: no data members of its own, the
inherited `serializeSizeOf()` and empty field chains. -/
def bareClass : Class NPS_Serialize :=
  { base := fun x => x, setBase := fun _ s => s, serializeSizeOf := serializeSizeOf,
    _doSerialize := fun _ st => st, _doDeserialize := fun x st => (x, st) }

end NPS_Serialize

/-! ## `NPS_SessionKey` -/

/-- The constant `NPS_SESSION_KEY_LEN` of `NPSTypes.h`. -/
def NPS_SESSION_KEY_LEN : Nat := 32

/-- Data members of `NPS_SessionKey`; `key_` is `char key_[maxLength_+1]` and
`expiryDate_` a `time_t`, which is `long` on the ILP32 platforms, so that the `int32`
overloads of the primitives are the ones selected for it. -/
structure NPS_SessionKey extends NPS_Serialize where
  key_ : List Nat
  keyLength_ : Nat
  expiryDate_ : Int
deriving DecidableEq, Repr

namespace NPS_SessionKey

/-- The enumerator `maxLength_ = NPS_SESSION_KEY_LEN`. -/
def maxLength_ : Nat := NPS_SESSION_KEY_LEN

/-- `NPS_SessionKey::maxLength()`. -/
def maxLength : Nat := maxLength_

/-- `NPS_SessionKey::NPS_SessionKey()`; `junk` is the indeterminate initial content of
the array `key_`, of which `memset` clears the first `maxLength_` bytes. -/
def ctor (junk : List Nat) : NPS_SessionKey :=
  { toNPS_Serialize := NPS_Serialize.ctor 0 0,
    key_ := NPS_Serialize.memcpyList junk (List.replicate maxLength_ 0) maxLength_,
    keyLength_ := 0, expiryDate_ := 0 }

/-- `NPS_SessionKey::setKey( const char *ptr, uint16 len )`. -/
def setKey (self : NPS_SessionKey) (ptr : List Nat) (len : Nat) : NPS_SessionKey :=
  let keyLength := if len > maxLength_ then maxLength_ else len
  { self with keyLength_ := keyLength,
              key_ := NPS_Serialize.memcpyList self.key_ ptr keyLength }

/-- `NPS_SessionKey::NPS_SessionKey( const char *buf, uint16 len, time_t expiry_date )`. -/
def ctorKey (junk : List Nat) (buf : List Nat) (len : Nat) (expiry_date : Int) :
    NPS_SessionKey :=
  let self : NPS_SessionKey :=
    { toNPS_Serialize := NPS_Serialize.ctor 0 0,
      key_ := (junk.set 0 0).set maxLength_ 0, keyLength_ := 0, expiryDate_ := expiry_date }
  self.setKey buf len

/-- `NPS_SessionKey::operator = ( const NPS_SessionKey &sk )`, for `sk` another object
than `self`: `setKey( sk.key(), sk.keyLength_ );` -/
def assign (self sk : NPS_SessionKey) : NPS_SessionKey :=
  self.setKey sk.key_ sk.keyLength_

/-- `NPS_SessionKey::expiryDate() const`. -/
def expiryDate (self : NPS_SessionKey) : Int := self.expiryDate_

/-- `NPS_SessionKey::setExpiryDate( time_t t )`. -/
def setExpiryDate (self : NPS_SessionKey) (t : Int) : NPS_SessionKey :=
  { self with expiryDate_ := t }

/-- `NPS_SessionKey::length() const`. -/
def length (self : NPS_SessionKey) : Nat := self.keyLength_

/-- `NPS_SessionKey::isValid() const`: `return expiryDate_ > 0;` -/
def isValid (self : NPS_SessionKey) : Bool := decide (self.expiryDate_ > 0)

/-- `NPS_SessionKey::serializeSizeOf() const`. -/
def serializeSizeOf (self : NPS_SessionKey) : Nat :=
  (self.toNPS_Serialize.serializeSizeOf
    + NPS_Serialize._serializeSizeOf_buffer self.key_ self.keyLength_ false
    + NPS_Serialize._serializeSizeOf_int32 self.expiryDate_) % 65536

/-- `NPS_SessionKey::_doSerialize()`. -/
def _doSerialize (e : Endian) (self : NPS_SessionKey) (st : Stream) : Stream :=
  let st1 := NPS_Serialize._serialize_buffer st self.key_ self.keyLength_
  NPS_Serialize._serialize_int32 e st1 self.expiryDate_ false

/-- `NPS_SessionKey::_doDeserialize()`. -/
def _doDeserialize (e : Endian) (self : NPS_SessionKey) (st : Stream) :
    NPS_SessionKey × Stream :=
  let k := NPS_Serialize._deserialize_buffer e st self.key_ maxLength_ true
  let d := NPS_Serialize._deserialize_int32 e k.2.2 false
  ({ self with keyLength_ := k.1, key_ := k.2.1, expiryDate_ := d.1 }, d.2)

/-- The virtual methods of `NPS_SessionKey`. -/
def cls (e : Endian) : Class NPS_SessionKey :=
  { base := fun x => x.toNPS_Serialize,
    setBase := fun x s => { x with toNPS_Serialize := s },
    serializeSizeOf := serializeSizeOf,
    _doSerialize := _doSerialize e,
    _doDeserialize := _doDeserialize e }

end NPS_SessionKey

/-! ## `GLDP_UserStatus`

`GLD_UserAction` (`GLD_UserAction.h`) is not part of the repository: the type of the ban
and gag records is a parameter `α`, and its virtual methods are a parameter `A`. -/

/-- Data members of `GLDP_UserStatus`; `NPS_CUSTOMERID` and `NPS_GAMEUSERID` are
`unsigned long`. -/
structure GLDP_UserStatus (α : Type) extends NPS_Serialize where
  ban_ : α
  gag_ : α
  customerId_ : Nat
  personaId_ : Nat
  isCacheHit_ : Bool
  sessionKey_ : NPS_SessionKey

namespace GLDP_UserStatus

/-- `GLDP_UserStatus::GLDP_UserStatus( NPS_CUSTOMERID customer_id, NPS_GAMEUSERID persona_id )`:
only `customerId_` and `personaId_` have initializers; `ban_`, `gag_` and `sessionKey_`
are default-constructed (`ban0`, `gag0` stand for `GLD_UserAction()`), and `isCacheHit_`
is left with the indeterminate value `cacheHit0`. -/
def ctor {α : Type} (ban0 gag0 : α) (junk : List Nat) (cacheHit0 : Bool)
    (customer_id persona_id : Nat) : GLDP_UserStatus α :=
  { toNPS_Serialize := NPS_Serialize.ctor 0 0,
    ban_ := ban0, gag_ := gag0,
    customerId_ := customer_id % 4294967296, personaId_ := persona_id % 4294967296,
    isCacheHit_ := cacheHit0, sessionKey_ := NPS_SessionKey.ctor junk }

/-- The five-argument constructor of `GLDP_UserStatus`: the members are copy-constructed
from the arguments and `isCacheHit_` is `false`. -/
def ctorFull {α : Type} (customer_id persona_id : Nat) (key_in : NPS_SessionKey)
    (ban_in gag_in : α) : GLDP_UserStatus α :=
  { toNPS_Serialize := NPS_Serialize.ctor 0 0,
    ban_ := ban_in, gag_ := gag_in,
    customerId_ := customer_id % 4294967296, personaId_ := persona_id % 4294967296,
    isCacheHit_ := false, sessionKey_ := key_in }

/-- `GLDP_UserStatus::isAuthorized() const`. -/
def isAuthorized {α : Type} (self : GLDP_UserStatus α) : Bool := self.sessionKey_.isValid

/-- `GLDP_UserStatus::customerId() const`. -/
def customerId {α : Type} (self : GLDP_UserStatus α) : Nat := self.customerId_

/-- `GLDP_UserStatus::personaId() const`. -/
def personaId {α : Type} (self : GLDP_UserStatus α) : Nat := self.personaId_

/-- `GLDP_UserStatus::sessionKey() const`. -/
def sessionKey {α : Type} (self : GLDP_UserStatus α) : NPS_SessionKey := self.sessionKey_

/-- `GLDP_UserStatus::isCacheHit() const`. -/
def isCacheHit {α : Type} (self : GLDP_UserStatus α) : Bool := self.isCacheHit_

/-- `GLDP_UserStatus::setCustomerId( NPS_CUSTOMERID id )`. -/
def setCustomerId {α : Type} (self : GLDP_UserStatus α) (id : Nat) : GLDP_UserStatus α :=
  { self with customerId_ := id % 4294967296 }

/-- `GLDP_UserStatus::setPersonaId( NPS_GAMEUSERID id )`. -/
def setPersonaId {α : Type} (self : GLDP_UserStatus α) (id : Nat) : GLDP_UserStatus α :=
  { self with personaId_ := id % 4294967296 }

/-- `GLDP_UserStatus::setSessionKey( const NPS_SessionKey &key )`: `sessionKey_ = key;` -/
def setSessionKey {α : Type} (self : GLDP_UserStatus α) (key : NPS_SessionKey) :
    GLDP_UserStatus α :=
  { self with sessionKey_ := self.sessionKey_.assign key }

/-- `GLDP_UserStatus::setAsCacheHit( bool b )`. -/
def setAsCacheHit {α : Type} (self : GLDP_UserStatus α) (b : Bool) : GLDP_UserStatus α :=
  { self with isCacheHit_ := b }

/-- `GLDP_UserStatus::serializeSizeOf() const`. There is no `_serializeSizeOf( bool )`:
for the argument `isCacheHit_` overload resolution selects `_serializeSizeOf( int )`, the
only candidate reached by an integral promotion. -/
def serializeSizeOf {α : Type} (e : Endian) (A : Class α) (self : GLDP_UserStatus α) : Nat :=
  (self.toNPS_Serialize.serializeSizeOf
    + NPS_Serialize._serializeSizeOf_uint32 self.customerId_
    + NPS_Serialize._serializeSizeOf_uint32 self.personaId_
    + NPS_Serialize._serializeSizeOf_int (NPS_Serialize.boolToInt self.isCacheHit_)
    + NPS_Serialize._serializeSizeOf_entity A self.ban_
    + NPS_Serialize._serializeSizeOf_entity A self.gag_
    + NPS_Serialize._serializeSizeOf_entity (NPS_SessionKey.cls e) self.sessionKey_) % 65536

/-- `GLDP_UserStatus::_doSerialize()`. -/
def _doSerialize {α : Type} (e : Endian) (A : Class α) (self : GLDP_UserStatus α)
    (st : Stream) : Stream :=
  let st1 := NPS_Serialize._serialize_uint32 e st self.customerId_ false
  let st2 := NPS_Serialize._serialize_uint32 e st1 self.personaId_ false
  let st3 := NPS_Serialize._serialize_bool st2 self.isCacheHit_
  let st4 := NPS_Serialize._serialize_entity e A st3 self.ban_
  let st5 := NPS_Serialize._serialize_entity e A st4 self.gag_
  NPS_Serialize._serialize_entity e (NPS_SessionKey.cls e) st5 self.sessionKey_

/-- `GLDP_UserStatus::_doDeserialize()`. -/
def _doDeserialize {α : Type} (e : Endian) (A : Class α) (self : GLDP_UserStatus α)
    (st : Stream) : GLDP_UserStatus α × Stream :=
  let r1 := NPS_Serialize._deserialize_uint32 e st false
  let r2 := NPS_Serialize._deserialize_uint32 e r1.2 false
  let r3 := NPS_Serialize._deserialize_bool r2.2
  let r4 := NPS_Serialize._deserialize_entity e A r3.2 self.ban_
  let r5 := NPS_Serialize._deserialize_entity e A r4.2 self.gag_
  let r6 := NPS_Serialize._deserialize_entity e (NPS_SessionKey.cls e) r5.2 self.sessionKey_
  ({ self with customerId_ := r1.1, personaId_ := r2.1, isCacheHit_ := r3.1,
               ban_ := r4.1, gag_ := r5.1, sessionKey_ := r6.1 }, r6.2)

/-- The virtual methods of `GLDP_UserStatus`. -/
def cls {α : Type} (e : Endian) (A : Class α) : Class (GLDP_UserStatus α) :=
  { base := fun x => x.toNPS_Serialize,
    setBase := fun x s => { x with toNPS_Serialize := s },
    serializeSizeOf := serializeSizeOf e A,
    _doSerialize := _doSerialize e A,
    _doDeserialize := _doDeserialize e A }

end GLDP_UserStatus

/-! ## `GLDP_CustomerId` -/

/-- Modelled from the spec: `GLDP_CustomerId`, the base class of `GLDP_UserStatusRequest`,
is declared in `GLDP_BaseMessage.h`, which is not part of the repository. It is an entity
whose only field is a customer id, on the wire "customer id (4 bytes)". -/
structure GLDP_CustomerId extends NPS_Serialize where
  customerId_ : Nat
deriving DecidableEq, Repr

namespace GLDP_CustomerId

/-- Modelled from the spec: the constructor `GLDP_CustomerId( NPS_CUSTOMERID c_id )`. -/
def ctor (c_id : Nat) : GLDP_CustomerId :=
  { toNPS_Serialize := NPS_Serialize.ctor 0 0, customerId_ := c_id % 4294967296 }

/-- Modelled from the spec: `GLDP_CustomerId::serializeSizeOf()`, the base size plus the
4 bytes of the customer id. -/
def serializeSizeOf (self : GLDP_CustomerId) : Nat :=
  (self.toNPS_Serialize.serializeSizeOf
    + NPS_Serialize._serializeSizeOf_uint32 self.customerId_) % 65536

/-- Modelled from the spec: `GLDP_CustomerId::_doSerialize()`, the customer id as a
4-byte integer. -/
def _doSerialize (e : Endian) (self : GLDP_CustomerId) (st : Stream) : Stream :=
  NPS_Serialize._serialize_uint32 e st self.customerId_ false

/-- Modelled from the spec: `GLDP_CustomerId::_doDeserialize()`. -/
def _doDeserialize (e : Endian) (self : GLDP_CustomerId) (st : Stream) :
    GLDP_CustomerId × Stream :=
  let r := NPS_Serialize._deserialize_uint32 e st false
  ({ self with customerId_ := r.1 }, r.2)

/-- The virtual methods of `GLDP_CustomerId`. -/
def cls (e : Endian) : Class GLDP_CustomerId :=
  { base := fun x => x.toNPS_Serialize,
    setBase := fun x s => { x with toNPS_Serialize := s },
    serializeSizeOf := serializeSizeOf,
    _doSerialize := _doSerialize e,
    _doDeserialize := _doDeserialize e }

end GLDP_CustomerId

/-! ## Sample values used in evaluations -/

/-- A session key with the four key bytes `00 01 BB CC` and expiry 5. -/
def sampleKey : NPS_SessionKey :=
  NPS_SessionKey.ctorKey (List.replicate 33 170) [0, 1, 187, 204] 4 5

/-- The status built by the five-argument constructor from ids 1 and 2, `sampleKey` and
two records without fields. -/
def sampleStatus : GLDP_UserStatus NPS_Serialize :=
  GLDP_UserStatus.ctorFull 1 2 sampleKey (NPS_Serialize.ctor 0 0) (NPS_Serialize.ctor 0 0)

/-- A fresh status `GLDP_UserStatus( 0, 0 )`. -/
def freshStatus : GLDP_UserStatus NPS_Serialize :=
  GLDP_UserStatus.ctor (NPS_Serialize.ctor 0 0) (NPS_Serialize.ctor 0 0)
    (List.replicate 33 85) true 0 0

/-- A heap without live blocks whose unallocated memory holds the byte `0xCC`. -/
def sampleHeap : Heap := Heap.empty 204

namespace NPS_Serialize

/-- `NPS_Serialize::_serializeSizeOf( const char *str )`:
`uint16 ret = strlen(str) + sizeof(uint16); return ret;` The string is the array `str`
points to, read up to its first zero byte. -/
def _serializeSizeOf_cstr (str : List Nat) : Nat :=
  (strlen str + sizeof_uint16) % 65536

/-- Modelled from the spec: `_deserialize( uint16 &len, char *&dest, bool terminate )`
(declared only, "allocates memory for buffer"). The spec describes one way of reading
bytes, "a 2-byte length prefix precedes the raw bytes"; here the destination is a new
array of the encoded length (one more byte when a terminator is asked for). Returns the
length, the new array and the stream. -/
def _deserialize_alloc (e : Endian) (st : Stream) (terminate : Bool) :
    Nat × List Nat × Stream :=
  let l := _deserialize_uint16 e st false
  let r := _deserializeRaw l.2 l.1
  (l.1, if terminate then r.1 ++ [0] else r.1, r.2)

end NPS_Serialize

/-- Data members of `NPS_RawMessage`; `buffer_` is held as the bytes it points to (the
empty list for `NULL`). -/
structure NPS_RawMessage extends NPS_Serialize where
  buffer_ : List Nat
  length_ : Nat
deriving DecidableEq, Repr

namespace NPS_RawMessage

/-- Modelled from the spec: the constructor `NPS_RawMessage( uint16 id, uint16 len, const
char *buff )` is declared only; its comment reads "makes a copy of buff", with `id` the
message id and `len` the length of `buff`. -/
def ctor (id len : Nat) (buff : List Nat) : NPS_RawMessage :=
  { toNPS_Serialize := NPS_Serialize.ctor id 0,
    buffer_ := buff.take (len % 65536), length_ := len % 65536 }

/-- `NPS_RawMessage::serializeSizeOf() const`:
`NPS_Serialize::serializeSizeOf() + _serializeSizeOf( buffer_, length_, false )`. -/
def serializeSizeOf (self : NPS_RawMessage) : Nat :=
  (self.toNPS_Serialize.serializeSizeOf
    + NPS_Serialize._serializeSizeOf_buffer self.buffer_ self.length_ false) % 65536

/-- `NPS_RawMessage::_doSerialize()`: `_serialize( buffer_, length_ );` -/
def _doSerialize (self : NPS_RawMessage) (st : Stream) : Stream :=
  NPS_Serialize._serialize_buffer st self.buffer_ self.length_

/-- Modelled from the spec: `NPS_RawMessage::release()` is declared only; "the non-GC base
assumes the caller manages the payload's lifetime", so the payload is let go without
being freed. -/
def release (self : NPS_RawMessage) : NPS_RawMessage :=
  { self with buffer_ := [], length_ := 0 }

/-- `NPS_RawMessage::_doDeserialize()`:
`release(); buffer_ = _deserialize( length_, buffer_, false );` -/
def _doDeserialize (e : Endian) (self : NPS_RawMessage) (st : Stream) :
    NPS_RawMessage × Stream :=
  let s1 := self.release
  let r := NPS_Serialize._deserialize_alloc e st false
  ({ s1 with length_ := r.1, buffer_ := r.2.1 }, r.2.2)

/-- The virtual methods of `NPS_RawMessage`. -/
def cls (e : Endian) : Class NPS_RawMessage :=
  { base := fun x => x.toNPS_Serialize,
    setBase := fun x s => { x with toNPS_Serialize := s },
    serializeSizeOf := serializeSizeOf,
    _doSerialize := _doSerialize,
    _doDeserialize := _doDeserialize e }

end NPS_RawMessage

/-- A raw message with header emission on and a payload of 65522 bytes. -/
def sampleRawMessage : NPS_RawMessage :=
  NPS_RawMessage.ctor 0 65522 (List.replicate 65522 0)

/-- A C string of 65534 characters `A` followed by its terminator. -/
def sampleLongString : List Nat := List.replicate 65534 65 ++ [0]

/-- The states of a session key that the public interface can produce: the two
constructors, then `setKey`, assignment from another key, `setExpiryDate`,
`_doDeserialize` on any stream, and changes made through the `NPS_Serialize` base. -/
inductive NPS_SessionKey.Reachable (e : Endian) : NPS_SessionKey → Prop
  | ctor (junk : List Nat) : Reachable e (NPS_SessionKey.ctor junk)
  | ctorKey (junk buf : List Nat) (len : Nat) (expiry_date : Int) :
      Reachable e (NPS_SessionKey.ctorKey junk buf len expiry_date)
  | setKey (s : NPS_SessionKey) (ptr : List Nat) (len : Nat) :
      Reachable e s → Reachable e (s.setKey ptr len)
  | assign (s sk : NPS_SessionKey) :
      Reachable e s → Reachable e sk → Reachable e (s.assign sk)
  | setExpiryDate (s : NPS_SessionKey) (t : Int) :
      Reachable e s → Reachable e (s.setExpiryDate t)
  | _doDeserialize (s : NPS_SessionKey) (st : Stream) :
      Reachable e s → Reachable e (NPS_SessionKey._doDeserialize e s st).1
  | setBase (s : NPS_SessionKey) (b : NPS_Serialize) :
      Reachable e s → Reachable e ((NPS_SessionKey.cls e).setBase s b)

/-- A default-constructed key that is then given 40 bytes. -/
def sampleLongKey : NPS_SessionKey :=
  (NPS_SessionKey.ctor (List.replicate 33 170)).setKey (List.replicate 40 7) 40

/-- An unset key, as the default constructor leaves it. -/
def sampleUnsetKey : NPS_SessionKey := NPS_SessionKey.ctor (List.replicate 33 170)

/-- A key of one byte that expires at time 100. -/
def sampleValidKey : NPS_SessionKey :=
  NPS_SessionKey.ctorKey (List.replicate 33 170) [107] 1 100

/-! ## `cSmartPtr` and `cRefCount` (cSmartPtr.h)

Objects derived from `cRefCount` are named by their address; a handle (`cSmartPtr<T>`)
is named by the order in which it was constructed. The destructor of `T` is taken not
to touch any handle. -/

/-- A `cSmartPtr<T>` object: destroyed, or alive with the member `m_Ptr` (`none` is
`NULL`). -/
inductive Handle where
  | dead
  | live (m_Ptr : Option Nat)
deriving DecidableEq, Repr

/-- The objects and handles of a program: `m_Count a` is the member `m_Count` of the
object at `a`, `deleted a` the number of times `delete this` ran on it, `handles` every
handle constructed so far. -/
structure RcState where
  m_Count : Nat → Int
  deleted : Nat → Nat
  handles : List Handle

namespace RcState

/-- Every object newly constructed (`cRefCount::cRefCount()` sets `m_Count(0)`), no
handle yet. -/
def init : RcState := ⟨fun _ => 0, fun _ => 0, []⟩

/-- Number of live handles whose `m_Ptr` is the object at `a`. -/
def liveCount (st : RcState) (a : Nat) : Nat := st.handles.count (Handle.live (some a))

end RcState

namespace cRefCount

/-- `cRefCount::incRef()`: `assert (m_Count >= 0); ++m_Count;` `none` stands for a failed
assertion or a call on a deleted object. The counter is a `long`; it cannot reach 2^31
because as many handles do not fit in a 32-bit address space. -/
def incRef (st : RcState) (this : Nat) : Option RcState :=
  if st.deleted this ≠ 0 then none
  else if st.m_Count this ≥ 0 then
    some { st with m_Count := fun x => if x = this then st.m_Count this + 1 else st.m_Count x }
  else none

/-- `cRefCount::decRef()`: `assert (m_Count > 0); --m_Count; if (m_Count == 0) delete
this;` `none` stands for a failed assertion or a call on a deleted object. -/
def decRef (st : RcState) (this : Nat) : Option RcState :=
  if st.deleted this ≠ 0 then none
  else if st.m_Count this > 0 then
    let st1 : RcState :=
      { st with m_Count := fun x => if x = this then st.m_Count this - 1 else st.m_Count x }
    if st1.m_Count this = 0 then
      some { st1 with deleted := fun x => if x = this then st1.deleted this + 1 else st1.deleted x }
    else some st1
  else none

end cRefCount

namespace cSmartPtr

/-- The member `m_Ptr` of handle `h`; `none` when `h` is not a live handle. -/
def m_Ptr (st : RcState) (h : Nat) : Option (Option Nat) :=
  match st.handles[h]? with
  | some (Handle.live p) => some p
  | _ => none

/-- `cSmartPtr::init()`: `if (m_Ptr==NULL) return; m_Ptr->incRef();` -/
def init (st : RcState) (m_Ptr : Option Nat) : Option RcState :=
  match m_Ptr with
  | none => some st
  | some a => cRefCount.incRef st a

/-- `cSmartPtr(T* ptr = 0) : m_Ptr(ptr) { init(); }`; the new handle is the last one of
`handles`. -/
def ctor (st : RcState) (ptr : Option Nat) : Option RcState :=
  (init { st with handles := st.handles ++ [Handle.live ptr] } ptr)

/-- `cSmartPtr(const cSmartPtr& rhs) : m_Ptr(rhs.m_Ptr) { init(); }` -/
def copy (st : RcState) (rhs : Nat) : Option RcState :=
  match m_Ptr st rhs with
  | some p => init { st with handles := st.handles ++ [Handle.live p] } p
  | none => none

/-- `~cSmartPtr()`: `if (m_Ptr) m_Ptr->decRef();` -/
def dtor (st : RcState) (h : Nat) : Option RcState :=
  match m_Ptr st h with
  | some (some a) =>
    (cRefCount.decRef st a).map fun s => { s with handles := s.handles.set h Handle.dead }
  | some none => some { st with handles := st.handles.set h Handle.dead }
  | none => none

/-- `cSmartPtr::operator=(const cSmartPtr& rhs)`:
`if (m_Ptr != rhs.m_Ptr) { if (m_Ptr) m_Ptr->decRef(); m_Ptr = rhs.m_Ptr; init(); }` -/
def assign (st : RcState) (h rhs : Nat) : Option RcState :=
  match m_Ptr st h, m_Ptr st rhs with
  | some p, some q =>
    if p ≠ q then
      (match p with
        | some a => cRefCount.decRef st a
        | none => some st).bind fun s =>
      init { s with handles := s.handles.set h (Handle.live q) } q
    else some st
  | _, _ => none

end cSmartPtr

/-- What a program does with handles. -/
inductive Op where
  | construct (ptr : Option Nat)
  | copy (rhs : Nat)
  | assign (h rhs : Nat)
  | destroy (h : Nat)
deriving DecidableEq, Repr

/-- What the language asks of the caller of each operation: a raw pointer given to the
constructor points to an object that was not deleted, and the handles named are alive. -/
def Op.ok (st : RcState) : Op → Bool
  | Op.construct none => true
  | Op.construct (some a) => decide (st.deleted a = 0)
  | Op.copy rhs => (cSmartPtr.m_Ptr st rhs).isSome
  | Op.assign h rhs => (cSmartPtr.m_Ptr st h).isSome && (cSmartPtr.m_Ptr st rhs).isSome
  | Op.destroy h => (cSmartPtr.m_Ptr st h).isSome

/-- One operation. -/
def RcState.step (st : RcState) : Op → Option RcState
  | Op.construct ptr => cSmartPtr.ctor st ptr
  | Op.copy rhs => cSmartPtr.copy st rhs
  | Op.assign h rhs => cSmartPtr.assign st h rhs
  | Op.destroy h => cSmartPtr.dtor st h

/-- A sequence of operations, stopping at the first that fails. -/
def RcState.run : RcState → List Op → Option RcState
  | st, [] => some st
  | st, op :: ops => (st.step op).bind fun s => s.run ops

/-- Every operation of the sequence meets `Op.ok` in the state it is run in. -/
def RcState.Valid : RcState → List Op → Bool
  | _, [] => true
  | st, op :: ops =>
    Op.ok st op &&
      (match st.step op with
        | some s => s.Valid ops
        | none => true)

/-- The counter of every object is the number of live handles on it, no object was
deleted twice, and a deleted object has no handle left. -/
def RcState.Inv (st : RcState) : Prop :=
  ∀ a, st.m_Count a = (st.liveCount a : Int) ∧ st.deleted a ≤ 1 ∧
    (st.deleted a ≠ 0 → st.m_Count a = 0)

/-- Two handles on the object at 0, dropped one after the other. -/
def sampleHandleOps : List Op :=
  [Op.construct (some 0), Op.copy 0, Op.destroy 0, Op.destroy 1]

/-- A handle on the object at 0, one on the object at 1 and a null handle. -/
def sampleAssignOps : List Op :=
  [Op.construct (some 0), Op.construct (some 1), Op.construct none]

/-! ## `cMap` (cSmartPtr.h)

`std::map<T_Key, T_NodeData>` is held as the list of its entries, in the order in which
they were inserted; every key occurs at most once in a map built by `insert`. Keys that
are equivalent under the map's ordering are equal. Values are stored by value, so an
entry does not change when the object it was copied from does. `Lock` and `UnLock` do
not change the table. -/

/-- The member `mMap` of `cMap<T_Key, T_NodeData>`. -/
structure cMap (K V : Type) where
  mMap : List (K × V)
deriving DecidableEq, Repr

namespace cMap

variable {K V : Type} [DecidableEq K]

/-- `std::map::find( key )`: the value stored under `key`, `none` for `end()`. -/
def map_find (m : List (K × V)) (key : K) : Option V := m.lookup key

/-- `std::map::insert( value_type( key, v ) )`: no effect when the key is present. -/
def map_insert (m : List (K × V)) (key : K) (v : V) : List (K × V) :=
  if (map_find m key).isSome then m else m ++ [(key, v)]

/-- `std::map::erase( key )`. -/
def map_erase (m : List (K × V)) (key : K) : List (K × V) :=
  m.filter fun e => decide (e.1 ≠ key)

/-- `cMap::cMap()`: an empty table. -/
def ctor : cMap K V := ⟨[]⟩

/-- `cMap::Add( T_Key &key, T_NodeData *data )`:
`if (!data) return(FALSE); mMap.insert(tMap::value_type(key,*data)); return(TRUE);`
`data` is `none` for a null pointer, else the object pointed to. -/
def Add (self : cMap K V) (key : K) (data : Option V) : cMap K V × Bool :=
  match data with
  | none => (self, false)
  | some d => (⟨map_insert self.mMap key d⟩, true)

/-- `cMap::Find( const T_Key &key, T_NodeData &data )`; returns the new value of the
caller's `data` and the result. -/
def Find_data (self : cMap K V) (key : K) (data : V) : V × Bool :=
  if !self.mMap.isEmpty then
    match map_find self.mMap key with
    | some v => (v, true)
    | none => (data, false)
  else (data, false)

/-- `cMap::Find( const T_Key &key )`. -/
def Find (self : cMap K V) (key : K) : Bool :=
  if !self.mMap.isEmpty then
    match map_find self.mMap key with
    | some _ => true
    | none => false
  else false

/-- `cMap::Remove( const T_Key &key, T_NodeData &data )`:
`if (Find(key,data)) { mMap.erase(key); return (TRUE); } return(FALSE);` Returns the
table, the new value of the caller's `data` and the result. -/
def Remove_data (self : cMap K V) (key : K) (data : V) : cMap K V × V × Bool :=
  let r := self.Find_data key data
  if r.2 then (⟨map_erase self.mMap key⟩, r.1, true) else (self, r.1, false)

/-- `cMap::Remove( const T_Key &key )`:
`if (Find(key)) { mMap.erase(key); return (TRUE); } return(FALSE);` -/
def Remove (self : cMap K V) (key : K) : cMap K V × Bool :=
  if self.Find key then (⟨map_erase self.mMap key⟩, true) else (self, false)

/-- `cMap::Count() const`: `return(mMap.size());` The result type is `int`; a table of
2^31 entries does not fit in a 32-bit address space. -/
def Count (self : cMap K V) : Int := self.mMap.length

end cMap

/-- A table with two entries. -/
def sampleMap : cMap Nat Nat := ⟨[(1, 10), (2, 20)]⟩

/-! ## Assignment of `NPS_Serialize` and further sample values -/

namespace NPS_Serialize

/-- `NPS_Serialize::operator = ( const NPS_Serialize &s )`, for `s` another object than
`self`: `messageVersion_ =s.messageVersion_; messageId_ =s.messageId_; header_ =
s.header_;` -/
def assign (e : Endian) (self : NPS_Serialize) (hp : Heap) (s : NPS_Serialize) :
    NPS_Serialize × Heap :=
  let r := self.header_.assign e hp s.header_
  ({ self with messageVersion_ := s.messageVersion_, messageId_ := s.messageId_,
               header_ := r.1 }, r.2)

/-- `NPS_Serialize::operator =` called as `a = a`: the test `this != &s` fails and the
body is skipped. -/
def assignSelf (self : NPS_Serialize) (hp : Heap) : NPS_Serialize × Heap := (self, hp)

end NPS_Serialize

/-- An entity whose header is attached to the buffer at block 0. -/
def sampleAttached : NPS_Serialize :=
  { header_ := ⟨some ⟨0, 0⟩, false⟩, messageId_ := 3, messageVersion_ := 1,
    serializeHeader_ := true, sequenceNumber_ := 0 }

/-- The memory of `sampleHeap` after the four bytes `01 02 03 04` are stored in the
checksum field of the header at block 0. -/
def sampleHeapChecksum : Heap := sampleHeap.memcpyTo ⟨0, 8⟩ [1, 2, 3, 4]

/-- `GLDP_UserStatus::operator = ( const GLDP_UserStatus &us )`, for `us` another object
than `self`: the six members are assigned one by one (`asg` stands for
`GLD_UserAction::operator=`, `sessionKey_ = us.sessionKey_` is
`NPS_SessionKey::operator=`); the `NPS_Serialize` base is not assigned. -/
def GLDP_UserStatus.assign {α : Type} (asg : α → α → α) (self us : GLDP_UserStatus α) :
    GLDP_UserStatus α :=
  { self with ban_ := asg self.ban_ us.ban_, gag_ := asg self.gag_ us.gag_,
              customerId_ := us.customerId_, personaId_ := us.personaId_,
              isCacheHit_ := us.isCacheHit_,
              sessionKey_ := self.sessionKey_.assign us.sessionKey_ }

/-- A status built by the five-argument constructor around `sampleValidKey`. -/
def sampleValidStatus : GLDP_UserStatus NPS_Serialize :=
  GLDP_UserStatus.ctorFull 1 2 sampleValidKey (NPS_Serialize.ctor 0 0) (NPS_Serialize.ctor 0 0)

/-! ## `GLDP_UserStatusRequest` (GLDP_UserStatus.h) -/

/-- Data members of `GLDP_UserStatusRequest`; `operation_` is held as the 32-bit value
stored in the `OP` object, which `_deserialize( (uint32 &)operation_ )` overwrites as a
whole. -/
structure GLDP_UserStatusRequest extends GLDP_CustomerId where
  operation_ : Nat
deriving DecidableEq, Repr

namespace GLDP_UserStatusRequest

/-- The enumerator `useCache_ = 0` of `OP`. -/
def useCache_ : Nat := 0

/-- The enumerator `refreshCache_` of `OP`. -/
def refreshCache_ : Nat := 1

/-- The enumerator `clearCacheEntry_` of `OP`. -/
def clearCacheEntry_ : Nat := 2

/-- The enumerator `clearCache_` of `OP`. -/
def clearCache_ : Nat := 3

/-- `GLDP_UserStatusRequest( NPS_CUSTOMERID c_id, OP op )`:
`GLDP_CustomerId( c_id ), operation_(op)`. -/
def ctor (c_id : Nat) (op : Nat) : GLDP_UserStatusRequest :=
  { toGLDP_CustomerId := GLDP_CustomerId.ctor c_id, operation_ := op }

/-- `GLDP_UserStatusRequest::operation() const`. -/
def operation (self : GLDP_UserStatusRequest) : Nat := self.operation_

/-- `GLDP_UserStatusRequest::setOperation( OP op )`. -/
def setOperation (self : GLDP_UserStatusRequest) (op : Nat) : GLDP_UserStatusRequest :=
  { self with operation_ := op }

/-- `GLDP_UserStatusRequest::serializeSizeOf() const`:
`GLDP_CustomerId::serializeSizeOf() + _serializeSizeOf( (uint32)operation_ )`. -/
def serializeSizeOf (self : GLDP_UserStatusRequest) : Nat :=
  (self.toGLDP_CustomerId.serializeSizeOf
    + NPS_Serialize._serializeSizeOf_uint32 (self.operation_ % 4294967296)) % 65536

/-- `GLDP_UserStatusRequest::_doSerialize()`:
`GLDP_CustomerId::_doSerialize(); _serialize( (uint32)operation_ );` -/
def _doSerialize (e : Endian) (self : GLDP_UserStatusRequest) (st : Stream) : Stream :=
  let st1 := GLDP_CustomerId._doSerialize e self.toGLDP_CustomerId st
  NPS_Serialize._serialize_uint32 e st1 (self.operation_ % 4294967296) false

/-- `GLDP_UserStatusRequest::_doDeserialize()`:
`GLDP_CustomerId::_doDeserialize(); _deserialize( (uint32 &)operation_ );` -/
def _doDeserialize (e : Endian) (self : GLDP_UserStatusRequest) (st : Stream) :
    GLDP_UserStatusRequest × Stream :=
  let r := GLDP_CustomerId._doDeserialize e self.toGLDP_CustomerId st
  let o := NPS_Serialize._deserialize_uint32 e r.2 false
  ({ toGLDP_CustomerId := r.1, operation_ := o.1 }, o.2)

/-- The virtual methods of `GLDP_UserStatusRequest`. -/
def cls (e : Endian) : Class GLDP_UserStatusRequest :=
  { base := fun x => x.toNPS_Serialize,
    setBase := fun x s => { x with toNPS_Serialize := s },
    serializeSizeOf := serializeSizeOf,
    _doSerialize := _doSerialize e,
    _doDeserialize := _doDeserialize e }

end GLDP_UserStatusRequest

/-- The request `GLDP_UserStatusRequest( 77, clearCacheEntry_ )`. -/
def sampleRequest : GLDP_UserStatusRequest :=
  GLDP_UserStatusRequest.ctor 77 GLDP_UserStatusRequest.clearCacheEntry_

/-- A stream whose cursor is at the start of block 0 of `sampleHeap`. -/
def sampleStream : Stream := ⟨sampleHeap, ⟨0, 0⟩⟩

/-! ## The byte-buffer primitives as a parameter

`_serializeSizeOf( const char *, uint16, bool )`, `_serialize( const char *, uint16 )` and
`_deserialize( char *, uint16, bool )` are declared in `NPS_Serialize.h` and defined in a
source file that is not part of the repository. The classes that call them are also
given over an arbitrary implementation of the three. -/

/-- Modelled from the spec: an implementation of the three byte-buffer primitives, which
are declared only. The writer and the reader act on the stream; the reader returns the
byte count, the new contents of `dest` and the stream. -/
structure BufferPrimitives where
  _serializeSizeOf : List Nat → Nat → Bool → Nat
  _serialize : Endian → Stream → List Nat → Nat → Stream
  _deserialize : Endian → Stream → List Nat → Nat → Bool → Nat × List Nat × Stream

/-- Modelled from the spec: the primitives as `_serializeSizeOf_buffer`,
`_serialize_buffer` and `_deserialize_buffer` give them. -/
def specBuffer : BufferPrimitives :=
  { _serializeSizeOf := NPS_Serialize._serializeSizeOf_buffer,
    _serialize := fun _ st buff len => NPS_Serialize._serialize_buffer st buff len,
    _deserialize := NPS_Serialize._deserialize_buffer }

/-- The reader of `P` gives back what the writer of `P` was given: the writer advances
the cursor by the size `_serializeSizeOf` reports and writes at or after the cursor
only; the reader does not write to the buffer; and on any memory that holds, from the
cursor on, the bytes the writer left for a buffer of `len` bytes, the reader called with
room for `len` bytes returns `len`, stores the bytes of the buffer and stops where the
writer stopped. -/
structure BufferPrimitives.Inverse (P : BufferPrimitives) (e : Endian) : Prop where
  size : ∀ (st : Stream) (buff : List Nat) (len : Nat),
    (P._serialize e st buff len).serializedBufferPtr_
      = st.serializedBufferPtr_.add (P._serializeSizeOf buff len false)
  forward : ∀ (st : Stream) (buff : List Nat) (len b o : Nat),
    ¬ (b = st.serializedBufferPtr_.block ∧ st.serializedBufferPtr_.off ≤ o) →
    (P._serialize e st buff len).heap.byte b o = st.heap.byte b o
  readsOnly : ∀ (st : Stream) (dest : List Nat) (max_len : Nat) (terminate : Bool),
    (P._deserialize e st dest max_len terminate).2.2.heap.byte = st.heap.byte
  roundTrip : ∀ (st : Stream) (buff : List Nat) (len : Nat) (hp : Heap) (dest : List Nat)
    (max_len : Nat) (terminate : Bool),
    len ≤ max_len → len ≤ buff.length → len < 65536 →
    (∀ o, st.serializedBufferPtr_.off ≤ o →
      o < st.serializedBufferPtr_.off + P._serializeSizeOf buff len false →
      hp.byte st.serializedBufferPtr_.block o
        = (P._serialize e st buff len).heap.byte st.serializedBufferPtr_.block o) →
    (P._deserialize e ⟨hp, st.serializedBufferPtr_⟩ dest max_len terminate).1 = len ∧
    (P._deserialize e ⟨hp, st.serializedBufferPtr_⟩ dest max_len terminate).2.1.take len
      = buff.take len ∧
    (P._deserialize e ⟨hp, st.serializedBufferPtr_⟩ dest max_len
      terminate).2.2.serializedBufferPtr_
      = (P._serialize e st buff len).serializedBufferPtr_

namespace NPS_SessionKey

/-- `NPS_SessionKey::serializeSizeOf() const` over the primitives `P`:
`NPS_Serialize::serializeSizeOf() + _serializeSizeOf( key_, keyLength_ ) +
_serializeSizeOf( expiryDate_ )`. -/
def serializeSizeOfWith (P : BufferPrimitives) (self : NPS_SessionKey) : Nat :=
  (self.toNPS_Serialize.serializeSizeOf
    + P._serializeSizeOf self.key_ self.keyLength_ false
    + NPS_Serialize._serializeSizeOf_int32 self.expiryDate_) % 65536

/-- `NPS_SessionKey::_doSerialize()` over the primitives `P`:
`_serialize( key_, keyLength_ ); _serialize( expiryDate_ );` -/
def _doSerializeWith (P : BufferPrimitives) (e : Endian) (self : NPS_SessionKey)
    (st : Stream) : Stream :=
  let st1 := P._serialize e st self.key_ self.keyLength_
  NPS_Serialize._serialize_int32 e st1 self.expiryDate_ false

/-- `NPS_SessionKey::_doDeserialize()` over the primitives `P`:
`keyLength_ = _deserialize( key_, maxLength_ ); _deserialize( expiryDate_ );` -/
def _doDeserializeWith (P : BufferPrimitives) (e : Endian) (self : NPS_SessionKey)
    (st : Stream) : NPS_SessionKey × Stream :=
  let k := P._deserialize e st self.key_ maxLength_ true
  let d := NPS_Serialize._deserialize_int32 e k.2.2 false
  ({ self with keyLength_ := k.1, key_ := k.2.1, expiryDate_ := d.1 }, d.2)

/-- The virtual methods of `NPS_SessionKey` over the primitives `P`. -/
def clsWith (P : BufferPrimitives) (e : Endian) : Class NPS_SessionKey :=
  { base := fun x => x.toNPS_Serialize,
    setBase := fun x s => { x with toNPS_Serialize := s },
    serializeSizeOf := serializeSizeOfWith P,
    _doSerialize := _doSerializeWith P e,
    _doDeserialize := _doDeserializeWith P e }

end NPS_SessionKey

namespace GLDP_UserStatus

/-- `GLDP_UserStatus::serializeSizeOf() const` with the virtual methods `K` of the
session key as a parameter. -/
def serializeSizeOfWith {α : Type} (K : Class NPS_SessionKey) (A : Class α)
    (self : GLDP_UserStatus α) : Nat :=
  (self.toNPS_Serialize.serializeSizeOf
    + NPS_Serialize._serializeSizeOf_uint32 self.customerId_
    + NPS_Serialize._serializeSizeOf_uint32 self.personaId_
    + NPS_Serialize._serializeSizeOf_int (NPS_Serialize.boolToInt self.isCacheHit_)
    + NPS_Serialize._serializeSizeOf_entity A self.ban_
    + NPS_Serialize._serializeSizeOf_entity A self.gag_
    + NPS_Serialize._serializeSizeOf_entity K self.sessionKey_) % 65536

/-- `GLDP_UserStatus::_doSerialize()` with the virtual methods `K` of the session key as
a parameter. -/
def _doSerializeWith {α : Type} (e : Endian) (K : Class NPS_SessionKey) (A : Class α)
    (self : GLDP_UserStatus α) (st : Stream) : Stream :=
  let st1 := NPS_Serialize._serialize_uint32 e st self.customerId_ false
  let st2 := NPS_Serialize._serialize_uint32 e st1 self.personaId_ false
  let st3 := NPS_Serialize._serialize_bool st2 self.isCacheHit_
  let st4 := NPS_Serialize._serialize_entity e A st3 self.ban_
  let st5 := NPS_Serialize._serialize_entity e A st4 self.gag_
  NPS_Serialize._serialize_entity e K st5 self.sessionKey_

/-- `GLDP_UserStatus::_doDeserialize()` with the virtual methods `K` of the session key
as a parameter. -/
def _doDeserializeWith {α : Type} (e : Endian) (K : Class NPS_SessionKey) (A : Class α)
    (self : GLDP_UserStatus α) (st : Stream) : GLDP_UserStatus α × Stream :=
  let r1 := NPS_Serialize._deserialize_uint32 e st false
  let r2 := NPS_Serialize._deserialize_uint32 e r1.2 false
  let r3 := NPS_Serialize._deserialize_bool r2.2
  let r4 := NPS_Serialize._deserialize_entity e A r3.2 self.ban_
  let r5 := NPS_Serialize._deserialize_entity e A r4.2 self.gag_
  let r6 := NPS_Serialize._deserialize_entity e K r5.2 self.sessionKey_
  ({ self with customerId_ := r1.1, personaId_ := r2.1, isCacheHit_ := r3.1,
               ban_ := r4.1, gag_ := r5.1, sessionKey_ := r6.1 }, r6.2)

/-- The virtual methods of `GLDP_UserStatus` with those of the session key as a
parameter. -/
def clsWith {α : Type} (e : Endian) (K : Class NPS_SessionKey) (A : Class α) :
    Class (GLDP_UserStatus α) :=
  { base := fun x => x.toNPS_Serialize,
    setBase := fun x s => { x with toNPS_Serialize := s },
    serializeSizeOf := serializeSizeOfWith K A,
    _doSerialize := _doSerializeWith e K A,
    _doDeserialize := _doDeserializeWith e K A }

end GLDP_UserStatus

theorem bytes2 (a b : Nat) (ha : a < 256) (hb : b < 256) :
    (a * 256 + b) % 256 = b ∧ (a * 256 + b) / 256 % 256 = a := by
  constructor <;> omega

theorem bytes4 (a b c d : Nat) (ha : a < 256) (hb : b < 256) (hc : c < 256) (hd : d < 256) :
    (a * 16777216 + b * 65536 + c * 256 + d) % 256 = d ∧
    (a * 16777216 + b * 65536 + c * 256 + d) / 256 % 256 = c ∧
    (a * 16777216 + b * 65536 + c * 256 + d) / 65536 % 256 = b ∧
    (a * 16777216 + b * 65536 + c * 256 + d) / 16777216 % 256 = a := by
  refine ⟨?_, ?_, ?_, ?_⟩ <;> omega

theorem rep16_hton (e : Endian) (v : Nat) : rep16 e (hton_uint16 e v) = be16 v := by
  cases e
  · simp [rep16, hton_uint16, htons, be16]; omega
  · have h := bytes2 (v % 256) (v / 256 % 256) (Nat.mod_lt _ (by norm_num))
      (Nat.mod_lt _ (by norm_num))
    simp [rep16, hton_uint16, htons, bswap16, be16, h.1, h.2]

theorem rep32_hton (e : Endian) (v : Nat) : rep32 e (hton_uint32 e v) = be32 v := by
  cases e
  · simp [rep32, hton_uint32, htonl, be32]; omega
  · have h := bytes4 (v % 256) (v / 256 % 256) (v / 65536 % 256) (v / 16777216 % 256)
      (Nat.mod_lt _ (by norm_num)) (Nat.mod_lt _ (by norm_num))
      (Nat.mod_lt _ (by norm_num)) (Nat.mod_lt _ (by norm_num))
    simp [rep32, hton_uint32, htonl, bswap32, be32, h.1, h.2.1, h.2.2.1, h.2.2.2]

theorem ntoh_val16 (e : Endian) (a b : Nat) (l : List Nat) :
    ntoh_uint16 e (val16 e (a :: b :: l)) = a % 256 * 256 + b % 256 := by
  cases e <;> simp [ntoh_uint16, ntohs, htons, bswap16, val16] <;> omega

theorem ntoh_val32 (e : Endian) (a b c d : Nat) (l : List Nat) :
    ntoh_uint32 e (val32 e (a :: b :: c :: d :: l))
      = a % 256 * 16777216 + b % 256 * 65536 + c % 256 * 256 + d % 256 := by
  cases e <;> simp [ntoh_uint32, ntohl, htonl, bswap32, val32] <;> omega

theorem memcpyFrom_two (hp : Heap) (p : Ptr) :
    hp.memcpyFrom p 2 = [hp.byte p.block p.off, hp.byte p.block (p.off + 1)] := rfl

theorem memcpyFrom_four (hp : Heap) (p : Ptr) :
    hp.memcpyFrom p 4 = [hp.byte p.block p.off, hp.byte p.block (p.off + 1),
      hp.byte p.block (p.off + 2), hp.byte p.block (p.off + 3)] := rfl

/-! ## Memory -/

theorem memcpyTo_byte (hp : Heap) (p : Ptr) (bs : List Nat) (b o : Nat) :
    (hp.memcpyTo p bs).byte b o =
      if b = p.block ∧ p.off ≤ o ∧ o < p.off + bs.length
      then bs.getD (o - p.off) 0 else hp.byte b o := rfl

theorem memcpyTo_size (hp : Heap) (p : Ptr) (bs : List Nat) :
    (hp.memcpyTo p bs).size = hp.size := rfl

theorem memcpyTo_next (hp : Heap) (p : Ptr) (bs : List Nat) :
    (hp.memcpyTo p bs).next = hp.next := rfl

theorem memcpyTo_frame (hp : Heap) (p : Ptr) (bs : List Nat) (b o : Nat)
    (h : ¬ (b = p.block ∧ p.off ≤ o ∧ o < p.off + bs.length)) :
    (hp.memcpyTo p bs).byte b o = hp.byte b o := by
  rw [memcpyTo_byte, if_neg h]

/-! ## Header -/

theorem Header.setAllocation_byte (h : Header) (hp : Heap) (p : Option Ptr) :
    (h.setAllocation hp p).2.byte = hp.byte := by
  unfold Header.setAllocation Header.deleteAllocation
  cases h.data_ <;> cases h.iOwnTheBuffer_ <;> rfl

theorem Header.setId_eq (e : Endian) (p : Ptr) (own : Bool) (hp : Heap) (x : Nat) :
    Header.setId e ⟨some p, own⟩ hp x = (⟨some p, own⟩, hp.memcpyTo p (be16 x)) := by
  simp [Header.setId, rep16_hton]

theorem Header.setLength_eq (e : Endian) (p : Ptr) (own : Bool) (hp : Heap) (x : Nat) :
    Header.setLength e ⟨some p, own⟩ hp x = (⟨some p, own⟩, hp.memcpyTo (p.add 2) (be16 x)) := by
  simp [Header.setLength, rep16_hton, sizeof_uint16]

theorem Header.setVersion_eq (e : Endian) (p : Ptr) (own : Bool) (hp : Heap) (x : Nat) :
    Header.setVersion e ⟨some p, own⟩ hp x = (⟨some p, own⟩, hp.memcpyTo (p.add 4) (be16 x)) := by
  simp [Header.setVersion, rep16_hton, sizeof_uint16]

theorem Header.setChecksum_eq (e : Endian) (p : Ptr) (own : Bool) (hp : Heap) (x : Nat) :
    Header.setChecksum e ⟨some p, own⟩ hp x = (⟨some p, own⟩, hp.memcpyTo (p.add 8) (be32 x)) := by
  simp [Header.setChecksum, rep32_hton, sizeof_uint16]

theorem Header.id_eq (e : Endian) (p : Ptr) (own : Bool) (hp : Heap) :
    Header.id e hp ⟨some p, own⟩
      = hp.byte p.block p.off % 256 * 256 + hp.byte p.block (p.off + 1) % 256 := by
  simp [Header.id, sizeof_uint16, memcpyFrom_two, ntoh_val16]

theorem Header.length_eq (e : Endian) (p : Ptr) (own : Bool) (hp : Heap) :
    Header.length e hp ⟨some p, own⟩
      = hp.byte p.block (p.off + 2) % 256 * 256 + hp.byte p.block (p.off + 3) % 256 := by
  simp [Header.length, sizeof_uint16, memcpyFrom_two, ntoh_val16, Ptr.add]

theorem Header.version_eq (e : Endian) (p : Ptr) (own : Bool) (hp : Heap) :
    Header.version e hp ⟨some p, own⟩
      = hp.byte p.block (p.off + 4) % 256 * 256 + hp.byte p.block (p.off + 5) % 256 := by
  simp [Header.version, sizeof_uint16, memcpyFrom_two, ntoh_val16, Ptr.add]

theorem Header.checksum_eq (e : Endian) (p : Ptr) (own : Bool) (hp : Heap) :
    Header.checksum e hp ⟨some p, own⟩
      = hp.byte p.block (p.off + 8) % 256 * 16777216 + hp.byte p.block (p.off + 9) % 256 * 65536
        + hp.byte p.block (p.off + 10) % 256 * 256 + hp.byte p.block (p.off + 11) % 256 := by
  simp [Header.checksum, sizeof_uint16, sizeof_uint32, memcpyFrom_four, ntoh_val32, Ptr.add]

/-- C7: the header is 12 bytes long, and on a header attached at `p` each of `setId`,
`setLength`, `setVersion`, `setChecksum` stores its argument most significant byte first
at offsets 0-1, 2-3, 4-5 and 8-11 of `p` and changes no other byte of memory (so never
the reserved bytes 6-7 nor anything at offset 12 or beyond), on either host byte order. -/
theorem Header_field_layout (e : Endian) (hp : Heap) (p : Ptr) (own : Bool) (x : Nat) :
    Header.size_ = 12 ∧
    ((Header.setId e ⟨some p, own⟩ hp x).2.memcpyFrom p 2 = be16 x ∧
      ∀ b o, ¬ (b = p.block ∧ p.off ≤ o ∧ o < p.off + 2) →
        (Header.setId e ⟨some p, own⟩ hp x).2.byte b o = hp.byte b o) ∧
    ((Header.setLength e ⟨some p, own⟩ hp x).2.memcpyFrom (p.add 2) 2 = be16 x ∧
      ∀ b o, ¬ (b = p.block ∧ p.off + 2 ≤ o ∧ o < p.off + 4) →
        (Header.setLength e ⟨some p, own⟩ hp x).2.byte b o = hp.byte b o) ∧
    ((Header.setVersion e ⟨some p, own⟩ hp x).2.memcpyFrom (p.add 4) 2 = be16 x ∧
      ∀ b o, ¬ (b = p.block ∧ p.off + 4 ≤ o ∧ o < p.off + 6) →
        (Header.setVersion e ⟨some p, own⟩ hp x).2.byte b o = hp.byte b o) ∧
    ((Header.setChecksum e ⟨some p, own⟩ hp x).2.memcpyFrom (p.add 8) 4 = be32 x ∧
      ∀ b o, ¬ (b = p.block ∧ p.off + 8 ≤ o ∧ o < p.off + 12) →
        (Header.setChecksum e ⟨some p, own⟩ hp x).2.byte b o = hp.byte b o) := by
  refine ⟨rfl, ⟨?_, ?_⟩, ⟨?_, ?_⟩, ⟨?_, ?_⟩, ⟨?_, ?_⟩⟩
  · simp [Header.setId_eq, memcpyFrom_two, memcpyTo_byte, be16]
  · intro b o h
    rw [Header.setId_eq]
    exact memcpyTo_frame _ _ _ _ _ (by simpa [be16] using h)
  · simp [Header.setLength_eq, memcpyFrom_two, memcpyTo_byte, be16, Ptr.add]
  · intro b o h
    rw [Header.setLength_eq]
    exact memcpyTo_frame _ _ _ _ _ (by simp [be16, Ptr.add]; omega)
  · simp [Header.setVersion_eq, memcpyFrom_two, memcpyTo_byte, be16, Ptr.add]
  · intro b o h
    rw [Header.setVersion_eq]
    exact memcpyTo_frame _ _ _ _ _ (by simp [be16, Ptr.add]; omega)
  · simp [Header.setChecksum_eq, memcpyFrom_four, memcpyTo_byte, be32, Ptr.add]
  · intro b o h
    rw [Header.setChecksum_eq]
    exact memcpyTo_frame _ _ _ _ _ (by simp [be32, Ptr.add]; omega)

/-- C8: on a header attached at `p`, after a setter is called with an in-range value the
matching getter returns that value and the three other getters return what they
returned before the call. -/
theorem Header_set_get (e : Endian) (hp : Heap) (p : Ptr) (own : Bool) (x y : Nat)
    (hx : x < 65536) (hy : y < 4294967296) :
    (Header.id e (Header.setId e ⟨some p, own⟩ hp x).2 (Header.setId e ⟨some p, own⟩ hp x).1 = x ∧
     Header.length e (Header.setId e ⟨some p, own⟩ hp x).2 (Header.setId e ⟨some p, own⟩ hp x).1
       = Header.length e hp ⟨some p, own⟩ ∧
     Header.version e (Header.setId e ⟨some p, own⟩ hp x).2 (Header.setId e ⟨some p, own⟩ hp x).1
       = Header.version e hp ⟨some p, own⟩ ∧
     Header.checksum e (Header.setId e ⟨some p, own⟩ hp x).2 (Header.setId e ⟨some p, own⟩ hp x).1
       = Header.checksum e hp ⟨some p, own⟩) ∧
    (Header.length e (Header.setLength e ⟨some p, own⟩ hp x).2
       (Header.setLength e ⟨some p, own⟩ hp x).1 = x ∧
     Header.id e (Header.setLength e ⟨some p, own⟩ hp x).2
       (Header.setLength e ⟨some p, own⟩ hp x).1 = Header.id e hp ⟨some p, own⟩ ∧
     Header.version e (Header.setLength e ⟨some p, own⟩ hp x).2
       (Header.setLength e ⟨some p, own⟩ hp x).1 = Header.version e hp ⟨some p, own⟩ ∧
     Header.checksum e (Header.setLength e ⟨some p, own⟩ hp x).2
       (Header.setLength e ⟨some p, own⟩ hp x).1 = Header.checksum e hp ⟨some p, own⟩) ∧
    (Header.version e (Header.setVersion e ⟨some p, own⟩ hp x).2
       (Header.setVersion e ⟨some p, own⟩ hp x).1 = x ∧
     Header.id e (Header.setVersion e ⟨some p, own⟩ hp x).2
       (Header.setVersion e ⟨some p, own⟩ hp x).1 = Header.id e hp ⟨some p, own⟩ ∧
     Header.length e (Header.setVersion e ⟨some p, own⟩ hp x).2
       (Header.setVersion e ⟨some p, own⟩ hp x).1 = Header.length e hp ⟨some p, own⟩ ∧
     Header.checksum e (Header.setVersion e ⟨some p, own⟩ hp x).2
       (Header.setVersion e ⟨some p, own⟩ hp x).1 = Header.checksum e hp ⟨some p, own⟩) ∧
    (Header.checksum e (Header.setChecksum e ⟨some p, own⟩ hp y).2
       (Header.setChecksum e ⟨some p, own⟩ hp y).1 = y ∧
     Header.id e (Header.setChecksum e ⟨some p, own⟩ hp y).2
       (Header.setChecksum e ⟨some p, own⟩ hp y).1 = Header.id e hp ⟨some p, own⟩ ∧
     Header.length e (Header.setChecksum e ⟨some p, own⟩ hp y).2
       (Header.setChecksum e ⟨some p, own⟩ hp y).1 = Header.length e hp ⟨some p, own⟩ ∧
     Header.version e (Header.setChecksum e ⟨some p, own⟩ hp y).2
       (Header.setChecksum e ⟨some p, own⟩ hp y).1 = Header.version e hp ⟨some p, own⟩) := by
  simp only [Header.setId_eq, Header.setLength_eq, Header.setVersion_eq, Header.setChecksum_eq,
    Header.id_eq, Header.length_eq, Header.version_eq, Header.checksum_eq]
  refine ⟨⟨?_, ?_, ?_, ?_⟩, ⟨?_, ?_, ?_, ?_⟩, ⟨?_, ?_, ?_, ?_⟩, ⟨?_, ?_, ?_, ?_⟩⟩ <;>
    simp [memcpyTo_byte, be16, be32, Ptr.add] <;> (try split_ifs) <;> omega

/-- Witness for C8: a little-endian host, a 12-byte block filled with `0xCD`, id 7 and
checksum 0x01020304. -/
theorem Header_set_get_witness :
    (Header.id .little (Header.setId .little ⟨some ⟨0, 0⟩, false⟩ (Heap.single 12 205) 7).2
        (Header.setId .little ⟨some ⟨0, 0⟩, false⟩ (Heap.single 12 205) 7).1 = 7 ∧
      Header.checksum .little
        (Header.setChecksum .little ⟨some ⟨0, 0⟩, false⟩ (Heap.single 12 205) 16909060).2
        (Header.setChecksum .little ⟨some ⟨0, 0⟩, false⟩ (Heap.single 12 205) 16909060).1
        = 16909060) :=
  ⟨(Header_set_get .little (Heap.single 12 205) ⟨0, 0⟩ false 7 16909060
      (by decide) (by decide)).1.1,
   (Header_set_get .little (Heap.single 12 205) ⟨0, 0⟩ false 7 16909060
      (by decide) (by decide)).2.2.2.1⟩

/-- C9: on a header with no buffer (`data_ == NULL`, in particular a default-constructed
one) the five accessors return 0 and each of the five setters, with any argument, leaves
the header object and the whole memory as they were. -/
theorem Header_no_buffer (e : Endian) (hp : Heap) (own : Bool) (x : Nat) :
    Header.ctor = ⟨none, false⟩ ∧
    (Header.id e hp ⟨none, own⟩ = 0 ∧ Header.version e hp ⟨none, own⟩ = 0 ∧
      Header.length e hp ⟨none, own⟩ = 0 ∧ Header.checksum e hp ⟨none, own⟩ = 0 ∧
      Header.sequenceNumber e hp ⟨none, own⟩ = 0) ∧
    (Header.setId e ⟨none, own⟩ hp x = (⟨none, own⟩, hp) ∧
      Header.setVersion e ⟨none, own⟩ hp x = (⟨none, own⟩, hp) ∧
      Header.setLength e ⟨none, own⟩ hp x = (⟨none, own⟩, hp) ∧
      Header.setChecksum e ⟨none, own⟩ hp x = (⟨none, own⟩, hp) ∧
      Header.setSequenceNumber e ⟨none, own⟩ hp x = (⟨none, own⟩, hp)) := by
  refine ⟨rfl, ⟨?_, ?_, ?_, ?_, ?_⟩, ⟨rfl, rfl, rfl, rfl, rfl⟩⟩ <;>
    cases e <;>
    simp [Header.id, Header.version, Header.length, Header.checksum, Header.sequenceNumber,
      ntoh_uint16, ntoh_uint32, ntohs, ntohl, htons, htonl, bswap16, bswap32]

theorem Header.assign_flag (e : Endian) (self : Header) (hp : Heap) (h : Header) :
    (Header.assign e self hp h).1.iOwnTheBuffer_ = self.iOwnTheBuffer_ := by
  unfold Header.assign
  cases h.data_ with
  | none => rfl
  | some src =>
    by_cases hl : Header.length e hp h = 0
    · simp [hl]
    · simp [hl, Header.setAllocation, Header.deleteAllocation]

theorem memcpyFrom_memcpyTo_same (hp : Heap) (p : Ptr) (bs : List Nat) :
    (hp.memcpyTo p bs).memcpyFrom p bs.length = bs := by
  apply List.ext_getElem
  · simp [Heap.memcpyFrom]
  · intro n h1 h2
    simp [Heap.memcpyFrom, memcpyTo_byte] at h1 ⊢
    simp [h1, List.getD_eq_getElem?_getD, List.getElem?_eq_getElem h2]

theorem memcpyFrom_length (hp : Heap) (p : Ptr) (n : Nat) : (hp.memcpyFrom p n).length = n := by
  simp [Heap.memcpyFrom]

theorem Header.assign_allocates (e : Endian) (self : Header) (hp : Heap) (src : Ptr)
    (own : Bool) (hlen : Header.length e hp ⟨some src, own⟩ ≠ 0) :
    (Header.assign e self hp ⟨some src, own⟩).1.data_ = some ⟨hp.next, 0⟩ ∧
    (Header.assign e self hp ⟨some src, own⟩).2.memcpyFrom ⟨hp.next, 0⟩
        (Header.length e hp ⟨some src, own⟩)
      = hp.memcpyFrom src (Header.length e hp ⟨some src, own⟩) := by
  have hb : ∀ (h : Header) (H : Heap) (q : Option Ptr) (p : Ptr) (n : Nat),
      (h.setAllocation H q).2.memcpyFrom p n = H.memcpyFrom p n := by
    intro h H q p n
    simp [Heap.memcpyFrom, Header.setAllocation_byte]
  simp only [Header.assign, hlen, ne_eq, not_false_eq_true, if_true]
  refine ⟨rfl, ?_⟩
  rw [hb]
  have h2 : (hp.newArray (Header.length e hp ⟨some src, own⟩)).1.memcpyFrom src
      (Header.length e hp ⟨some src, own⟩)
      = hp.memcpyFrom src (Header.length e hp ⟨some src, own⟩) := rfl
  rw [h2]
  have h3 := memcpyFrom_memcpyTo_same
    (Header.setAllocation self (hp.newArray (Header.length e hp ⟨some src, own⟩)).1
      (some (hp.newArray (Header.length e hp ⟨some src, own⟩)).2)).2
    (hp.newArray (Header.length e hp ⟨some src, own⟩)).2
    (hp.memcpyFrom src (Header.length e hp ⟨some src, own⟩))
  rw [memcpyFrom_length] at h3
  exact h3

/-- C10 (evaluation of the code): `operator=` never writes `iOwnTheBuffer_`, so a
copy-constructed header does not own the buffer it allocated and its destructor frees
nothing. Concretely, on a little-endian host, for an owning header over a 12-byte block
whose length field is 12: the copy points to the new block 1, which holds the same 12
bytes, the copy's flag is `false`, and block 1 is still allocated after the copy's
destructor has run. The rest is as claimed: the destination gets a block that was not
live before, holding the source's first `length()` bytes, and copying a header with no
data changes neither the destination nor the memory. -/
theorem Header_copy_does_not_own :
    (∀ (e : Endian) (self : Header) (hp : Heap) (h : Header),
      (Header.assign e self hp h).1.iOwnTheBuffer_ = self.iOwnTheBuffer_) ∧
    (∀ (e : Endian) (self : Header) (hp : Heap) (src : Ptr) (own : Bool),
      hp.WF → Header.length e hp ⟨some src, own⟩ ≠ 0 →
      hp.size hp.next = none ∧
      (Header.assign e self hp ⟨some src, own⟩).1.data_ = some ⟨hp.next, 0⟩ ∧
      (Header.assign e self hp ⟨some src, own⟩).2.memcpyFrom ⟨hp.next, 0⟩
          (Header.length e hp ⟨some src, own⟩)
        = hp.memcpyFrom src (Header.length e hp ⟨some src, own⟩)) ∧
    (∀ (e : Endian) (hp : Heap) (h : Header),
      (Header.copy e hp h).1.iOwnTheBuffer_ = false ∧
      Header.dtor (Header.copy e hp h).1 (Header.copy e hp h).2 = (Header.copy e hp h).2) ∧
    (∀ (e : Endian) (self : Header) (hp : Heap) (own : Bool),
      Header.assign e self hp ⟨none, own⟩ = (self, hp)) ∧
    ((Header.copy .little
        (Header.setLength .little ⟨some ⟨0, 0⟩, true⟩ (Heap.single 12 0) 12).2
        ⟨some ⟨0, 0⟩, true⟩).1 = ⟨some ⟨1, 0⟩, false⟩ ∧
     (Header.copy .little
        (Header.setLength .little ⟨some ⟨0, 0⟩, true⟩ (Heap.single 12 0) 12).2
        ⟨some ⟨0, 0⟩, true⟩).2.memcpyFrom ⟨1, 0⟩ 12 = [0, 0, 0, 12, 0, 0, 0, 0, 0, 0, 0, 0] ∧
     (Header.dtor
        (Header.copy .little
          (Header.setLength .little ⟨some ⟨0, 0⟩, true⟩ (Heap.single 12 0) 12).2
          ⟨some ⟨0, 0⟩, true⟩).1
        (Header.copy .little
          (Header.setLength .little ⟨some ⟨0, 0⟩, true⟩ (Heap.single 12 0) 12).2
          ⟨some ⟨0, 0⟩, true⟩).2).size 1 = some 12) := by
  refine ⟨Header.assign_flag, ?_, ?_, fun _ _ _ _ => rfl, ?_, ?_, ?_⟩
  · intro e self hp src own hwf hlen
    exact ⟨hwf _ (le_refl _), Header.assign_allocates e self hp src own hlen⟩
  · intro e hp h
    have hf : (Header.copy e hp h).1.iOwnTheBuffer_ = false := Header.assign_flag e _ hp h
    exact ⟨hf, by simp [Header.dtor, hf]⟩
  · decide
  · decide
  · decide

/-! ## Scalar primitives -/

theorem NPS_Serialize._serialize_uint32_eq (e : Endian) (st : Stream) (v : Nat) :
    NPS_Serialize._serialize_uint32 e st v false
      = { heap := st.heap.memcpyTo st.serializedBufferPtr_ (be32 v),
          serializedBufferPtr_ := st.serializedBufferPtr_.add 4 } := by
  simp [NPS_Serialize._serialize_uint32, NPS_Serialize._serializeRaw, rep32_hton, be32,
    sizeof_uint32]

theorem NPS_Serialize._serialize_uint16_eq (e : Endian) (st : Stream) (v : Nat) :
    NPS_Serialize._serialize_uint16 e st v false
      = { heap := st.heap.memcpyTo st.serializedBufferPtr_ (be16 v),
          serializedBufferPtr_ := st.serializedBufferPtr_.add 2 } := by
  simp [NPS_Serialize._serialize_uint16, NPS_Serialize._serializeRaw, rep16_hton, be16,
    sizeof_uint16]

/-- C4: `_serialize( uint32 v )` with `in_nbo = false` stores the four bytes of `v` most
significant first at the cursor, changes no other byte, and advances the cursor by 4,
whatever the host byte order; for `0x01020304` the bytes are `01 02 03 04`. -/
theorem serialize_uint32_network_order (e : Endian) (st : Stream) (v : Nat) :
    (NPS_Serialize._serialize_uint32 e st v false).heap.memcpyFrom st.serializedBufferPtr_ 4
      = be32 v ∧
    (∀ b o, ¬ (b = st.serializedBufferPtr_.block ∧ st.serializedBufferPtr_.off ≤ o
          ∧ o < st.serializedBufferPtr_.off + 4) →
      (NPS_Serialize._serialize_uint32 e st v false).heap.byte b o = st.heap.byte b o) ∧
    (NPS_Serialize._serialize_uint32 e st v false).serializedBufferPtr_
      = st.serializedBufferPtr_.add 4 ∧
    (NPS_Serialize._serialize_uint32 e st 16909060 false).heap.memcpyFrom
      st.serializedBufferPtr_ 4 = [1, 2, 3, 4] := by
  refine ⟨?_, ?_, ?_, ?_⟩
  · simp [NPS_Serialize._serialize_uint32_eq, memcpyFrom_four, memcpyTo_byte, be32]
  · intro b o h
    rw [NPS_Serialize._serialize_uint32_eq]
    exact memcpyTo_frame _ _ _ _ _ (by simpa [be32] using h)
  · rw [NPS_Serialize._serialize_uint32_eq]
  · simp [NPS_Serialize._serialize_uint32_eq, memcpyFrom_four, memcpyTo_byte, be32]

/-! ## Session key -/

/-- C6: `isValid()` holds exactly when `expiryDate()` is strictly positive; the
default-constructed key is invalid, and a key built by the three-argument constructor is
valid exactly when the expiry passed in is strictly positive, whatever its key bytes (no
clock is consulted). -/
theorem SessionKey_isValid_iff (k : NPS_SessionKey) (junk buf : List Nat) (len : Nat)
    (t : Int) :
    (k.isValid = true ↔ k.expiryDate > 0) ∧
    (NPS_SessionKey.ctor junk).isValid = false ∧
    (NPS_SessionKey.ctor junk).expiryDate = 0 ∧
    ((NPS_SessionKey.ctorKey junk buf len t).isValid = true ↔ t > 0) := by
  refine ⟨?_, ?_, rfl, ?_⟩
  · simp [NPS_SessionKey.isValid, NPS_SessionKey.expiryDate]
  · simp [NPS_SessionKey.isValid, NPS_SessionKey.ctor]
  · simp [NPS_SessionKey.isValid, NPS_SessionKey.ctorKey, NPS_SessionKey.setKey]

/-! ## Sizes and bytes written -/

theorem GLDP_UserStatus.serializeSizeOf_eq {α : Type} (e : Endian) (A : Class α)
    (x : GLDP_UserStatus α) :
    GLDP_UserStatus.serializeSizeOf e A x
      = ((if x.serializeHeader_ then 12 else 0) + 4 + 4 + 4
          + NPS_Serialize._serializeSizeOf_entity A x.ban_
          + NPS_Serialize._serializeSizeOf_entity A x.gag_
          + NPS_Serialize._serializeSizeOf_entity (NPS_SessionKey.cls e) x.sessionKey_)
        % 65536 := by
  simp [GLDP_UserStatus.serializeSizeOf, NPS_Serialize.serializeSizeOf, Header.size_,
    NPS_Serialize._serializeSizeOf_uint32, NPS_Serialize._serializeSizeOf_int, sizeof_uint16,
    sizeof_uint32, sizeof_int]

theorem NPS_Serialize.serializeInto_cursor_GLDP {α : Type} (e : Endian) (A : Class α)
    (x : GLDP_UserStatus α) (hp : Heap) (buff : Ptr) :
    (NPS_Serialize.serializeInto e (GLDP_UserStatus.cls e A) x hp buff).1.serializedBufferPtr_
      = buff.add ((if x.serializeHeader_ then 12 else 0) + 4 + 4 + 1
          + (2 + A.serializeSizeOf x.ban_ % 65536)
          + (2 + A.serializeSizeOf x.gag_ % 65536)
          + (2 + NPS_SessionKey.serializeSizeOf x.sessionKey_ % 65536)) := by
  unfold NPS_Serialize.serializeInto
  cases hh : x.serializeHeader_ <;>
    simp [hh, GLDP_UserStatus.cls, GLDP_UserStatus._doSerialize,
      NPS_Serialize._serialize_entity, NPS_Serialize._serialize_uint16_eq,
      NPS_Serialize._serialize_uint32_eq, NPS_Serialize._serialize_bool, Ptr.add,
      NPS_SessionKey.cls, Header.size_, sizeof_uint16, sizeof_uint32] <;> omega

theorem NPS_Serialize.serialize_len {α : Type} (e : Endian) (C : Class α) (x : α) (hp : Heap) :
    (NPS_Serialize.serialize e C x hp).2.2 = C.serializeSizeOf x % 65536 := by
  unfold NPS_Serialize.serialize NPS_Serialize.serializeInto
  by_cases h : (C.base x).serializeHeader_ = true <;> simp [h]

theorem NPS_Serialize.serialize_buf {α : Type} (e : Endian) (C : Class α) (x : α) (hp : Heap) :
    (NPS_Serialize.serialize e C x hp).2.1 = ⟨hp.next, 0⟩ := rfl

/-- C3 (evaluation of the code): `GLDP_UserStatus::serializeSizeOf()` counts the cache-hit
flag through `_serializeSizeOf( int )`, that is as `sizeof(int) = 4` bytes, not 1: the
size is header + 4 + 4 + 4 + the three prefixed nested sizes. For the status built from
ids 1 and 2, a 4-byte session key and two field-less records it is 74, where the claimed
formula gives 71. -/
theorem GLDP_UserStatus_sizeOf_counts_flag_as_int :
    (∀ (α : Type) (e : Endian) (A : Class α) (x : GLDP_UserStatus α),
      NPS_Serialize._serializeSizeOf_int (NPS_Serialize.boolToInt x.isCacheHit_) = 4 ∧
      GLDP_UserStatus.serializeSizeOf e A x
        = ((if x.serializeHeader_ then 12 else 0) + 4 + 4 + 4
            + NPS_Serialize._serializeSizeOf_entity A x.ban_
            + NPS_Serialize._serializeSizeOf_entity A x.gag_
            + NPS_Serialize._serializeSizeOf_entity (NPS_SessionKey.cls e) x.sessionKey_)
          % 65536) ∧
    GLDP_UserStatus.serializeSizeOf .little NPS_Serialize.bareClass sampleStatus = 74 ∧
    12 + 4 + 4 + 1
      + (NPS_Serialize.serializeSizeOf sampleStatus.ban_ + 2)
      + (NPS_Serialize.serializeSizeOf sampleStatus.gag_ + 2)
      + (NPS_SessionKey.serializeSizeOf sampleKey + 2) = 71 := by
  refine ⟨fun α e A x => ⟨rfl, GLDP_UserStatus.serializeSizeOf_eq e A x⟩, ?_, ?_⟩
  · decide
  · decide

/-- C2 (evaluation of the code): for `GLDP_UserStatus` the cursor ends 4 + 4 + 1 bytes
plus the three prefixed nested sizes past the header, while `serializeSizeOf()` counts
4 + 4 + 4. For the status built from ids 1 and 2, a 4-byte session key and two field-less
records, `serialize` reports `len = 74` for a buffer in which the writers stopped at
offset 71. -/
theorem GLDP_UserStatus_serialize_writes_less_than_sizeOf :
    (∀ (α : Type) (e : Endian) (A : Class α) (x : GLDP_UserStatus α) (hp : Heap),
      (NPS_Serialize.serialize e (GLDP_UserStatus.cls e A) x hp).1.serializedBufferPtr_
        = (NPS_Serialize.serialize e (GLDP_UserStatus.cls e A) x hp).2.1.add
            ((if x.serializeHeader_ then 12 else 0) + 4 + 4 + 1
              + (2 + A.serializeSizeOf x.ban_ % 65536)
              + (2 + A.serializeSizeOf x.gag_ % 65536)
              + (2 + NPS_SessionKey.serializeSizeOf x.sessionKey_ % 65536)) ∧
      (NPS_Serialize.serialize e (GLDP_UserStatus.cls e A) x hp).2.2
        = GLDP_UserStatus.serializeSizeOf e A x % 65536) ∧
    (NPS_Serialize.serialize .little (GLDP_UserStatus.cls .little NPS_Serialize.bareClass)
      sampleStatus sampleHeap).2 = (⟨0, 0⟩, 74) ∧
    (NPS_Serialize.serialize .little (GLDP_UserStatus.cls .little NPS_Serialize.bareClass)
      sampleStatus sampleHeap).1.serializedBufferPtr_ = ⟨0, 71⟩ := by
  refine ⟨fun α e A x hp => ⟨?_, NPS_Serialize.serialize_len e _ x hp⟩, ?_, ?_⟩
  · exact NPS_Serialize.serializeInto_cursor_GLDP e A x _ _
  · decide
  · decide

/-! ## The header written by `serialize` -/

theorem NPS_Serialize.writeHeader_eq (e : Endian) (s : NPS_Serialize) (len : Nat) (hp : Heap)
    (buff : Ptr) :
    ∃ sum, NPS_Serialize.writeHeader e s len hp buff
      = ((((hp.memcpyTo buff (List.replicate 12 0)).memcpyTo buff (be16 s.messageId_)).memcpyTo
          (buff.add 2) (be16 len)).memcpyTo (buff.add 4) (be16 s.messageVersion_)).memcpyTo
          (buff.add 8) (be32 sum) := by
  simp only [NPS_Serialize.writeHeader, Header.setId_eq, Header.setLength_eq,
    Header.setVersion_eq, Header.setChecksum_eq, Header.clear, Header.size_, sizeof_uint16,
    sizeof_uint32]
  exact ⟨_, rfl⟩

theorem NPS_Serialize.writeHeader_frame (e : Endian) (s : NPS_Serialize) (len : Nat)
    (hp : Heap) (buff : Ptr) (b o : Nat)
    (h : ¬ (b = buff.block ∧ buff.off ≤ o ∧ o < buff.off + 12)) :
    (NPS_Serialize.writeHeader e s len hp buff).byte b o = hp.byte b o := by
  obtain ⟨sum, hs⟩ := NPS_Serialize.writeHeader_eq e s len hp buff
  rw [hs]
  simp only [memcpyTo_byte, be16, be32, Ptr.add, List.length_replicate, List.length_cons,
    List.length_nil]
  split_ifs <;> first | rfl | (exfalso; omega)

theorem NPS_Serialize.writeHeader_fields (e : Endian) (s : NPS_Serialize) (len : Nat)
    (hp : Heap) (buff : Ptr) (own : Bool) :
    Header.id e (NPS_Serialize.writeHeader e s len hp buff) ⟨some buff, own⟩
      = s.messageId_ % 65536 ∧
    Header.length e (NPS_Serialize.writeHeader e s len hp buff) ⟨some buff, own⟩
      = len % 65536 ∧
    Header.version e (NPS_Serialize.writeHeader e s len hp buff) ⟨some buff, own⟩
      = s.messageVersion_ % 65536 := by
  obtain ⟨sum, hs⟩ := NPS_Serialize.writeHeader_eq e s len hp buff
  rw [hs]
  simp only [Header.id_eq, Header.length_eq, Header.version_eq]
  refine ⟨?_, ?_, ?_⟩ <;>
    simp [memcpyTo_byte, be16, be32, Ptr.add] <;> omega

/-! ## Writers only write forward -/

theorem NPS_Serialize.serializeInto_forward {α : Type} (e : Endian) (C : Class α)
    (hC : C.WritesForward) (x : α) (hp : Heap) (buff : Ptr) (b o : Nat)
    (h : ¬ (b = buff.block ∧ buff.off ≤ o)) :
    (NPS_Serialize.serializeInto e C x hp buff).1.heap.byte b o = hp.byte b o := by
  unfold NPS_Serialize.serializeInto
  by_cases hh : (C.base x).serializeHeader_ = true
  · simp only [hh, if_true]
    rw [hC x _ b o (by simp only [Ptr.add]; omega)]
    exact NPS_Serialize.writeHeader_frame _ _ _ _ _ _ _ (by omega)
  · simp only [hh]
    exact hC x _ b o h

theorem NPS_Serialize.serialize_entity_forward {β : Type} (e : Endian) (C : Class β)
    (hC : C.WritesForward) (st : Stream) (s : β) (b o : Nat)
    (h : ¬ (b = st.serializedBufferPtr_.block ∧ st.serializedBufferPtr_.off ≤ o)) :
    (NPS_Serialize._serialize_entity e C st s).heap.byte b o = st.heap.byte b o := by
  unfold NPS_Serialize._serialize_entity
  simp only [NPS_Serialize._serialize_uint16_eq]
  rw [NPS_Serialize.serializeInto_forward e C hC s _ _ b o (by simp only [Ptr.add]; omega)]
  exact memcpyTo_frame _ _ _ _ _ (by omega)

theorem NPS_Serialize.serialize_entity_cursor {β : Type} (e : Endian) (C : Class β)
    (st : Stream) (s : β) :
    (NPS_Serialize._serialize_entity e C st s).serializedBufferPtr_
      = st.serializedBufferPtr_.add (2 + C.serializeSizeOf s % 65536) := by
  simp [NPS_Serialize._serialize_entity, NPS_Serialize._serialize_uint16_eq, Ptr.add]
  omega

theorem NPS_Serialize.bareClass_forward : NPS_Serialize.bareClass.WritesForward :=
  fun _ _ _ _ _ => rfl

theorem NPS_Serialize.bareClass_lawful : NPS_Serialize.bareClass.Lawful :=
  fun _ _ => rfl

theorem NPS_SessionKey.sessionKey_writesForward (e : Endian) :
    (NPS_SessionKey.cls e).WritesForward := by
  intro x st b o h
  simp only [NPS_SessionKey.cls, NPS_SessionKey._doSerialize, NPS_Serialize._serialize_buffer,
    NPS_Serialize._serialize_int32, NPS_Serialize._serializeRaw, memcpyTo_byte, Ptr.add]
  split_ifs <;> first | rfl | (exfalso; omega)

theorem GLDP_UserStatus.userStatus_writesForward {α : Type} (e : Endian) (A : Class α)
    (hA : A.WritesForward) : (GLDP_UserStatus.cls e A).WritesForward := by
  intro x st b o h
  simp only [GLDP_UserStatus.cls, GLDP_UserStatus._doSerialize]
  rw [NPS_Serialize.serialize_entity_forward e _ (NPS_SessionKey.sessionKey_writesForward e) _ _ b o
        (by simp only [NPS_Serialize.serialize_entity_cursor, NPS_Serialize._serialize_bool,
              NPS_Serialize._serialize_uint32_eq, Ptr.add]; omega),
      NPS_Serialize.serialize_entity_forward e A hA _ _ b o
        (by simp only [NPS_Serialize.serialize_entity_cursor, NPS_Serialize._serialize_bool,
              NPS_Serialize._serialize_uint32_eq, Ptr.add]; omega),
      NPS_Serialize.serialize_entity_forward e A hA _ _ b o
        (by simp only [NPS_Serialize._serialize_bool,
              NPS_Serialize._serialize_uint32_eq, Ptr.add]; omega)]
  simp only [NPS_Serialize._serialize_bool, NPS_Serialize._serialize_uint32_eq, memcpyTo_byte,
    Ptr.add, be32, List.length_cons, List.length_nil]
  split_ifs <;> first | rfl | (exfalso; omega)

theorem GLDP_UserStatus.userStatus_lawful {α : Type} (e : Endian) (A : Class α) :
    (GLDP_UserStatus.cls e A).Lawful :=
  fun _ _ => rfl

/-! ## Header integrity of `serialize` -/

theorem NPS_Serialize.serialize_header_bytes {α : Type} (e : Endian) (C : Class α)
    (hC : C.WritesForward) (x : α) (hp : Heap) (hh : (C.base x).serializeHeader_ = true)
    (o : Nat) (ho : o < 12) :
    (NPS_Serialize.serialize e C x hp).1.heap.byte hp.next o
      = (NPS_Serialize.writeHeader e (C.base x) (C.serializeSizeOf x % 65536)
          (hp.newArray (C.serializeSizeOf x % 65536)).1 ⟨hp.next, 0⟩).byte hp.next o := by
  unfold NPS_Serialize.serialize NPS_Serialize.serializeInto
  simp only [hh, if_true]
  apply hC
  simp only [Ptr.add, Heap.newArray, Header.size_, sizeof_uint16, sizeof_uint32]
  omega

theorem NPS_Serialize.serialize_header_fields {α : Type} (e : Endian) (C : Class α)
    (hC : C.WritesForward) (hL : C.Lawful) (x : α) (hp : Heap) (i v : Nat)
    (hi : i < 65536) (hv : v < 65536) (hh : (C.base x).serializeHeader_ = true) :
    Header.length e
        (NPS_Serialize.serialize e C
          (C.setBase x (NPS_Serialize.setMessageVersion e
            (NPS_Serialize.setMessageId e (C.base x) hp i).1
            (NPS_Serialize.setMessageId e (C.base x) hp i).2 v).1)
          (NPS_Serialize.setMessageVersion e
            (NPS_Serialize.setMessageId e (C.base x) hp i).1
            (NPS_Serialize.setMessageId e (C.base x) hp i).2 v).2).1.heap
        ⟨some (NPS_Serialize.serialize e C
          (C.setBase x (NPS_Serialize.setMessageVersion e
            (NPS_Serialize.setMessageId e (C.base x) hp i).1
            (NPS_Serialize.setMessageId e (C.base x) hp i).2 v).1)
          (NPS_Serialize.setMessageVersion e
            (NPS_Serialize.setMessageId e (C.base x) hp i).1
            (NPS_Serialize.setMessageId e (C.base x) hp i).2 v).2).2.1, false⟩
      = (NPS_Serialize.serialize e C
          (C.setBase x (NPS_Serialize.setMessageVersion e
            (NPS_Serialize.setMessageId e (C.base x) hp i).1
            (NPS_Serialize.setMessageId e (C.base x) hp i).2 v).1)
          (NPS_Serialize.setMessageVersion e
            (NPS_Serialize.setMessageId e (C.base x) hp i).1
            (NPS_Serialize.setMessageId e (C.base x) hp i).2 v).2).2.2 ∧
    Header.id e
        (NPS_Serialize.serialize e C
          (C.setBase x (NPS_Serialize.setMessageVersion e
            (NPS_Serialize.setMessageId e (C.base x) hp i).1
            (NPS_Serialize.setMessageId e (C.base x) hp i).2 v).1)
          (NPS_Serialize.setMessageVersion e
            (NPS_Serialize.setMessageId e (C.base x) hp i).1
            (NPS_Serialize.setMessageId e (C.base x) hp i).2 v).2).1.heap
        ⟨some (NPS_Serialize.serialize e C
          (C.setBase x (NPS_Serialize.setMessageVersion e
            (NPS_Serialize.setMessageId e (C.base x) hp i).1
            (NPS_Serialize.setMessageId e (C.base x) hp i).2 v).1)
          (NPS_Serialize.setMessageVersion e
            (NPS_Serialize.setMessageId e (C.base x) hp i).1
            (NPS_Serialize.setMessageId e (C.base x) hp i).2 v).2).2.1, false⟩ = i ∧
    Header.version e
        (NPS_Serialize.serialize e C
          (C.setBase x (NPS_Serialize.setMessageVersion e
            (NPS_Serialize.setMessageId e (C.base x) hp i).1
            (NPS_Serialize.setMessageId e (C.base x) hp i).2 v).1)
          (NPS_Serialize.setMessageVersion e
            (NPS_Serialize.setMessageId e (C.base x) hp i).1
            (NPS_Serialize.setMessageId e (C.base x) hp i).2 v).2).1.heap
        ⟨some (NPS_Serialize.serialize e C
          (C.setBase x (NPS_Serialize.setMessageVersion e
            (NPS_Serialize.setMessageId e (C.base x) hp i).1
            (NPS_Serialize.setMessageId e (C.base x) hp i).2 v).1)
          (NPS_Serialize.setMessageVersion e
            (NPS_Serialize.setMessageId e (C.base x) hp i).1
            (NPS_Serialize.setMessageId e (C.base x) hp i).2 v).2).2.1, false⟩ = v := by
  generalize hx1 : C.setBase x (NPS_Serialize.setMessageVersion e
            (NPS_Serialize.setMessageId e (C.base x) hp i).1
            (NPS_Serialize.setMessageId e (C.base x) hp i).2 v).1 = x1
  generalize (NPS_Serialize.setMessageVersion e
            (NPS_Serialize.setMessageId e (C.base x) hp i).1
            (NPS_Serialize.setMessageId e (C.base x) hp i).2 v).2 = hp1
  have hb : C.base x1 = (NPS_Serialize.setMessageVersion e
            (NPS_Serialize.setMessageId e (C.base x) hp i).1
            (NPS_Serialize.setMessageId e (C.base x) hp i).2 v).1 := by
    rw [← hx1, hL]
  have hflag : (C.base x1).serializeHeader_ = true := by
    rw [hb]; simpa [NPS_Serialize.setMessageVersion, NPS_Serialize.setMessageId] using hh
  have hid : (C.base x1).messageId_ = i := by
    rw [hb]; simp [NPS_Serialize.setMessageVersion, NPS_Serialize.setMessageId]; omega
  have hver : (C.base x1).messageVersion_ = v := by
    rw [hb]; simp [NPS_Serialize.setMessageVersion, NPS_Serialize.setMessageId]; omega
  have hbytes := NPS_Serialize.serialize_header_bytes e C hC x1 hp1 hflag
  have hf := NPS_Serialize.writeHeader_fields e (C.base x1) (C.serializeSizeOf x1 % 65536)
    (hp1.newArray (C.serializeSizeOf x1 % 65536)).1 ⟨hp1.next, 0⟩ false
  rw [Header.id_eq, Header.length_eq, Header.version_eq] at hf
  rw [NPS_Serialize.serialize_buf, NPS_Serialize.serialize_len, Header.id_eq, Header.length_eq,
    Header.version_eq]
  simp only [Nat.zero_add] at hf ⊢
  rw [hbytes 0 (by omega), hbytes 1 (by omega), hbytes 2 (by omega), hbytes 3 (by omega),
    hbytes 4 (by omega), hbytes 5 (by omega)]
  rw [hid, hver] at hf
  refine ⟨?_, ?_, ?_⟩
  · rw [hf.2.1]; omega
  · rw [hf.1]; omega
  · rw [hf.2.2]; omega

/-- C5: for an entity with header emission on, after `setMessageId( i )` and
`setMessageVersion( v )` the buffer returned by `serialize( len )` starts with a header
whose length field is `len`, whose id field is `i` and whose version field is `v`
(`serialize` as modelled from the spec; the field writers are any that write through the
protected primitives). -/
theorem serialize_header_integrity {α : Type} (e : Endian) (C : Class α)
    (hC : C.WritesForward) (hL : C.Lawful) (x : α) (hp : Heap) (i v : Nat)
    (hi : i < 65536) (hv : v < 65536) (hh : (C.base x).serializeHeader_ = true) :
    let s1 := NPS_Serialize.setMessageId e (C.base x) hp i
    let s2 := NPS_Serialize.setMessageVersion e s1.1 s1.2 v
    let r := NPS_Serialize.serialize e C (C.setBase x s2.1) s2.2
    Header.length e r.1.heap ⟨some r.2.1, false⟩ = r.2.2 ∧
    Header.id e r.1.heap ⟨some r.2.1, false⟩ = i ∧
    Header.version e r.1.heap ⟨some r.2.1, false⟩ = v :=
  NPS_Serialize.serialize_header_fields e C hC hL x hp i v hi hv hh

/-- Witness for C5: `sampleStatus` with id 7 and version 3 on a little-endian host; the
length reported and found in the header is 74. -/
theorem serialize_header_integrity_witness :
    (7 < 65536 ∧ 3 < 65536 ∧ sampleStatus.serializeHeader_ = true) ∧
    (let s1 := NPS_Serialize.setMessageId .little sampleStatus.toNPS_Serialize sampleHeap 7
     let s2 := NPS_Serialize.setMessageVersion .little s1.1 s1.2 3
     let r := NPS_Serialize.serialize .little
       (GLDP_UserStatus.cls .little NPS_Serialize.bareClass)
       ({ sampleStatus with toNPS_Serialize := s2.1 }) s2.2
     Header.length .little r.1.heap ⟨some r.2.1, false⟩ = r.2.2 ∧
     Header.id .little r.1.heap ⟨some r.2.1, false⟩ = 7 ∧
     Header.version .little r.1.heap ⟨some r.2.1, false⟩ = 3) :=
  ⟨⟨by decide, by decide, rfl⟩,
   serialize_header_integrity .little (GLDP_UserStatus.cls .little NPS_Serialize.bareClass)
     (GLDP_UserStatus.userStatus_writesForward .little _ NPS_Serialize.bareClass_forward)
     (GLDP_UserStatus.userStatus_lawful .little _) sampleStatus sampleHeap 7 3
     (by decide) (by decide) rfl⟩

/-! ## Readers of the scalar and nested-entity primitives -/

theorem NPS_Serialize._deserialize_uint32_eq (e : Endian) (st : Stream) :
    NPS_Serialize._deserialize_uint32 e st false
      = (st.heap.byte st.serializedBufferPtr_.block st.serializedBufferPtr_.off % 256 * 16777216
          + st.heap.byte st.serializedBufferPtr_.block (st.serializedBufferPtr_.off + 1) % 256
            * 65536
          + st.heap.byte st.serializedBufferPtr_.block (st.serializedBufferPtr_.off + 2) % 256
            * 256
          + st.heap.byte st.serializedBufferPtr_.block (st.serializedBufferPtr_.off + 3) % 256,
         { st with serializedBufferPtr_ := st.serializedBufferPtr_.add 4 }) := by
  simp [NPS_Serialize._deserialize_uint32, NPS_Serialize._deserializeRaw, sizeof_uint32,
    memcpyFrom_four, ntoh_val32]

theorem NPS_Serialize.bareClass_readsOnly : NPS_Serialize.bareClass.ReadsOnly :=
  fun _ _ => rfl

theorem NPS_Serialize.bareClass_nestedRoundTrip (e : Endian) :
    NPS_Serialize.bareClass.NestedRoundTrip e (fun _ => ()) :=
  fun _ _ _ _ _ _ => rfl

/-- C11: the base `serializeSizeOf()` is 12 when `serializeHeader()` is true and 0 when
it is false, in every state; `setSerializeHeader( b )` makes `serializeHeader()` return
`b` and leaves every other member as it was. -/
theorem base_serializeSizeOf (s : NPS_Serialize) (b : Bool) :
    (s.serializeHeader = true → s.serializeSizeOf = 12) ∧
    (s.serializeHeader = false → s.serializeSizeOf = 0) ∧
    (s.setSerializeHeader b).serializeHeader = b ∧
    (s.setSerializeHeader b).serializeSizeOf = (if b then 12 else 0) ∧
    (s.setSerializeHeader b).header_ = s.header_ ∧
    (s.setSerializeHeader b).messageId_ = s.messageId_ ∧
    (s.setSerializeHeader b).messageVersion_ = s.messageVersion_ ∧
    (s.setSerializeHeader b).sequenceNumber_ = s.sequenceNumber_ := by
  refine ⟨?_, ?_, rfl, ?_, rfl, rfl, rfl, rfl⟩
  · intro h
    simp only [NPS_Serialize.serializeHeader] at h
    simp [NPS_Serialize.serializeSizeOf, h, Header.size_, sizeof_uint16, sizeof_uint32]
  · intro h
    simp only [NPS_Serialize.serializeHeader] at h
    simp [NPS_Serialize.serializeSizeOf, h]
  · cases b <;>
      simp [NPS_Serialize.serializeSizeOf, NPS_Serialize.setSerializeHeader, Header.size_,
        sizeof_uint16, sizeof_uint32]

/-- C12 (amended): `_serializeSizeOf( &e )` is `e.serializeSizeOf() + 2` reduced to 16
bits; it is `e.serializeSizeOf() + 2` as an integer exactly when that sum fits, that is
for sizes up to 65533. -/
theorem serializeSizeOf_entity_mod {β : Type} (C : Class β) (s : β) :
    NPS_Serialize._serializeSizeOf_entity C s = (C.serializeSizeOf s % 65536 + 2) % 65536 ∧
    (C.serializeSizeOf s ≤ 65533 →
      NPS_Serialize._serializeSizeOf_entity C s = C.serializeSizeOf s + 2) ∧
    (65534 ≤ C.serializeSizeOf s → C.serializeSizeOf s < 65536 →
      NPS_Serialize._serializeSizeOf_entity C s = C.serializeSizeOf s - 65534) := by
  refine ⟨?_, ?_, ?_⟩ <;>
    simp only [NPS_Serialize._serializeSizeOf_entity, sizeof_uint16] <;> intros <;> omega

/-- C12 (counterexample): for the raw message with a 65522-byte payload and header
emission on, `serializeSizeOf()` is 65534 and `_serializeSizeOf( &e )` is 0, not 65536. -/
theorem serializeSizeOf_entity_wraps :
    NPS_RawMessage.serializeSizeOf sampleRawMessage = 65534 ∧
    NPS_Serialize._serializeSizeOf_entity (NPS_RawMessage.cls .little) sampleRawMessage = 0 ∧
    NPS_Serialize._serializeSizeOf_entity (NPS_RawMessage.cls .little) sampleRawMessage
      ≠ NPS_RawMessage.serializeSizeOf sampleRawMessage + 2 := by
  decide

theorem NPS_Serialize.strlen_replicate (n c : Nat) (hc : c ≠ 0) (l : List Nat) :
    NPS_Serialize.strlen (List.replicate n c ++ l) = n + NPS_Serialize.strlen l := by
  induction n with
  | zero => simp
  | succ k ih =>
    simp only [NPS_Serialize.strlen] at ih ⊢
    simp [List.replicate_succ, List.takeWhile_cons, hc, ih]
    omega

/-- C13 (amended): `_serializeSizeOf( s )` is `strlen( s ) + 2` reduced to 16 bits; it is
`strlen( s ) + 2` as an integer exactly when that sum fits, that is for strings of up to
65533 characters; the empty string has size 2. -/
theorem serializeSizeOf_cstr_mod (str : List Nat) :
    NPS_Serialize._serializeSizeOf_cstr str = (NPS_Serialize.strlen str + 2) % 65536 ∧
    (NPS_Serialize.strlen str ≤ 65533 →
      NPS_Serialize._serializeSizeOf_cstr str = NPS_Serialize.strlen str + 2) ∧
    NPS_Serialize._serializeSizeOf_cstr [0] = 2 := by
  refine ⟨rfl, ?_, by decide⟩
  simp only [NPS_Serialize._serializeSizeOf_cstr, sizeof_uint16]
  omega

theorem NPS_Serialize.serializeSizeOf_cstr_eq (str : List Nat) :
    NPS_Serialize._serializeSizeOf_cstr str = (NPS_Serialize.strlen str + 2) % 65536 := rfl

theorem NPS_Serialize.strlen_sampleLongString :
    NPS_Serialize.strlen sampleLongString = 65534 := by
  have h0 : NPS_Serialize.strlen [0] = 0 := by decide
  have h1 := NPS_Serialize.strlen_replicate 65534 65 (by decide) [0]
  rw [h0] at h1
  exact h1

/-- C13 (counterexample): for the string of 65534 characters `A`, `strlen` is 65534 and
`_serializeSizeOf` is 0, not 65536. -/
theorem serializeSizeOf_cstr_wraps :
    NPS_Serialize.strlen sampleLongString = 65534 ∧
    NPS_Serialize._serializeSizeOf_cstr sampleLongString = 0 ∧
    NPS_Serialize._serializeSizeOf_cstr sampleLongString
      ≠ NPS_Serialize.strlen sampleLongString + 2 := by
  refine ⟨NPS_Serialize.strlen_sampleLongString, ?_, ?_⟩
  · rw [NPS_Serialize.serializeSizeOf_cstr_eq, NPS_Serialize.strlen_sampleLongString]
  · rw [NPS_Serialize.serializeSizeOf_cstr_eq, NPS_Serialize.strlen_sampleLongString]
    decide

/-! ## The default checksum -/

theorem Header.length_none (e : Endian) (hp : Heap) (own : Bool) :
    Header.length e hp ⟨none, own⟩ = 0 := by
  cases e <;> simp [Header.length, ntoh_uint16, ntohs, htons, bswap16]

theorem Header.version_none (e : Endian) (hp : Heap) (own : Bool) :
    Header.version e hp ⟨none, own⟩ = 0 := by
  cases e <;> simp [Header.version, ntoh_uint16, ntohs, htons, bswap16]

theorem Header.length_lt (e : Endian) (hp : Heap) (h : Header) :
    Header.length e hp h < 65536 := by
  cases h with
  | mk d own =>
    cases d with
    | none => rw [Header.length_none]; omega
    | some p => rw [Header.length_eq]; omega

theorem Header.version_lt (e : Endian) (hp : Heap) (h : Header) :
    Header.version e hp h < 65536 := by
  cases h with
  | mk d own =>
    cases d with
    | none => rw [Header.version_none]; omega
    | some p => rw [Header.version_eq]; omega

/-- C14: the default `generateChecksum()` is exactly `header.length() + 256 *
header.version()`, a value below 2^32 that is not reduced by the 32-bit arithmetic, and
it is 0 when the header has no buffer. -/
theorem generateChecksum_value (e : Endian) (hp : Heap) (s : NPS_Serialize) :
    NPS_Serialize.generateChecksum e hp s
      = s.header_.length e hp + 256 * s.header_.version e hp ∧
    s.header_.length e hp + 256 * s.header_.version e hp < 4294967296 ∧
    (s.header_.data_ = none → NPS_Serialize.generateChecksum e hp s = 0) := by
  have hl := Header.length_lt e hp s.header_
  have hv := Header.version_lt e hp s.header_
  refine ⟨?_, by omega, ?_⟩
  · simp only [NPS_Serialize.generateChecksum]
    omega
  · intro hn
    have hs : s.header_ = ⟨none, s.header_.iOwnTheBuffer_⟩ := by
      cases hh : s.header_ with
      | mk d own => rw [hh] at hn; simp at hn; simp [hn]
    simp only [NPS_Serialize.generateChecksum]
    rw [hs, Header.length_none, Header.version_none]

/-! ## Session keys -/

theorem NPS_SessionKey.setKey_length (s : NPS_SessionKey) (ptr : List Nat) (len : Nat) :
    (s.setKey ptr len).keyLength_ = min len 32 := by
  simp only [NPS_SessionKey.setKey, NPS_SessionKey.maxLength_, NPS_SESSION_KEY_LEN]
  split_ifs <;> omega

/-- C19: in every reachable state of an `NPS_SessionKey`, `length() <= maxLength()` and
`maxLength()` is 32; `setKey` and the buffer constructor with `len > 32` give length 32
and store the first 32 bytes of the input, leaving the rest of `key_` as it was. -/
theorem SessionKey_length_le_maxLength (e : Endian) (s : NPS_SessionKey)
    (h : NPS_SessionKey.Reachable e s) :
    s.length ≤ NPS_SessionKey.maxLength ∧ NPS_SessionKey.maxLength = 32 ∧
    (∀ ptr len, 32 < len →
      (s.setKey ptr len).length = 32 ∧
      (s.setKey ptr len).key_ = ptr.take 32 ++ s.key_.drop 32) ∧
    (∀ junk buf len x, 32 < len →
      (NPS_SessionKey.ctorKey junk buf len x).length = 32 ∧
      (NPS_SessionKey.ctorKey junk buf len x).key_
        = buf.take 32 ++ ((junk.set 0 0).set 32 0).drop 32) := by
  have hset : ∀ (t : NPS_SessionKey) ptr len, 32 < len →
      (t.setKey ptr len).length = 32 ∧
      (t.setKey ptr len).key_ = ptr.take 32 ++ t.key_.drop 32 := by
    intro t ptr len hl
    simp [NPS_SessionKey.length, NPS_SessionKey.setKey, NPS_SessionKey.maxLength_,
      NPS_SESSION_KEY_LEN, NPS_Serialize.memcpyList, if_pos hl]
  refine ⟨?_, rfl, hset s, ?_⟩
  · simp only [NPS_SessionKey.length, NPS_SessionKey.maxLength, NPS_SessionKey.maxLength_,
      NPS_SESSION_KEY_LEN]
    induction h with
    | ctor junk => simp [NPS_SessionKey.ctor]
    | ctorKey junk buf len x =>
      rw [NPS_SessionKey.ctorKey, NPS_SessionKey.setKey_length]; omega
    | setKey s ptr len _ _ => rw [NPS_SessionKey.setKey_length]; omega
    | assign s sk _ _ _ _ =>
      rw [NPS_SessionKey.assign, NPS_SessionKey.setKey_length]; omega
    | setExpiryDate s t _ ih => exact ih
    | _doDeserialize s st _ _ =>
      simp only [NPS_SessionKey._doDeserialize, NPS_Serialize._deserialize_buffer,
        NPS_SessionKey.maxLength_, NPS_SESSION_KEY_LEN]
      omega
    | setBase s b _ ih => exact ih
  · intro junk buf len x hl
    exact hset _ buf len hl

/-- C19 (witness): a default-constructed key given 40 bytes is reachable and has length
32. -/
theorem SessionKey_length_le_maxLength_witness :
    NPS_SessionKey.Reachable .little sampleLongKey ∧ sampleLongKey.length = 32 ∧
    sampleLongKey.length ≤ NPS_SessionKey.maxLength :=
  ⟨NPS_SessionKey.Reachable.setKey _ _ _ (NPS_SessionKey.Reachable.ctor _), by decide,
    (SessionKey_length_le_maxLength .little sampleLongKey
      (NPS_SessionKey.Reachable.setKey _ _ _ (NPS_SessionKey.Reachable.ctor _))).1⟩

/-- C20: `operator=` copies the key length (capped at 32) but never the expiry date: the
target keeps its own `expiryDate()` and so its own `isValid()`. Assigning the valid
sample key to an unset key copies the length and the key byte, and leaves the target
with expiry 0 and invalid. -/
theorem SessionKey_assign_keeps_target_expiry (a b : NPS_SessionKey) :
    (a.assign b).expiryDate = a.expiryDate ∧
    (a.assign b).isValid = a.isValid ∧
    (a.assign b).length = min b.length 32 ∧
    (sampleUnsetKey.assign sampleValidKey).length = sampleValidKey.length ∧
    (sampleUnsetKey.assign sampleValidKey).key_.take 1 = sampleValidKey.key_.take 1 ∧
    sampleValidKey.expiryDate = 100 ∧
    (sampleUnsetKey.assign sampleValidKey).expiryDate = 0 ∧
    sampleValidKey.isValid = true ∧
    (sampleUnsetKey.assign sampleValidKey).isValid = false := by
  refine ⟨rfl, rfl, NPS_SessionKey.setKey_length a _ _, ?_, ?_, ?_, ?_, ?_, ?_⟩ <;> decide

/-! ## Reference counting -/

theorem RcState.liveCount_push (st : RcState) (p : Option Nat) (a : Nat) (f : Nat → Int) :
    RcState.liveCount ⟨f, st.deleted, st.handles ++ [Handle.live p]⟩ a
      = st.liveCount a + (if p = some a then 1 else 0) := by
  simp only [RcState.liveCount, List.count_append, List.count_singleton]
  by_cases h : p = some a
  · simp [h]
  · have : ¬ (Handle.live p = Handle.live (some a)) := by
      intro hh; exact h (Handle.live.inj hh)
    simp [h, this]

theorem cSmartPtr.m_Ptr_iff (st : RcState) (h : Nat) (p : Option Nat) :
    cSmartPtr.m_Ptr st h = some p ↔ st.handles[h]? = some (Handle.live p) := by
  simp only [cSmartPtr.m_Ptr]
  split
  · next q hq => simp [hq]
  · next hn =>
    constructor
    · intro hh; cases hh
    · intro hh; exact absurd hh (hn p)

theorem RcState.liveCount_pos (st : RcState) (h a : Nat)
    (hp : cSmartPtr.m_Ptr st h = some (some a)) : 0 < st.liveCount a := by
  rw [cSmartPtr.m_Ptr_iff] at hp
  simp only [RcState.liveCount]
  exact List.count_pos_iff.mpr (List.getElem?_mem hp)

theorem RcState.liveCount_set (st : RcState) (h : Nat) (p : Option Nat) (v : Handle)
    (hp : cSmartPtr.m_Ptr st h = some p) (a : Nat) (f : Nat → Int) (g : Nat → Nat) :
    RcState.liveCount ⟨f, g, st.handles.set h v⟩ a
      = st.liveCount a - (if p = some a then 1 else 0)
        + (if v = Handle.live (some a) then 1 else 0) := by
  rw [cSmartPtr.m_Ptr_iff] at hp
  obtain ⟨hlt, hget⟩ := List.getElem?_eq_some_iff.mp hp
  simp only [RcState.liveCount]
  rw [List.count_set _ _ _ _ hlt]
  have hg : st.handles[h] = Handle.live p := hget
  rw [hg]
  by_cases h1 : p = some a
  · simp [h1]
  · have : ¬ (Handle.live p = Handle.live (some a)) := by
      intro hh; exact h1 (Handle.live.inj hh)
    simp [h1, this]

theorem RcState.Inv.alive {st : RcState} (hI : st.Inv) (h a : Nat)
    (hp : cSmartPtr.m_Ptr st h = some (some a)) : st.deleted a = 0 ∧ 0 < st.m_Count a := by
  have hpos := RcState.liveCount_pos st h a hp
  obtain ⟨h1, _, h3⟩ := hI a
  have hc : 0 < st.m_Count a := by rw [h1]; exact_mod_cast hpos
  refine ⟨?_, hc⟩
  by_contra hd
  have := h3 hd
  omega

theorem cSmartPtr.init_push_inv {st : RcState} (hI : st.Inv) (p : Option Nat)
    (hp : ∀ a, p = some a → st.deleted a = 0) :
    ∃ st1, cSmartPtr.init { st with handles := st.handles ++ [Handle.live p] } p = some st1 ∧
      st1.Inv ∧ st1.handles = st.handles ++ [Handle.live p] ∧ st1.deleted = st.deleted ∧
      ∀ x, st1.m_Count x = st.m_Count x + (if p = some x then 1 else 0) := by
  cases p with
  | none =>
    refine ⟨_, rfl, ?_, rfl, rfl, by simp⟩
    intro x
    obtain ⟨h1, h2, h3⟩ := hI x
    refine ⟨?_, h2, h3⟩
    rw [RcState.liveCount_push st none x st.m_Count]
    simpa using h1
  | some a =>
    have hd := hp a rfl
    have hc : 0 ≤ st.m_Count a := by rw [(hI a).1]; exact Int.natCast_nonneg _
    refine ⟨⟨fun x => if x = a then st.m_Count a + 1 else st.m_Count x, st.deleted,
      st.handles ++ [Handle.live (some a)]⟩, ?_, ?_, rfl, rfl, ?_⟩
    · simp [cSmartPtr.init, cRefCount.incRef, hd, hc]
    · intro x
      obtain ⟨h1, h2, h3⟩ := hI x
      rw [RcState.liveCount_push st (some a) x]
      refine ⟨?_, h2, ?_⟩
      · by_cases hx : x = a
        · subst hx; simp [h1]
        · have hx2 : a ≠ x := fun h => hx h.symm
          simp [hx, hx2, h1]
      · intro hdx
        have hx : x ≠ a := by
          intro hxa; subst hxa; exact hdx hd
        simpa [hx] using h3 hdx
    · intro x
      by_cases hx : x = a
      · subst hx; simp
      · have hx2 : a ≠ x := fun h => hx h.symm
        simp [hx, hx2]

theorem cSmartPtr.release_spec {st : RcState} (hI : st.Inv) (h : Nat) (p : Option Nat)
    (hp : cSmartPtr.m_Ptr st h = some p) :
    ∃ s1, (match p with
        | some a => cRefCount.decRef st a
        | none => some st) = some s1 ∧
      s1.handles = st.handles ∧
      (∀ x, s1.m_Count x = st.m_Count x - (if p = some x then 1 else 0)) ∧
      (∀ x, s1.deleted x
        = st.deleted x + (if p = some x ∧ st.m_Count x = 1 then 1 else 0)) := by
  cases p with
  | none => exact ⟨st, rfl, rfl, by simp, by simp⟩
  | some a =>
    obtain ⟨hd, hc⟩ := hI.alive h a hp
    by_cases h1 : st.m_Count a = 1
    · refine ⟨⟨fun x => if x = a then st.m_Count a - 1 else st.m_Count x,
        fun x => if x = a then st.deleted a + 1 else st.deleted x, st.handles⟩, ?_, rfl, ?_, ?_⟩
      · simp [cRefCount.decRef, hd, h1]
      · intro x
        by_cases hx : x = a
        · subst hx; simp
        · have hx2 : a ≠ x := fun h => hx h.symm
          simp [hx, hx2]
      · intro x
        by_cases hx : x = a
        · subst hx; simp [h1]
        · have hx2 : a ≠ x := fun h => hx h.symm
          simp [hx, hx2]
    · refine ⟨⟨fun x => if x = a then st.m_Count a - 1 else st.m_Count x,
        st.deleted, st.handles⟩, ?_, rfl, ?_, ?_⟩
      · have h2 : ¬ (st.m_Count a - 1 = 0) := by omega
        simp [cRefCount.decRef, hd, hc, h2]
      · intro x
        by_cases hx : x = a
        · subst hx; simp
        · have hx2 : a ≠ x := fun h => hx h.symm
          simp [hx, hx2]
      · intro x
        by_cases hx : x = a
        · subst hx; simp [h1]
        · have hx2 : a ≠ x := fun h => hx h.symm
          simp [hx2]

theorem cSmartPtr.acquire_spec (s : RcState) (q : Option Nat)
    (hq : ∀ b, q = some b → s.deleted b = 0 ∧ 0 ≤ s.m_Count b) :
    ∃ s2, cSmartPtr.init s q = some s2 ∧ s2.handles = s.handles ∧
      s2.deleted = s.deleted ∧
      ∀ x, s2.m_Count x = s.m_Count x + (if q = some x then 1 else 0) := by
  cases q with
  | none => exact ⟨s, rfl, rfl, rfl, by simp⟩
  | some b =>
    obtain ⟨hd, hc⟩ := hq b rfl
    refine ⟨⟨fun x => if x = b then s.m_Count b + 1 else s.m_Count x, s.deleted,
      s.handles⟩, ?_, rfl, rfl, ?_⟩
    · simp [cSmartPtr.init, cRefCount.incRef, hd, hc]
    · intro x
      by_cases hx : x = b
      · subst hx; simp
      · have hx2 : b ≠ x := fun h => hx h.symm
        simp [hx, hx2]

theorem RcState.Inv.replace {st st1 : RcState} (hI : st.Inv) (h : Nat) (p : Option Nat)
    (hp : cSmartPtr.m_Ptr st h = some p) (v : Handle) (hv : v ≠ Handle.live p)
    (hq : ∀ x, v = Handle.live (some x) → st.deleted x = 0)
    (hh : st1.handles = st.handles.set h v)
    (hc : ∀ x, st1.m_Count x = st.m_Count x - (if p = some x then 1 else 0)
      + (if v = Handle.live (some x) then 1 else 0))
    (hd : ∀ x, st1.deleted x
      = st.deleted x + (if p = some x ∧ st.m_Count x = 1 then 1 else 0)) : st1.Inv := by
  intro x
  obtain ⟨h1, h2, h3⟩ := hI x
  have hl : st1.liveCount x = st.liveCount x - (if p = some x then 1 else 0)
      + (if v = Handle.live (some x) then 1 else 0) := by
    have := RcState.liveCount_set st h p v hp x st1.m_Count st1.deleted
    simpa only [RcState.liveCount, hh] using this
  by_cases hpx : p = some x
  · subst hpx
    obtain ⟨hdx, hcx⟩ := hI.alive h x hp
    have hpos := RcState.liveCount_pos st h x hp
    have hvx : ¬ (v = Handle.live (some x)) := hv
    rw [hc x, hd x, hl]
    simp only [hvx, if_true, if_false, true_and]
    refine ⟨by omega, by split_ifs <;> omega, ?_⟩
    intro hne
    split_ifs at hne with h5
    · omega
    · omega
  · rw [hc x, hd x, hl]
    simp only [hpx, if_false, false_and]
    by_cases hvx : v = Handle.live (some x)
    · have := hq x hvx
      simp only [hvx, if_true]
      refine ⟨by omega, by omega, ?_⟩
      intro hne; omega
    · simp only [hvx, if_false]
      refine ⟨by omega, by omega, ?_⟩
      intro hne
      have := h3 (by omega)
      omega

theorem cSmartPtr.dtor_spec {st : RcState} (hI : st.Inv) (h : Nat) (p : Option Nat)
    (hp : cSmartPtr.m_Ptr st h = some p) :
    ∃ st1, cSmartPtr.dtor st h = some st1 ∧ st1.Inv ∧
      st1.handles = st.handles.set h Handle.dead ∧
      (∀ x, st1.m_Count x = st.m_Count x - (if p = some x then 1 else 0)) ∧
      (∀ x, st1.deleted x
        = st.deleted x + (if p = some x ∧ st.m_Count x = 1 then 1 else 0)) := by
  obtain ⟨s1, hs, hh, hc, hd⟩ := cSmartPtr.release_spec hI h p hp
  have key : cSmartPtr.dtor st h
      = some { s1 with handles := s1.handles.set h Handle.dead } := by
    cases p with
    | none =>
      simp only [Option.some.injEq] at hs
      subst hs
      simp [cSmartPtr.dtor, hp]
    | some a =>
      simp only at hs
      simp [cSmartPtr.dtor, hp, hs]
  refine ⟨_, key, ?_, by simp [hh], hc, hd⟩
  refine hI.replace h p hp Handle.dead (by simp) (by simp) (by simp [hh]) ?_ hd
  intro x
  simp [hc x]

theorem cSmartPtr.assign_spec {st : RcState} (hI : st.Inv) (h rhs : Nat) (p q : Option Nat)
    (hp : cSmartPtr.m_Ptr st h = some p) (hq : cSmartPtr.m_Ptr st rhs = some q) :
    ∃ st1, cSmartPtr.assign st h rhs = some st1 ∧ st1.Inv ∧
      cSmartPtr.m_Ptr st1 h = some q ∧
      (p = q → st1 = st) ∧
      (p ≠ q → st1.handles = st.handles.set h (Handle.live q) ∧
        (∀ x, st1.m_Count x = st.m_Count x - (if p = some x then 1 else 0)
          + (if q = some x then 1 else 0)) ∧
        (∀ x, st1.deleted x
          = st.deleted x + (if p = some x ∧ st.m_Count x = 1 then 1 else 0))) := by
  by_cases hpq : p = q
  · subst hpq
    refine ⟨st, by simp [cSmartPtr.assign, hp, hq], hI, hp, fun _ => rfl, ?_⟩
    intro hne; exact absurd rfl hne
  · obtain ⟨s1, hs, hh, hc, hd⟩ := cSmartPtr.release_spec hI h p hp
    have hq2 : ∀ b, q = some b →
        RcState.deleted { s1 with handles := s1.handles.set h (Handle.live q) } b = 0 ∧
        0 ≤ RcState.m_Count { s1 with handles := s1.handles.set h (Handle.live q) } b := by
      intro b hb
      subst hb
      obtain ⟨hdb, hcb⟩ := hI.alive rhs b hq
      have hpb : ¬ (p = some b) := hpq
      simp only [hc b, hd b, hpb, if_false, false_and]
      omega
    obtain ⟨s2, hs2, hh2, hd2, hc2⟩ := cSmartPtr.acquire_spec _ q hq2
    have key : cSmartPtr.assign st h rhs = some s2 := by
      simp only [cSmartPtr.assign, hp, hq, ne_eq, hpq, not_false_eq_true, if_true, hs,
        Option.some_bind, hs2]
    have hhs : s2.handles = st.handles.set h (Handle.live q) := by
      rw [hh2]; simp [hh]
    have hcs : ∀ x, s2.m_Count x = st.m_Count x - (if p = some x then 1 else 0)
        + (if q = some x then 1 else 0) := by
      intro x; rw [hc2 x]; simp [hc x]
    have hds : ∀ x, s2.deleted x
        = st.deleted x + (if p = some x ∧ st.m_Count x = 1 then 1 else 0) := by
      intro x; rw [hd2]; exact hd x
    have hlt : h < st.handles.length := by
      rw [cSmartPtr.m_Ptr_iff] at hp
      exact (List.getElem?_eq_some_iff.mp hp).1
    refine ⟨s2, key, ?_, ?_, fun h0 => absurd h0 hpq, fun _ => ⟨hhs, hcs, hds⟩⟩
    · refine hI.replace h p hp (Handle.live q) ?_ ?_ hhs ?_ hds
      · intro hv; exact hpq (Handle.live.inj hv).symm
      · intro x hx
        have hqx : q = some x := Handle.live.inj hx
        subst hqx
        exact (hI.alive rhs x hq).1
      · intro x
        rw [hcs x]
        by_cases hqx : q = some x
        · subst hqx; simp
        · have : ¬ (Handle.live q = Handle.live (some x)) := by
            intro hv; exact hqx (Handle.live.inj hv)
          simp [hqx, this]
    · rw [cSmartPtr.m_Ptr_iff, hhs]
      simp [hlt]

theorem RcState.step_inv {st : RcState} (hI : st.Inv) (op : Op) (hok : Op.ok st op = true) :
    ∃ st1, st.step op = some st1 ∧ st1.Inv := by
  cases op with
  | construct ptr =>
    have hp : ∀ a, ptr = some a → st.deleted a = 0 := by
      intro a ha; subst ha; simpa [Op.ok] using hok
    obtain ⟨s, hs, hi, _⟩ := cSmartPtr.init_push_inv hI ptr hp
    exact ⟨s, hs, hi⟩
  | copy rhs =>
    simp only [Op.ok, Option.isSome_iff_exists] at hok
    obtain ⟨p, hp⟩ := hok
    have hpa : ∀ a, p = some a → st.deleted a = 0 := by
      intro a ha; subst ha; exact (hI.alive rhs a hp).1
    obtain ⟨s, hs, hi, _⟩ := cSmartPtr.init_push_inv hI p hpa
    exact ⟨s, by simp [RcState.step, cSmartPtr.copy, hp, hs], hi⟩
  | assign h rhs =>
    simp only [Op.ok, Bool.and_eq_true, Option.isSome_iff_exists] at hok
    obtain ⟨⟨p, hp⟩, ⟨q, hq⟩⟩ := hok
    obtain ⟨s, hs, hi, _⟩ := cSmartPtr.assign_spec hI h rhs p q hp hq
    exact ⟨s, hs, hi⟩
  | destroy h =>
    simp only [Op.ok, Option.isSome_iff_exists] at hok
    obtain ⟨p, hp⟩ := hok
    obtain ⟨s, hs, hi, _⟩ := cSmartPtr.dtor_spec hI h p hp
    exact ⟨s, hs, hi⟩

theorem RcState.init_inv : RcState.init.Inv := by
  intro a
  simp [RcState.init, RcState.liveCount]

theorem RcState.run_inv (ops : List Op) :
    ∀ st : RcState, st.Inv → st.Valid ops = true → ∃ st1, st.run ops = some st1 ∧ st1.Inv := by
  induction ops with
  | nil => intro st hI _; exact ⟨st, rfl, hI⟩
  | cons op ops ih =>
    intro st hI hv
    simp only [RcState.Valid, Bool.and_eq_true] at hv
    obtain ⟨s, hs, hi⟩ := RcState.step_inv hI op hv.1
    have hv2 : s.Valid ops = true := by simpa [hs] using hv.2
    obtain ⟨s2, hr, hi2⟩ := ih s hi hv2
    exact ⟨s2, by simp [RcState.run, hs, hr], hi2⟩

/-- C15: every object starts with count 0; after any sequence of handle constructions,
copies, assignments and destructions that meets the caller's obligations, every
operation has succeeded, the count of each object is the number of live handles on it,
and no object was deleted more than once; destroying one of two handles leaves count 1
and the object alive, destroying the last one deletes the object, for the first and only
time; `decRef` deletes exactly when the count it leaves is 0. -/
theorem refcount_equals_live_handles (ops : List Op)
    (hv : RcState.init.Valid ops = true) :
    (∀ a, RcState.init.m_Count a = 0 ∧ RcState.init.deleted a = 0) ∧
    (∃ st, RcState.init.run ops = some st ∧
      (∀ a, st.m_Count a = (st.liveCount a : Int) ∧ st.deleted a ≤ 1 ∧
        (st.deleted a = 1 → st.liveCount a = 0)) ∧
      (∀ h a, cSmartPtr.m_Ptr st h = some (some a) →
        ∃ st1, cSmartPtr.dtor st h = some st1 ∧
          st1.m_Count a = (st1.liveCount a : Int) ∧
          st1.liveCount a + 1 = st.liveCount a ∧
          (st.liveCount a = 2 → st1.m_Count a = 1 ∧ st1.deleted a = 0) ∧
          (st.liveCount a = 1 →
            st1.m_Count a = 0 ∧ st.deleted a = 0 ∧ st1.deleted a = 1))) ∧
    (∀ s a s1, cRefCount.decRef s a = some s1 →
      s1.m_Count a = s.m_Count a - 1 ∧
      (s1.m_Count a = 0 → s1.deleted a = s.deleted a + 1) ∧
      (s1.m_Count a ≠ 0 → s1.deleted a = s.deleted a) ∧
      (∀ x, x ≠ a → s1.m_Count x = s.m_Count x ∧ s1.deleted x = s.deleted x)) := by
  refine ⟨fun a => ⟨rfl, rfl⟩, ?_, ?_⟩
  · obtain ⟨st, hr, hI⟩ := RcState.run_inv ops RcState.init RcState.init_inv hv
    refine ⟨st, hr, ?_, ?_⟩
    · intro a
      obtain ⟨h1, h2, h3⟩ := hI a
      refine ⟨h1, h2, ?_⟩
      intro hd
      have := h3 (by omega)
      omega
    · intro h a hp
      obtain ⟨st1, hs, hI1, hh, hc, hd⟩ := cSmartPtr.dtor_spec hI h (some a) hp
      obtain ⟨hda, hca⟩ := hI.alive h a hp
      have h1 := (hI a).1
      have h2 := (hI1 a).1
      have hc1 := hc a
      have hd1 := hd a
      simp only [if_true, true_and] at hc1 hd1
      refine ⟨st1, hs, h2, by omega, ?_, ?_⟩
      · intro h3
        have h4 : ¬ (st.m_Count a = 1) := by omega
        simp only [h4, if_false] at hd1
        omega
      · intro h3
        have h4 : st.m_Count a = 1 := by omega
        simp only [h4, if_true] at hd1
        omega
  · intro s a s1 hs
    simp only [cRefCount.decRef] at hs
    split_ifs at hs with h1 h2 h3
    · cases hs
      simp only [if_true] at h3 ⊢
      refine ⟨trivial, fun _ => trivial, fun h => absurd h3 h, ?_⟩
      intro x hx
      simp [hx]
    · cases hs
      simp only [if_true] at h3 ⊢
      refine ⟨trivial, fun h => absurd h h3, fun _ => trivial, ?_⟩
      intro x hx
      simp [hx]

/-- C15 (witness): two handles on one object, dropped one after the other. -/
theorem refcount_equals_live_handles_witness :
    RcState.init.Valid sampleHandleOps = true ∧
    ∃ st, RcState.init.run sampleHandleOps = some st ∧
      st.m_Count 0 = (st.liveCount 0 : Int) ∧ st.deleted 0 ≤ 1 :=
  ⟨by decide,
    (refcount_equals_live_handles sampleHandleOps (by decide)).2.1.imp
      fun _ h => ⟨h.1, (h.2.1 0).1, (h.2.1 0).2.1⟩⟩

/-- C16: in any state reached by handle operations, for live handles `a` (on `p`) and
`b` (on `q`), `a = b` succeeds and leaves `a` on `q`; if `p` and `q` differ, the count of
`q` is one higher, the count of `p` one lower, every other count and every other handle
is as before; if `p` and `q` are the same, and so when `a` is `b`, the state is
unchanged. -/
theorem assign_moves_one_reference (ops : List Op)
    (hv : RcState.init.Valid ops = true) :
    ∃ st, RcState.init.run ops = some st ∧
      ∀ a b p q, cSmartPtr.m_Ptr st a = some p → cSmartPtr.m_Ptr st b = some q →
        ∃ st1, cSmartPtr.assign st a b = some st1 ∧
          cSmartPtr.m_Ptr st1 a = some q ∧
          (p ≠ q →
            (∀ y, q = some y → st1.m_Count y = st.m_Count y + 1) ∧
            (∀ x, p = some x → st1.m_Count x = st.m_Count x - 1) ∧
            (∀ z, p ≠ some z → q ≠ some z → st1.m_Count z = st.m_Count z) ∧
            (∀ z, p ≠ some z → st1.deleted z = st.deleted z) ∧
            (∀ c, c ≠ a → cSmartPtr.m_Ptr st1 c = cSmartPtr.m_Ptr st c)) ∧
          (p = q → st1 = st) ∧
          (a = b → st1 = st) := by
  obtain ⟨st, hr, hI⟩ := RcState.run_inv ops RcState.init RcState.init_inv hv
  refine ⟨st, hr, ?_⟩
  intro a b p q hp hq
  obtain ⟨st1, hs, _, hm, heq, hne⟩ := cSmartPtr.assign_spec hI a b p q hp hq
  refine ⟨st1, hs, hm, ?_, heq, ?_⟩
  · intro hpq
    obtain ⟨hh, hc, hd⟩ := hne hpq
    refine ⟨?_, ?_, ?_, ?_, ?_⟩
    · intro y hy
      subst hy
      have : ¬ (p = some y) := hpq
      simp [hc y, this]
    · intro x hx
      subst hx
      have : ¬ (q = some x) := fun h => hpq h.symm
      simp [hc x, this]
    · intro z h1 h2
      simp [hc z, h1, h2]
    · intro z h1
      simp [hd z, h1]
    · intro c hc2
      simp only [cSmartPtr.m_Ptr, hh]
      rw [List.getElem?_set_ne (Ne.symm hc2)]
  · intro hab
    subst hab
    rw [hp] at hq
    exact heq (Option.some.inj hq)

/-- C16 (witness): handles on two different objects and a null handle. -/
theorem assign_moves_one_reference_witness :
    RcState.init.Valid sampleAssignOps = true ∧
    ∃ st, RcState.init.run sampleAssignOps = some st ∧
      ∃ st1, cSmartPtr.assign st 0 1 = some st1 ∧ cSmartPtr.m_Ptr st1 0 = some (some 1) ∧
        st1.m_Count 1 = st.m_Count 1 + 1 ∧ st1.m_Count 0 = st.m_Count 0 - 1 := by
  refine ⟨by decide, ?_⟩
  obtain ⟨st, hr, h⟩ := assign_moves_one_reference sampleAssignOps (by decide)
  have h0 : cSmartPtr.m_Ptr st 0 = some (some 0) := by
    have e : (RcState.init.run sampleAssignOps).map (fun s => cSmartPtr.m_Ptr s 0)
        = some (some (some 0)) := by decide
    rw [hr] at e
    exact Option.some.inj e
  have h1 : cSmartPtr.m_Ptr st 1 = some (some 1) := by
    have e : (RcState.init.run sampleAssignOps).map (fun s => cSmartPtr.m_Ptr s 1)
        = some (some (some 1)) := by decide
    rw [hr] at e
    exact Option.some.inj e
  obtain ⟨st1, hs, hm, hne, _, _⟩ := h 0 1 (some 0) (some 1) h0 h1
  obtain ⟨hq, hp, _⟩ := hne (by decide)
  exact ⟨st, hr, st1, hs, hm, hq 1 rfl, hp 0 rfl⟩

/-! ## The keyed table -/

theorem cMap.map_find_none {K V : Type} [DecidableEq K] (m : List (K × V)) (key : K) :
    cMap.map_find m key = none ↔ ∀ e ∈ m, e.1 ≠ key := by
  induction m with
  | nil => simp [cMap.map_find]
  | cons x xs ih =>
    obtain ⟨a, b⟩ := x
    simp only [cMap.map_find] at ih ⊢
    by_cases h : key = a
    · subst h
      simp [List.lookup]
    · have h2 : (key == a) = false := by simpa using h
      simp only [List.lookup, h2, ih]
      simp [Ne.symm h]

theorem cMap.Find_false {K V : Type} [DecidableEq K] (m : cMap K V) (key : K) :
    m.Find key = false ↔ cMap.map_find m.mMap key = none := by
  obtain ⟨l⟩ := m
  cases l with
  | nil => simp [cMap.Find, cMap.map_find]
  | cons x xs =>
    simp only [cMap.Find, List.isEmpty_cons, Bool.not_false, if_true]
    cases h : cMap.map_find (x :: xs) key <;> simp

/-- C17: every failing `cMap` operation leaves the table as it was: `Add( key, NULL )`
returns false; `Find( key )` is false exactly when no entry has the key, and then
`Find( key, data )`, `Remove( key )` and `Remove( key, data )` return false too; in each
case the entries and `Count()` are those of before and the caller's `data` keeps its
value. -/
theorem cMap_failure_changes_nothing {K V : Type} [DecidableEq K] (m : cMap K V) (key : K)
    (data : V) :
    (m.Add key none = (m, false)) ∧
    (m.Find key = false ↔ ∀ e ∈ m.mMap, e.1 ≠ key) ∧
    (m.Find key = false →
      m.Find_data key data = (data, false) ∧
      m.Remove key = (m, false) ∧
      m.Remove_data key data = (m, data, false) ∧
      (m.Remove key).1.mMap = m.mMap ∧ (m.Remove key).1.Count = m.Count ∧
      (m.Remove_data key data).1.mMap = m.mMap ∧
      (m.Remove_data key data).1.Count = m.Count) ∧
    (m.Add key none).1.mMap = m.mMap ∧ (m.Add key none).1.Count = m.Count := by
  refine ⟨rfl, ?_, ?_, rfl, rfl⟩
  · rw [cMap.Find_false, cMap.map_find_none]
  · intro h
    have hf : m.Find_data key data = (data, false) := by
      rw [cMap.Find_false] at h
      simp only [cMap.Find_data, h]
      split_ifs <;> rfl
    have hr : m.Remove key = (m, false) := by simp [cMap.Remove, h]
    have hd : m.Remove_data key data = (m, data, false) := by
      simp [cMap.Remove_data, hf]
    rw [hr, hd]
    exact ⟨hf, rfl, rfl, rfl, rfl, rfl, rfl⟩

theorem cMap.map_find_append {K V : Type} [DecidableEq K] (m : List (K × V)) (k k1 : K)
    (v : V) :
    cMap.map_find (m ++ [(k, v)]) k1
      = match cMap.map_find m k1 with
        | some w => some w
        | none => if k1 = k then some v else none := by
  induction m with
  | nil =>
    by_cases h : k1 = k
    · subst h; simp [cMap.map_find, List.lookup]
    · have h2 : (k1 == k) = false := by simpa using h
      simp [cMap.map_find, List.lookup, h2, h]
  | cons x xs ih =>
    obtain ⟨a, b⟩ := x
    simp only [cMap.map_find] at ih ⊢
    by_cases h : k1 = a
    · subst h; simp [List.lookup]
    · have h2 : (k1 == a) = false := by simpa using h
      simp only [List.cons_append, List.lookup, h2]
      exact ih

theorem cMap.map_erase_append {K V : Type} [DecidableEq K] (m : List (K × V)) (k : K)
    (v : V) (h : cMap.map_find m k = none) : cMap.map_erase (m ++ [(k, v)]) k = m := by
  rw [cMap.map_find_none] at h
  simp only [cMap.map_erase, List.filter_append]
  have h1 : List.filter (fun e : K × V => decide (e.1 ≠ k)) m = m := by
    rw [List.filter_eq_self]
    intro e he
    simpa using h e he
  rw [h1]
  simp

/-- C18: for a table `m`, a key `k` that `m` does not hold and a value `v`, `Add( k, &v )`
returns true, appends the entry and raises `Count()` by 1; then `Find( k, out )` returns
true with `out` set to `v`; then `Remove( k, out2 )` returns true with `out2` set to `v`
and gives back exactly the entries of `m`, so `Find( k )` is false and `Count()` is the
original one; the entries under other keys are the same after `Add`. -/
theorem cMap_add_find_remove {K V : Type} [DecidableEq K] (m : cMap K V) (k : K)
    (v out out2 : V) (h : m.Find k = false) :
    (m.Add k (some v)).2 = true ∧
    (m.Add k (some v)).1.mMap = m.mMap ++ [(k, v)] ∧
    (m.Add k (some v)).1.Count = m.Count + 1 ∧
    (m.Add k (some v)).1.Find_data k out = (v, true) ∧
    (m.Add k (some v)).1.Find k = true ∧
    (m.Add k (some v)).1.Remove_data k out2 = (m, v, true) ∧
    ((m.Add k (some v)).1.Remove_data k out2).1.Find k = false ∧
    ((m.Add k (some v)).1.Remove_data k out2).1.Count = m.Count ∧
    (∀ k1, k1 ≠ k →
      cMap.map_find (m.Add k (some v)).1.mMap k1 = cMap.map_find m.mMap k1) := by
  have hn : cMap.map_find m.mMap k = none := (cMap.Find_false m k).mp h
  have ha : m.Add k (some v) = (⟨m.mMap ++ [(k, v)]⟩, true) := by
    simp [cMap.Add, cMap.map_insert, hn]
  have hfk : cMap.map_find (m.mMap ++ [(k, v)]) k = some v := by
    rw [cMap.map_find_append, hn]; simp
  have hfd : ∀ o : V, cMap.Find_data (cMap.mk (m.mMap ++ [(k, v)])) k o = (v, true) := by
    intro o
    simp [cMap.Find_data, hfk]
  have hrm : cMap.Remove_data (cMap.mk (m.mMap ++ [(k, v)])) k out2 = (m, v, true) := by
    simp only [cMap.Remove_data, hfd, if_true, cMap.map_erase_append m.mMap k v hn]
  rw [ha]
  simp only [hfd, hrm, h]
  refine ⟨trivial, trivial, ?_, trivial, ?_, trivial, trivial, trivial, ?_⟩
  · simp [cMap.Count]
  · simp [cMap.Find, hfk]
  · intro k1 hk
    rw [cMap.map_find_append]
    cases cMap.map_find m.mMap k1 <;> simp [hk]

/-- C18 (witness): key 3 is added to the sample table, found and removed. -/
theorem cMap_add_find_remove_witness :
    sampleMap.Find 3 = false ∧
    (sampleMap.Add 3 (some 30)).1.Find_data 3 0 = (30, true) ∧
    (sampleMap.Add 3 (some 30)).1.Remove_data 3 0 = (sampleMap, 30, true) :=
  ⟨by decide, (cMap_add_find_remove sampleMap 3 30 0 0 (by decide)).2.2.2.1,
    (cMap_add_find_remove sampleMap 3 30 0 0 (by decide)).2.2.2.2.2.1⟩

/-! ## Booleans, sequence number, checksum hook, assignment -/

/-- C23: `_serialize( bool )` stores one byte at the cursor, 1 for true and 0 for false,
changes no other byte and advances the cursor by 1; `_deserialize( bool & )` at the same
position of the resulting memory returns `b`, leaves the memory as it is and advances
the cursor by 1. -/
theorem serialize_bool_one_byte (st : Stream) (b : Bool) :
    (NPS_Serialize._serialize_bool st b).heap.byte st.serializedBufferPtr_.block
        st.serializedBufferPtr_.off = (if b then 1 else 0) ∧
    (∀ blk o, ¬ (blk = st.serializedBufferPtr_.block ∧ o = st.serializedBufferPtr_.off) →
      (NPS_Serialize._serialize_bool st b).heap.byte blk o = st.heap.byte blk o) ∧
    (NPS_Serialize._serialize_bool st b).serializedBufferPtr_
      = st.serializedBufferPtr_.add 1 ∧
    (NPS_Serialize._deserialize_bool
        ⟨(NPS_Serialize._serialize_bool st b).heap, st.serializedBufferPtr_⟩).1 = b ∧
    (NPS_Serialize._deserialize_bool
        ⟨(NPS_Serialize._serialize_bool st b).heap, st.serializedBufferPtr_⟩).2.serializedBufferPtr_
      = st.serializedBufferPtr_.add 1 ∧
    (NPS_Serialize._deserialize_bool
        ⟨(NPS_Serialize._serialize_bool st b).heap, st.serializedBufferPtr_⟩).2.heap
      = (NPS_Serialize._serialize_bool st b).heap := by
  refine ⟨?_, ?_, rfl, ?_, rfl, rfl⟩
  · simp [NPS_Serialize._serialize_bool, memcpyTo_byte]
  · intro blk o h
    simp only [NPS_Serialize._serialize_bool, memcpyTo_byte, List.length_singleton]
    rw [if_neg]
    intro h2
    exact h ⟨h2.1, by omega⟩
  · cases b <;> simp [NPS_Serialize._deserialize_bool, NPS_Serialize._serialize_bool,
      memcpyTo_byte]

/-- C24 (amended): after `setSequenceNumber( n )`, `sequenceNumber()` returns `n`;
`checksum()` returns `n` as well when the header has a buffer, and 0 when it has none.
`sequenceNumber()` is the member `sequenceNumber_` and `checksum()` the header field. -/
theorem setSequenceNumber_then_getters (e : Endian) (hp : Heap) (s : NPS_Serialize)
    (n : Nat) :
    (NPS_Serialize.setSequenceNumber e s hp n).1.sequenceNumber = n % 4294967296 ∧
    (s.header_.data_ ≠ none →
      NPS_Serialize.checksum e (NPS_Serialize.setSequenceNumber e s hp n).2
        (NPS_Serialize.setSequenceNumber e s hp n).1 = n % 4294967296) ∧
    (s.header_.data_ = none →
      NPS_Serialize.checksum e (NPS_Serialize.setSequenceNumber e s hp n).2
        (NPS_Serialize.setSequenceNumber e s hp n).1 = 0) ∧
    s.sequenceNumber = s.sequenceNumber_ ∧
    NPS_Serialize.checksum e hp s = s.header_.checksum e hp := by
  obtain ⟨hdr, mid, mver, sh, sq⟩ := s
  obtain ⟨d, own⟩ := hdr
  cases d with
  | none =>
    refine ⟨rfl, fun h => absurd rfl h, fun _ => ?_, rfl, rfl⟩
    cases e <;>
      simp [NPS_Serialize.setSequenceNumber, NPS_Serialize.checksum, Header.checksum,
        ntoh_uint32, ntohl, htonl, bswap32]
  | some p =>
    refine ⟨rfl, fun _ => ?_, fun h => Option.noConfusion h, rfl, rfl⟩
    simp only [NPS_Serialize.setSequenceNumber, NPS_Serialize.checksum,
      Header.setChecksum_eq, Header.checksum_eq]
    simp [memcpyTo_byte, be32, Ptr.add]
    omega

/-- C24 (counterexample): on an entity without header buffer, `setSequenceNumber( 7 )`
makes `sequenceNumber()` return 7 while `checksum()` returns 0. -/
theorem sequenceNumber_differs_from_checksum :
    (NPS_Serialize.setSequenceNumber .little (NPS_Serialize.ctor 0 0) sampleHeap
      7).1.sequenceNumber = 7 ∧
    NPS_Serialize.checksum .little
      (NPS_Serialize.setSequenceNumber .little (NPS_Serialize.ctor 0 0) sampleHeap 7).2
      (NPS_Serialize.setSequenceNumber .little (NPS_Serialize.ctor 0 0) sampleHeap 7).1 = 0 ∧
    (NPS_Serialize.setSequenceNumber .little (NPS_Serialize.ctor 0 0) sampleHeap
      7).1.sequenceNumber ≠
    NPS_Serialize.checksum .little
      (NPS_Serialize.setSequenceNumber .little (NPS_Serialize.ctor 0 0) sampleHeap 7).2
      (NPS_Serialize.setSequenceNumber .little (NPS_Serialize.ctor 0 0) sampleHeap 7).1 := by
  decide

/-- C27: for two entities whose header buffers hold the same bytes in the length and
version fields (offsets 2 to 5), whatever the other bytes of the buffers and of memory
are, `generateChecksum()` returns the same value. -/
theorem generateChecksum_independent (e : Endian) (hp1 hp2 : Heap) (s1 s2 : NPS_Serialize)
    (p1 p2 : Ptr) (h1 : s1.header_.data_ = some p1) (h2 : s2.header_.data_ = some p2)
    (hagree : ∀ k, 2 ≤ k → k < 6 →
      hp1.byte p1.block (p1.off + k) = hp2.byte p2.block (p2.off + k)) :
    NPS_Serialize.generateChecksum e hp1 s1 = NPS_Serialize.generateChecksum e hp2 s2 := by
  obtain ⟨⟨d1, own1⟩, _, _, _, _⟩ := s1
  obtain ⟨⟨d2, own2⟩, _, _, _, _⟩ := s2
  simp only at h1 h2
  subst h1 h2
  simp only [NPS_Serialize.generateChecksum, Header.length_eq, Header.version_eq]
  rw [hagree 2 (by omega) (by omega), hagree 3 (by omega) (by omega),
    hagree 4 (by omega) (by omega), hagree 5 (by omega) (by omega)]

/-- C27 (witness): the same entity over two memories that differ in the checksum field. -/
theorem generateChecksum_independent_witness :
    sampleHeap.byte 0 8 ≠ sampleHeapChecksum.byte 0 8 ∧
    NPS_Serialize.generateChecksum .little sampleHeap sampleAttached
      = NPS_Serialize.generateChecksum .little sampleHeapChecksum sampleAttached :=
  ⟨by decide,
    generateChecksum_independent .little sampleHeap sampleHeapChecksum sampleAttached
      sampleAttached ⟨0, 0⟩ ⟨0, 0⟩ rfl rfl
      (fun k _ h6 => by
        simp only [sampleHeapChecksum, memcpyTo_byte]
        rw [if_neg]
        intro h
        have := h.2.1
        simp only [] at this
        omega)⟩

/-- C29: `a = b` on `NPS_Serialize` gives `a` the message id, the message version and
(through `Header::operator=`) the header of `b`, and leaves `a.serializeHeader()` and
`a.sequenceNumber()` as they were; `a = a` changes neither the entity nor the memory. -/
theorem NPS_Serialize_assign_frame (e : Endian) (hp : Heap) (a b : NPS_Serialize) :
    (a.assign e hp b).1.messageId = b.messageId ∧
    (a.assign e hp b).1.messageVersion = b.messageVersion ∧
    (a.assign e hp b).1.serializeHeader = a.serializeHeader ∧
    (a.assign e hp b).1.sequenceNumber = a.sequenceNumber ∧
    (a.assign e hp b).1.header_ = (a.header_.assign e hp b.header_).1 ∧
    (a.assign e hp b).2 = (a.header_.assign e hp b.header_).2 ∧
    a.assignSelf hp = (a, hp) :=
  ⟨rfl, rfl, rfl, rfl, rfl, rfl, rfl⟩

/-! ## Frame of `setKey`, session key of a status, repeated `Add` -/

/-- C30: `setKey( buf, len )`, with `buf` holding the `min(len, 32)` bytes that are
copied, makes the first `min(len, 32)` key bytes those of `buf`, leaves the other bytes
of `key_` as they were, sets `length()` to `min(len, 32)` and changes neither
`expiryDate()`, `isValid()` nor the `NPS_Serialize` base. -/
theorem setKey_changes_key_only (k : NPS_SessionKey) (buf : List Nat) (len : Nat)
    (hbuf : min len 32 ≤ buf.length) :
    (k.setKey buf len).key_.take (min len 32) = buf.take (min len 32) ∧
    (k.setKey buf len).key_.drop (min len 32) = k.key_.drop (min len 32) ∧
    (k.setKey buf len).length = min len 32 ∧
    (k.setKey buf len).expiryDate = k.expiryDate ∧
    (k.setKey buf len).isValid = k.isValid ∧
    (k.setKey buf len).toNPS_Serialize = k.toNPS_Serialize := by
  have hn : (if len > NPS_SessionKey.maxLength_ then NPS_SessionKey.maxLength_ else len)
      = min len 32 := by
    simp only [NPS_SessionKey.maxLength_, NPS_SESSION_KEY_LEN]
    split_ifs <;> omega
  have hl : (buf.take (min len 32)).length = min len 32 := by
    rw [List.length_take]; omega
  refine ⟨?_, ?_, NPS_SessionKey.setKey_length k buf len, rfl, rfl, rfl⟩
  · simp only [NPS_SessionKey.setKey, hn, NPS_Serialize.memcpyList]
    rw [List.take_left' hl]
  · simp only [NPS_SessionKey.setKey, hn, NPS_Serialize.memcpyList]
    rw [List.drop_left' hl]

/-- C30 (witness): two bytes are given to an unset key. -/
theorem setKey_changes_key_only_witness :
    min 2 32 ≤ [107, 108].length ∧
    (sampleUnsetKey.setKey [107, 108] 2).key_.take (min 2 32) = [107, 108].take (min 2 32) ∧
    (sampleUnsetKey.setKey [107, 108] 2).expiryDate = sampleUnsetKey.expiryDate :=
  ⟨by decide, (setKey_changes_key_only sampleUnsetKey [107, 108] 2 (by decide)).1,
    (setKey_changes_key_only sampleUnsetKey [107, 108] 2 (by decide)).2.2.2.1⟩

/-- C25: `setSessionKey( k )` and `GLDP_UserStatus::operator=` go through
`NPS_SessionKey::operator=`, which copies the key length (capped at 32) and never the
expiry date: the status keeps the expiry date, and so the `isAuthorized()`, it had; the
five-argument constructor does embed `k`. A fresh status given the valid sample key stays
unauthorized. -/
theorem setSessionKey_keeps_expiry {α : Type} (u v : GLDP_UserStatus α) (k : NPS_SessionKey)
    (c p : Nat) (b g : α) (asg : α → α → α) :
    (u.setSessionKey k).sessionKey.expiryDate = u.sessionKey.expiryDate ∧
    (u.setSessionKey k).isAuthorized = u.isAuthorized ∧
    (u.setSessionKey k).sessionKey.length = min k.length 32 ∧
    (GLDP_UserStatus.ctorFull c p k b g).sessionKey = k ∧
    (GLDP_UserStatus.ctorFull c p k b g).isAuthorized = k.isValid ∧
    (u.assign asg v).sessionKey.expiryDate = u.sessionKey.expiryDate ∧
    (u.assign asg v).isAuthorized = u.isAuthorized ∧
    sampleValidKey.isValid = true ∧
    (freshStatus.setSessionKey sampleValidKey).isAuthorized = false ∧
    (freshStatus.setSessionKey sampleValidKey).sessionKey.expiryDate = 0 ∧
    sampleValidKey.expiryDate = 100 ∧
    sampleValidStatus.isAuthorized = true ∧
    (freshStatus.assign (fun _ y => y) sampleValidStatus).isAuthorized = false := by
  refine ⟨rfl, rfl, NPS_SessionKey.setKey_length _ _ _, rfl, rfl, rfl, rfl, ?_, ?_, ?_, ?_,
    ?_, ?_⟩ <;> decide

/-- C26: the two-argument constructor stores its arguments (as 32-bit values) and
default-constructs the session key (length 0, expiry 0, not authorized), but has no
initializer for `isCacheHit_`: `isCacheHit()` returns whatever the storage held, true for
the fresh sample status. -/
theorem ctor_leaves_isCacheHit {α : Type} (ban0 gag0 : α) (junk : List Nat)
    (cacheHit0 : Bool) (c p : Nat) :
    (GLDP_UserStatus.ctor ban0 gag0 junk cacheHit0 c p).isCacheHit = cacheHit0 ∧
    (GLDP_UserStatus.ctor ban0 gag0 junk cacheHit0 c p).sessionKey.length = 0 ∧
    (GLDP_UserStatus.ctor ban0 gag0 junk cacheHit0 c p).sessionKey.expiryDate = 0 ∧
    (GLDP_UserStatus.ctor ban0 gag0 junk cacheHit0 c p).isAuthorized = false ∧
    (GLDP_UserStatus.ctor ban0 gag0 junk cacheHit0 c p).customerId = c % 4294967296 ∧
    (GLDP_UserStatus.ctor ban0 gag0 junk cacheHit0 c p).personaId = p % 4294967296 ∧
    freshStatus.isCacheHit = true :=
  ⟨rfl, rfl, rfl,
    by simp [GLDP_UserStatus.isAuthorized, GLDP_UserStatus.ctor, NPS_SessionKey.isValid,
      NPS_SessionKey.ctor],
    rfl, rfl, rfl⟩

/-- C28: when `Find( key, out )` succeeds with value `w`, `Add( key, &v )` returns true
and leaves the table as it was: `Find( key, out )` still yields `w` and `Count()` is
the same. -/
theorem cMap_add_present_keeps_entry {K V : Type} [DecidableEq K] (m : cMap K V) (k : K)
    (v w out : V) (h : m.Find_data k out = (w, true)) :
    (m.Add k (some v)).2 = true ∧
    (m.Add k (some v)).1 = m ∧
    (m.Add k (some v)).1.Find_data k out = (w, true) ∧
    (m.Add k (some v)).1.Count = m.Count := by
  have hf : cMap.map_find m.mMap k = some w := by
    simp only [cMap.Find_data] at h
    split_ifs at h with h1
    · cases h2 : cMap.map_find m.mMap k with
      | none => rw [h2] at h; simp at h
      | some x => rw [h2] at h; simp at h; rw [h]
    · simp at h
  have ha : m.Add k (some v) = (m, true) := by
    simp [cMap.Add, cMap.map_insert, hf]
  rw [ha]
  exact ⟨rfl, rfl, h, rfl⟩

/-- C28 (witness): key 1 of the sample table holds 10; adding 99 under it changes
nothing. -/
theorem cMap_add_present_keeps_entry_witness :
    sampleMap.Find_data 1 0 = (10, true) ∧
    (sampleMap.Add 1 (some 99)).2 = true ∧
    (sampleMap.Add 1 (some 99)).1.Find_data 1 0 = (10, true) :=
  ⟨by decide, (cMap_add_present_keeps_entry sampleMap 1 99 10 0 (by decide)).1,
    (cMap_add_present_keeps_entry sampleMap 1 99 10 0 (by decide)).2.2.1⟩

/-! ## `GLDP_UserStatusRequest` -/

theorem GLDP_UserStatusRequest.request_doSerialize_eq (e : Endian)
    (r : GLDP_UserStatusRequest)
    (st : Stream) :
    GLDP_UserStatusRequest._doSerialize e r st
      = { heap := (st.heap.memcpyTo st.serializedBufferPtr_ (be32 r.customerId_)).memcpyTo
            (st.serializedBufferPtr_.add 4) (be32 (r.operation_ % 4294967296)),
          serializedBufferPtr_ := st.serializedBufferPtr_.add 8 } := by
  simp [GLDP_UserStatusRequest._doSerialize, GLDP_CustomerId._doSerialize,
    NPS_Serialize._serialize_uint32_eq, Ptr.add, Nat.add_assoc]

theorem GLDP_UserStatusRequest.request_doSerialize_bytes (e : Endian)
    (r : GLDP_UserStatusRequest)
    (st : Stream) (k : Nat) (hk : k < 8) :
    (GLDP_UserStatusRequest._doSerialize e r st).heap.byte st.serializedBufferPtr_.block
        (st.serializedBufferPtr_.off + k)
      = (be32 r.customerId_ ++ be32 (r.operation_ % 4294967296)).getD k 0 := by
  rw [GLDP_UserStatusRequest.request_doSerialize_eq]
  simp only [memcpyTo_byte, Ptr.add, be32, List.length_cons, List.length_nil]
  interval_cases k <;> simp

theorem GLDP_UserStatusRequest.request_doDeserialize_of_bytes (e : Endian)
    (r r0 : GLDP_UserStatusRequest) (hp : Heap) (p : Ptr)
    (hc : r.customerId_ < 4294967296) (ho : r.operation_ < 4294967296)
    (hb : ∀ k, k < 8 → hp.byte p.block (p.off + k)
      = (be32 r.customerId_ ++ be32 (r.operation_ % 4294967296)).getD k 0) :
    (GLDP_UserStatusRequest._doDeserialize e r0 ⟨hp, p⟩).1.customerId_ = r.customerId_ ∧
    (GLDP_UserStatusRequest._doDeserialize e r0 ⟨hp, p⟩).1.operation_ = r.operation_ ∧
    (GLDP_UserStatusRequest._doDeserialize e r0 ⟨hp, p⟩).1.toNPS_Serialize
      = r0.toNPS_Serialize ∧
    (GLDP_UserStatusRequest._doDeserialize e r0 ⟨hp, p⟩).2 = ⟨hp, p.add 8⟩ := by
  have h0 := hb 0 (by omega)
  have h1 := hb 1 (by omega)
  have h2 := hb 2 (by omega)
  have h3 := hb 3 (by omega)
  have h4 := hb 4 (by omega)
  have h5 := hb 5 (by omega)
  have h6 := hb 6 (by omega)
  have h7 := hb 7 (by omega)
  simp only [be32, List.cons_append, List.nil_append, List.getD_cons_zero,
    List.getD_cons_succ, Nat.add_zero] at h0 h1 h2 h3 h4 h5 h6 h7
  simp only [GLDP_UserStatusRequest._doDeserialize, GLDP_CustomerId._doDeserialize,
    NPS_Serialize._deserialize_uint32_eq, Ptr.add, Nat.add_assoc, Nat.reduceAdd]
  rw [h0, h1, h2, h3, h4, h5, h6, h7]
  refine ⟨by omega, by omega, ?_, ?_⟩ <;> trivial

/-- C22: for a request whose customer id is a 32-bit value and whose operation is one of
the four tags, `serializeSizeOf()` is the `GLDP_CustomerId` size plus 4; `_doSerialize`
stores the customer id and then the tag, each as four bytes most significant first, and
advances the cursor by 8; `_doDeserialize` on those bytes, and `deserialize` on the
buffer made by `serialize` (into a request with the same header flag), give back the
customer id and the operation. -/
theorem UserStatusRequest_roundtrip (e : Endian) (r r0 : GLDP_UserStatusRequest)
    (st : Stream) (hp : Heap) (hc : r.customerId_ < 4294967296) (ho : r.operation_ < 4)
    (hflag : r0.serializeHeader_ = r.serializeHeader_) :
    r.serializeSizeOf = r.toGLDP_CustomerId.serializeSizeOf + 4 ∧
    (∀ k, k < 8 →
      (GLDP_UserStatusRequest._doSerialize e r st).heap.byte st.serializedBufferPtr_.block
          (st.serializedBufferPtr_.off + k)
        = (be32 r.customerId_ ++ be32 r.operation_).getD k 0) ∧
    (GLDP_UserStatusRequest._doSerialize e r st).serializedBufferPtr_
      = st.serializedBufferPtr_.add 8 ∧
    (GLDP_UserStatusRequest._doDeserialize e r0
      ⟨(GLDP_UserStatusRequest._doSerialize e r st).heap, st.serializedBufferPtr_⟩).1.customerId_
      = r.customerId_ ∧
    (GLDP_UserStatusRequest._doDeserialize e r0
      ⟨(GLDP_UserStatusRequest._doSerialize e r st).heap, st.serializedBufferPtr_⟩).1.operation
      = r.operation ∧
    (GLDP_UserStatusRequest._doDeserialize e r0
      ⟨(GLDP_UserStatusRequest._doSerialize e r st).heap,
        st.serializedBufferPtr_⟩).2.serializedBufferPtr_
      = (GLDP_UserStatusRequest._doSerialize e r st).serializedBufferPtr_ ∧
    (NPS_Serialize.deserialize (GLDP_UserStatusRequest.cls e) r0
        (NPS_Serialize.serialize e (GLDP_UserStatusRequest.cls e) r hp).1.heap
        (NPS_Serialize.serialize e (GLDP_UserStatusRequest.cls e) r hp).2.1 false).1.customerId_
      = r.customerId_ ∧
    (NPS_Serialize.deserialize (GLDP_UserStatusRequest.cls e) r0
        (NPS_Serialize.serialize e (GLDP_UserStatusRequest.cls e) r hp).1.heap
        (NPS_Serialize.serialize e (GLDP_UserStatusRequest.cls e) r hp).2.1 false).1.operation
      = r.operation := by
  have ho2 : r.operation_ < 4294967296 := by omega
  have hm : r.operation_ % 4294967296 = r.operation_ := Nat.mod_eq_of_lt ho2
  have hbytes : ∀ (s : Stream) (k : Nat), k < 8 →
      (GLDP_UserStatusRequest._doSerialize e r s).heap.byte s.serializedBufferPtr_.block
          (s.serializedBufferPtr_.off + k)
        = (be32 r.customerId_ ++ be32 (r.operation_ % 4294967296)).getD k 0 :=
    fun s k hk => GLDP_UserStatusRequest.request_doSerialize_bytes e r s k hk
  have hfield := GLDP_UserStatusRequest.request_doDeserialize_of_bytes e r r0
    (GLDP_UserStatusRequest._doSerialize e r st).heap st.serializedBufferPtr_ hc ho2
    (hbytes st)
  refine ⟨?_, ?_, ?_, hfield.1, hfield.2.1, ?_, ?_⟩
  · simp only [GLDP_UserStatusRequest.serializeSizeOf, GLDP_CustomerId.serializeSizeOf,
      NPS_Serialize.serializeSizeOf, NPS_Serialize._serializeSizeOf_uint32, Header.size_,
      sizeof_uint16, sizeof_uint32]
    split_ifs <;> rfl
  · intro k hk
    rw [hbytes st k hk, hm]
  · rw [GLDP_UserStatusRequest.request_doSerialize_eq]
  · rw [hfield.2.2.2, GLDP_UserStatusRequest.request_doSerialize_eq]
  · unfold NPS_Serialize.serialize NPS_Serialize.serializeInto NPS_Serialize.deserialize
    simp only [GLDP_UserStatusRequest.cls, hflag, Bool.false_eq_true, if_false]
    cases hh : r.serializeHeader_
    · simp only [Bool.false_eq_true, if_false]
      have key := GLDP_UserStatusRequest.request_doDeserialize_of_bytes e r
        { r0 with toNPS_Serialize :=
            { r0.toNPS_Serialize with header_ :=
                (r0.header_.setAllocation
                  (GLDP_UserStatusRequest._doSerialize e r
                    ⟨(hp.newArray (r.serializeSizeOf % 65536)).1,
                     (hp.newArray (r.serializeSizeOf % 65536)).2⟩).heap
                  (some (hp.newArray (r.serializeSizeOf % 65536)).2)).1 } }
        (r0.header_.setAllocation
          (GLDP_UserStatusRequest._doSerialize e r
            ⟨(hp.newArray (r.serializeSizeOf % 65536)).1,
             (hp.newArray (r.serializeSizeOf % 65536)).2⟩).heap
          (some (hp.newArray (r.serializeSizeOf % 65536)).2)).2
        (hp.newArray (r.serializeSizeOf % 65536)).2 hc ho2
        (by
          intro k hk
          rw [Header.setAllocation_byte]
          exact hbytes ⟨_, _⟩ k hk)
      exact ⟨key.1, key.2.1⟩
    · simp only [if_true]
      have key := GLDP_UserStatusRequest.request_doDeserialize_of_bytes e r
        { r0 with toNPS_Serialize :=
            { r0.toNPS_Serialize with header_ :=
                (r0.header_.setAllocation
                  (GLDP_UserStatusRequest._doSerialize e r
                    ⟨NPS_Serialize.writeHeader e r.toNPS_Serialize (r.serializeSizeOf % 65536)
                      (hp.newArray (r.serializeSizeOf % 65536)).1
                      (hp.newArray (r.serializeSizeOf % 65536)).2,
                     (hp.newArray (r.serializeSizeOf % 65536)).2.add Header.size_⟩).heap
                  (some (hp.newArray (r.serializeSizeOf % 65536)).2)).1 } }
        (r0.header_.setAllocation
          (GLDP_UserStatusRequest._doSerialize e r
            ⟨NPS_Serialize.writeHeader e r.toNPS_Serialize (r.serializeSizeOf % 65536)
              (hp.newArray (r.serializeSizeOf % 65536)).1
              (hp.newArray (r.serializeSizeOf % 65536)).2,
             (hp.newArray (r.serializeSizeOf % 65536)).2.add Header.size_⟩).heap
          (some (hp.newArray (r.serializeSizeOf % 65536)).2)).2
        ((hp.newArray (r.serializeSizeOf % 65536)).2.add Header.size_) hc ho2
        (by
          intro k hk
          rw [Header.setAllocation_byte]
          exact hbytes ⟨_, _⟩ k hk)
      exact ⟨key.1, key.2.1⟩

/-- C22 (witness): the request for customer 77 with tag `clearCacheEntry_`, written at
the start of an empty memory and read into a default request. -/
theorem UserStatusRequest_roundtrip_witness :
    sampleRequest.customerId_ < 4294967296 ∧ sampleRequest.operation_ < 4 ∧
    sampleRequest.serializeSizeOf = sampleRequest.toGLDP_CustomerId.serializeSizeOf + 4 ∧
    (GLDP_UserStatusRequest._doDeserialize .little (GLDP_UserStatusRequest.ctor 0 0)
      ⟨(GLDP_UserStatusRequest._doSerialize .little sampleRequest sampleStream).heap,
        sampleStream.serializedBufferPtr_⟩).1.operation = sampleRequest.operation :=
  ⟨by decide, by decide,
    (UserStatusRequest_roundtrip .little sampleRequest (GLDP_UserStatusRequest.ctor 0 0)
      sampleStream sampleHeap (by decide) (by decide) rfl).1,
    (UserStatusRequest_roundtrip .little sampleRequest (GLDP_UserStatusRequest.ctor 0 0)
      sampleStream sampleHeap (by decide) (by decide) rfl).2.2.2.2.1⟩

/-! ## The `int32` primitives and the field writer of `NPS_SessionKey` -/

theorem toUint32_toInt32 (x : Nat) : toUint32 (toInt32 x) = x % 4294967296 := by
  simp only [toUint32, toInt32]
  split_ifs <;> omega

theorem rep32_mod (e : Endian) (x : Nat) : rep32 e (x % 4294967296) = rep32 e x := by
  cases e <;> simp [rep32] <;> omega

theorem ntoh_uint32_mod (e : Endian) (x : Nat) :
    ntoh_uint32 e (x % 4294967296) = ntoh_uint32 e x := by
  cases e
  · simp [ntoh_uint32, ntohl, htonl]
  · simp [ntoh_uint32, ntohl, htonl, bswap32]
    omega

theorem NPS_Serialize._serialize_int32_eq (e : Endian) (st : Stream) (v : Int) :
    NPS_Serialize._serialize_int32 e st v false
      = { heap := st.heap.memcpyTo st.serializedBufferPtr_ (be32 (toUint32 v)),
          serializedBufferPtr_ := st.serializedBufferPtr_.add 4 } := by
  simp [NPS_Serialize._serialize_int32, NPS_Serialize._serializeRaw, hton_int32,
    toUint32_toInt32, rep32_mod, rep32_hton, be32, sizeof_uint32]

theorem NPS_Serialize._deserialize_int32_eq (e : Endian) (st : Stream) :
    NPS_Serialize._deserialize_int32 e st false
      = (toInt32
          (st.heap.byte st.serializedBufferPtr_.block st.serializedBufferPtr_.off % 256 * 16777216
          + st.heap.byte st.serializedBufferPtr_.block (st.serializedBufferPtr_.off + 1) % 256
            * 65536
          + st.heap.byte st.serializedBufferPtr_.block (st.serializedBufferPtr_.off + 2) % 256
            * 256
          + st.heap.byte st.serializedBufferPtr_.block (st.serializedBufferPtr_.off + 3) % 256),
         { st with serializedBufferPtr_ := st.serializedBufferPtr_.add 4 }) := by
  simp [NPS_Serialize._deserialize_int32, NPS_Serialize._deserializeRaw, sizeof_uint32,
    memcpyFrom_four, ntoh_int32, toUint32_toInt32, ntoh_uint32_mod, ntoh_val32]

theorem getD_take_of_lt (l : List Nat) (i n : Nat) (h : i < n) :
    (l.take n).getD i 0 = l.getD i 0 := by
  simp [List.getD_eq_getElem?_getD, List.getElem?_take, h]

theorem NPS_SessionKey.sessionKey_doSerialize_eq (e : Endian) (k : NPS_SessionKey)
    (st : Stream) :
    NPS_SessionKey._doSerialize e k st
      = { heap := (st.heap.memcpyTo st.serializedBufferPtr_ (k.key_.take k.keyLength_)).memcpyTo
            (st.serializedBufferPtr_.add k.keyLength_) (be32 (toUint32 k.expiryDate_)),
          serializedBufferPtr_ := st.serializedBufferPtr_.add (k.keyLength_ + 4) } := by
  simp [NPS_SessionKey._doSerialize, NPS_Serialize._serialize_buffer,
    NPS_Serialize._serializeRaw, NPS_Serialize._serialize_int32_eq, Ptr.add, Nat.add_assoc]

theorem NPS_SessionKey.sessionKey_doSerialize_bytes (e : Endian) (k : NPS_SessionKey)
    (st : Stream)
    (hkey : k.keyLength_ ≤ k.key_.length) :
    (∀ b o, ¬ (b = st.serializedBufferPtr_.block ∧ st.serializedBufferPtr_.off ≤ o) →
      (NPS_SessionKey._doSerialize e k st).heap.byte b o = st.heap.byte b o) ∧
    (∀ i, i < k.keyLength_ →
      (NPS_SessionKey._doSerialize e k st).heap.byte st.serializedBufferPtr_.block
        (st.serializedBufferPtr_.off + i) = k.key_.getD i 0) ∧
    (∀ j, j < 4 →
      (NPS_SessionKey._doSerialize e k st).heap.byte st.serializedBufferPtr_.block
        (st.serializedBufferPtr_.off + k.keyLength_ + j)
        = (be32 (toUint32 k.expiryDate_)).getD j 0) := by
  rw [NPS_SessionKey.sessionKey_doSerialize_eq]
  have hl : (k.key_.take k.keyLength_).length = k.keyLength_ := by
    rw [List.length_take]; omega
  refine ⟨?_, ?_, ?_⟩
  · intro b o h
    simp only [memcpyTo_byte, Ptr.add]
    rw [if_neg (by intro h2; exact h ⟨h2.1, by omega⟩),
      if_neg (by intro h2; exact h ⟨h2.1, h2.2.1⟩)]
  · intro i hi
    simp only [memcpyTo_byte, Ptr.add, hl]
    rw [if_neg, if_pos, Nat.add_sub_cancel_left, getD_take_of_lt _ _ _ hi]
    · exact ⟨trivial, by omega, by omega⟩
    · intro h2
      have := h2.2.1
      omega
  · intro j hj
    simp only [memcpyTo_byte, Ptr.add, be32, List.length_cons, List.length_nil]
    rw [if_pos, Nat.add_sub_cancel_left]
    exact ⟨trivial, by omega, by omega⟩

/-! ## The classes over the byte-buffer primitives

With the primitives as `_serializeSizeOf_buffer`, `_serialize_buffer` and
`_deserialize_buffer` give them, the classes over a parameter are the classes above. -/

theorem NPS_SessionKey.sessionKey_cls_eq_clsWith (e : Endian) :
    NPS_SessionKey.cls e = NPS_SessionKey.clsWith specBuffer e := rfl

theorem GLDP_UserStatus.userStatus_cls_eq_clsWith {α : Type} (e : Endian) (A : Class α) :
    GLDP_UserStatus.cls e A = GLDP_UserStatus.clsWith e (NPS_SessionKey.cls e) A := rfl

/-! ## The length-prefixed primitives invert each other -/

theorem NPS_SessionKey.clsWith_readsOnly (P : BufferPrimitives) (e : Endian)
    (hP : P.Inverse e) : (NPS_SessionKey.clsWith P e).ReadsOnly := by
  intro x st
  simp only [NPS_SessionKey.clsWith, NPS_SessionKey._doDeserializeWith,
    NPS_Serialize._deserialize_int32_eq]
  exact hP.readsOnly st _ _ _

end NPS
